import Mathlib

/-!
# ThingType: sprite indexing, binary codec, atlas dimensions and texture frames

A shallow embedding of `src/client/thingtype.cpp`.  C++ `int` values are integers that
wrap around modulo `2^32` after every arithmetic operation (two's complement), bytes of a
file stream are `Fin 256`, and operations that can throw return `Except`.  The image a
texture is built from is given by the alpha byte of each of its pixels.
-/

namespace Thing

/-! ## Machine integers -/

/-- The C++ `int` (32 bit, two's complement) that holds the integer `n` modulo `2^32`. -/
def wrapInt32 (n : Int) : Int := (n + 2147483648) % 4294967296 - 2147483648

/-- Multiplication of two `int`s. -/
def imul (a b : Int) : Int := wrapInt32 (a * b)

/-- Addition of two `int`s. -/
def iadd (a b : Int) : Int := wrapInt32 (a + b)

/-- Conversion of an `int` to `unsigned int`. -/
def toUInt32 (n : Int) : Nat := (n % 4294967296).toNat

/-! ## Data model -/

/-- The categories of things (`ThingCategory`); only `Creature` is told apart by the code. -/
inductive ThingCategory
  | Item
  | Creature
  | Effect
  | Missile
  | Invalid
  deriving DecidableEq, Repr

/-- The class `Size` of the framework: a width and a height, both `int`. -/
structure Size where
  width : Int
  height : Int
  deriving DecidableEq, Repr

/-- The area `width * height` of a `Size`, an `int`. -/
def Size.area (s : Size) : Int := imul s.width s.height

/-- The class `Point` of the framework. -/
structure Point where
  x : Int
  y : Int
  deriving DecidableEq, Repr

/-- Modelled from the spec: the `Light` value `{intensity, color}` of an attribute
(declared in thingtype.h, which is not among the sources). -/
structure Light where
  intensity : Nat
  color : Nat
  deriving DecidableEq, Repr

/-- Modelled from the spec: the `MarketData` record of an attribute (declared in
thingtype.h, which is not among the sources); the name is kept as its bytes. -/
structure MarketData where
  category : Nat
  tradeAs : Nat
  showAs : Nat
  name : List (Fin 256)
  restrictProfession : Nat
  requiredLevel : Nat
  deriving DecidableEq, Repr

/-- Modelled from the spec: the typed value an attribute kind is mapped to (a boolean
flag, a 16-bit integer, a `Light` value or a `MarketData` record). -/
inductive AttrValue
  | flag (b : Bool)
  | u16 (v : Nat)
  | light (l : Light)
  | market (m : MarketData)
  deriving DecidableEq, Repr

/-- Modelled from the spec: the attribute storage `m_attribs`, a mapping from attribute
kind to typed value (the storage class of the framework is not among the sources). -/
abbrev AttrStorage := List (Nat × AttrValue)

/-- The call `m_attribs.set(k, v)`: afterwards `k` is mapped to `v`. -/
def AttrStorage.set (m : AttrStorage) (k : Nat) (v : AttrValue) : AttrStorage :=
  (k, v) :: m.filter (fun e => e.1 != k)

/-- The value stored for `k`, if any. -/
def AttrStorage.find (m : AttrStorage) (k : Nat) : Option AttrValue :=
  m.lookup k

/-- The call `m_attribs.has(k)`. -/
def AttrStorage.has (m : AttrStorage) (k : Nat) : Bool :=
  (m.lookup k).isSome

/-- The call `m_attribs.get<uint16_t>(k)`; a key that is absent gives `0`. -/
def AttrStorage.getU16 (m : AttrStorage) (k : Nat) : Nat :=
  match m.lookup k with
  | some (AttrValue.u16 v) => v
  | _ => 0

/-- The call `m_attribs.get<Light>(k)`; a key that is absent gives the default light. -/
def AttrStorage.getLight (m : AttrStorage) (k : Nat) : Light :=
  match m.lookup k with
  | some (AttrValue.light l) => l
  | _ => { intensity := 0, color := 215 }

/-- The call `m_attribs.get<MarketData>(k)`; a key that is absent gives an empty record. -/
def AttrStorage.getMarket (m : AttrStorage) (k : Nat) : MarketData :=
  match m.lookup k with
  | some (AttrValue.market d) => d
  | _ => { category := 0, tradeAs := 0, showAs := 0, name := [],
           restrictProfession := 0, requiredLevel := 0 }

/-- The members of `ThingType` that the codec and the index arithmetic use.  The
animator is kept as the data its own reader produced. -/
structure ThingType where
  m_category : ThingCategory
  m_id : Nat
  m_null : Bool
  m_exactSize : Int
  m_realSize : Int
  m_size : Size
  m_displacement : Point
  m_animator : Option (List Nat)
  m_numPatternX : Int
  m_numPatternY : Int
  m_numPatternZ : Int
  m_animationPhases : Int
  m_layers : Int
  m_elevation : Int
  m_attribs : AttrStorage
  m_spritesIndex : List Nat
  deriving DecidableEq, Repr

/-- The constructor `ThingType::ThingType()`. -/
def ThingType.new : ThingType :=
  { m_category := ThingCategory.Invalid, m_id := 0, m_null := true, m_exactSize := 0,
    m_realSize := 0, m_size := { width := -1, height := -1 },
    m_displacement := { x := 0, y := 0 }, m_animator := none,
    m_numPatternX := 0, m_numPatternY := 0, m_numPatternZ := 0,
    m_animationPhases := 0, m_layers := 0, m_elevation := 0,
    m_attribs := [], m_spritesIndex := [] }

/-! ## Sprite index calculator -/

/-- The local `index` of `ThingType::getSpriteIndex` (lines 460 to 467): the mixed-radix
offset, formed in `int` arithmetic and converted to `unsigned int`.  Where the remainder
`a % m_animationPhases` is undefined in the source, the value here is of no account. -/
def ThingType.spriteIndex (t : ThingType) (w h l x y z a : Int) : Nat :=
  toUInt32
    (iadd (imul
      (iadd (imul
        (iadd (imul
          (iadd (imul
            (iadd (imul
              (iadd (imul (Int.tmod a t.m_animationPhases) t.m_numPatternZ) z)
              t.m_numPatternY) y)
            t.m_numPatternX) x)
          t.m_layers) l)
        t.m_size.height) h)
      t.m_size.width) w)

/-- The condition `assert(index < m_spritesIndex.size())` of `getSpriteIndex`. -/
def ThingType.spriteIndexInBounds (t : ThingType) (w h l x y z a : Int) : Prop :=
  t.spriteIndex w h l x y z a < t.m_spritesIndex.length

/-- The method `ThingType::getSpriteIndex` (lines 459 to 470): the index it returns, or
`none` where it returns nothing: the remainder `a % m_animationPhases` is undefined (a
division by zero, or `INT_MIN % -1`), or the assertion of line 468 fails. -/
def ThingType.getSpriteIndex (t : ThingType) (w h l x y z a : Int) : Option Nat :=
  if t.m_animationPhases = 0 ∨ (a = -2147483648 ∧ t.m_animationPhases = -1) then none
  else if t.spriteIndex w h l x y z a < t.m_spritesIndex.length then
    some (t.spriteIndex w h l x y z a)
  else none

/-- A coordinate tuple inside the extents stored in the descriptor. -/
def ThingType.validCoord (t : ThingType) (w h l x y z a : Int) : Prop :=
  (0 ≤ w ∧ w < t.m_size.width) ∧ (0 ≤ h ∧ h < t.m_size.height) ∧
  (0 ≤ l ∧ l < t.m_layers) ∧ (0 ≤ x ∧ x < t.m_numPatternX) ∧
  (0 ≤ y ∧ y < t.m_numPatternY) ∧ (0 ≤ z ∧ z < t.m_numPatternZ) ∧
  (0 ≤ a ∧ a < t.m_animationPhases)

/-- The number of coordinate tuples of a descriptor, as an unbounded integer. -/
def ThingType.totalCoords (t : ThingType) : Int :=
  t.m_animationPhases * t.m_numPatternZ * t.m_numPatternY * t.m_numPatternX *
    t.m_layers * t.m_size.height * t.m_size.width

/-- The mixed-radix offset of a tuple as an unbounded integer. -/
def ThingType.exactIndex (t : ThingType) (w h l x y z a : Int) : Int :=
  ((((((a * t.m_numPatternZ + z) * t.m_numPatternY + y) * t.m_numPatternX + x)
    * t.m_layers + l) * t.m_size.height + h) * t.m_size.width + w)

/-! ## File stream -/

/-- One byte of a file. -/
abbrev Byte := Fin 256

/-- Modelled from the spec: the external byte-stream reader and writer, seen as the
bytes still to be read (or the bytes written); the class `FileStream` of the framework
is not among the sources. -/
abbrev FileStream := List Byte

/-- The exceptions the decoder ends with. -/
inductive DecodeError
  | readFailed
  | corruptData (id : Nat) (category : ThingCategory) (count : Nat) (lastAttr : Int)
  | tooManySprites
  | lengthError
  | animatorFailed
  deriving DecidableEq, Repr

/-- Conversion of an integer to `uint8`. -/
def toByte (v : Int) : Byte := ⟨(v % 256).toNat, by omega⟩

/-- Modelled from the spec: `getU8`, an unsigned 8-bit read that throws at the end of
the data. -/
def getU8 : FileStream → Except DecodeError (Nat × FileStream)
  | [] => Except.error DecodeError.readFailed
  | b :: s => Except.ok (b.val, s)

/-- Modelled from the spec: `getU16`, an unsigned 16-bit read (low byte first). -/
def getU16 : FileStream → Except DecodeError (Nat × FileStream)
  | b0 :: b1 :: s => Except.ok (b0.val + 256 * b1.val, s)
  | _ => Except.error DecodeError.readFailed

/-- Modelled from the spec: `getU32`, an unsigned 32-bit read (low byte first). -/
def getU32 : FileStream → Except DecodeError (Nat × FileStream)
  | b0 :: b1 :: b2 :: b3 :: s =>
      Except.ok (b0.val + 256 * b1.val + 65536 * b2.val + 16777216 * b3.val, s)
  | _ => Except.error DecodeError.readFailed

/-- Modelled from the spec: `getString`, a length-prefixed string read (16-bit length,
then that many bytes). -/
def getString (s : FileStream) : Except DecodeError (List Byte × FileStream) :=
  match getU16 s with
  | Except.error e => Except.error e
  | Except.ok (len, s1) =>
      if len ≤ s1.length then Except.ok (s1.take len, s1.drop len)
      else Except.error DecodeError.readFailed

/-- Modelled from the spec: `addU8`, the byte written for an integer argument. -/
def addU8 (v : Int) : FileStream := [toByte v]

/-- Modelled from the spec: `addU16`, the two bytes written (low byte first). -/
def addU16 (v : Int) : FileStream := [toByte v, toByte (v / 256)]

/-- Modelled from the spec: `addU32`, the four bytes written (low byte first). -/
def addU32 (v : Int) : FileStream :=
  [toByte v, toByte (v / 256), toByte (v / 65536), toByte (v / 16777216)]

/-- Modelled from the spec: `addString`, the 16-bit length followed by the bytes. -/
def addString (name : List Byte) : FileStream := addU16 name.length ++ name

/-- The animator collaborator (`Animator::unserialize` and `Animator::serialize`, not
among the sources): how it reads its record for a number of phases, giving its data and
the rest of the stream or failing, and the bytes it writes for its data. -/
structure AnimatorCodec where
  unserialize : Int → FileStream → Option (List Nat × FileStream)
  serialize : List Nat → FileStream

/-! ## Attribute kinds -/

/-- The ordinals of the `ThingAttr` enumerators the codec names.  The enumeration is
declared in thingtype.h, which is not among the sources, so the code is read for any
such table; every kind is below 256 (it is stored in a byte). -/
structure ThingAttrTable where
  ThingAttrGround : Nat
  ThingAttrWritable : Nat
  ThingAttrWritableOnce : Nat
  ThingAttrLight : Nat
  ThingAttrDisplacement : Nat
  ThingAttrElevation : Nat
  ThingAttrMinimapColor : Nat
  ThingAttrLensHelp : Nat
  ThingAttrCloth : Nat
  ThingAttrMarket : Nat
  ThingAttrUsable : Nat
  ThingAttrNoMoveAnimation : Nat
  ThingAttrChargeable : Nat
  ThingLastAttr : Nat
  deriving DecidableEq, Repr

/-- Modelled from the spec: the `ThingAttr` enumeration of thingtype.h (not among the
sources), with the ordinals of the OTClient header this file is written against: the
kinds from the writable group onward, the kind with the legacy wire code 16
(`ThingAttrNoMoveAnimation`, ordinal 253), and the terminator `ThingLastAttr` = 255. -/
def thingAttr : ThingAttrTable :=
  { ThingAttrGround := 0, ThingAttrWritable := 8, ThingAttrWritableOnce := 9,
    ThingAttrLight := 21, ThingAttrDisplacement := 24, ThingAttrElevation := 25,
    ThingAttrMinimapColor := 28, ThingAttrLensHelp := 29, ThingAttrCloth := 32,
    ThingAttrMarket := 33, ThingAttrUsable := 34, ThingAttrNoMoveAnimation := 253,
    ThingAttrChargeable := 254, ThingLastAttr := 255 }

/-- The case labels of the decoder's `switch` are pairwise different, as the compiler
demands of one `switch` statement. -/
def ThingAttrTable.distinctLabels (T : ThingAttrTable) : Prop :=
  [T.ThingAttrDisplacement, T.ThingAttrLight, T.ThingAttrMarket, T.ThingAttrElevation,
   T.ThingAttrUsable, T.ThingAttrGround, T.ThingAttrWritable, T.ThingAttrWritableOnce,
   T.ThingAttrMinimapColor, T.ThingAttrCloth, T.ThingAttrLensHelp].Nodup

/-- The wire code `serialize` writes for the attribute kind `i` (lines 56 to 60). -/
def ThingAttrTable.serializeCode (T : ThingAttrTable) (i : Nat) : Nat :=
  if i = T.ThingAttrChargeable then T.ThingAttrWritable
  else if i ≥ T.ThingAttrWritable then i + 1
  else i

/-- The attribute kind `unserialize` takes the wire code `attr` for (lines 138 to 141). -/
def ThingAttrTable.unserializeCode (T : ThingAttrTable) (attr : Nat) : Nat :=
  if attr = 16 then T.ThingAttrNoMoveAnimation
  else if attr > 16 then attr - 1
  else attr

/-- The kinds whose payload is one 16-bit integer in the decoder's `switch`, apart from
the elevation, which has a case of its own. -/
def ThingAttrTable.isU16Label (T : ThingAttrTable) (attr : Nat) : Bool :=
  attr == T.ThingAttrUsable || attr == T.ThingAttrGround || attr == T.ThingAttrWritable ||
  attr == T.ThingAttrWritableOnce || attr == T.ThingAttrMinimapColor ||
  attr == T.ThingAttrCloth || attr == T.ThingAttrLensHelp

/-! ## Binary encoder -/

/-- The payload `serialize` writes after the wire code `attr`: its `switch(attr)`,
lines 63 to 97. -/
def serializeAttr (T : ThingAttrTable) (t : ThingType) (attr : Nat) : FileStream :=
  if attr = T.ThingAttrDisplacement then
    addU16 t.m_displacement.x ++ addU16 t.m_displacement.y
  else if attr = T.ThingAttrLight then
    addU16 (t.m_attribs.getLight attr).intensity ++ addU16 (t.m_attribs.getLight attr).color
  else if attr = T.ThingAttrMarket then
    addU16 (t.m_attribs.getMarket attr).category ++
    addU16 (t.m_attribs.getMarket attr).tradeAs ++
    addU16 (t.m_attribs.getMarket attr).showAs ++
    addString (t.m_attribs.getMarket attr).name ++
    addU16 (t.m_attribs.getMarket attr).restrictProfession ++
    addU16 (t.m_attribs.getMarket attr).requiredLevel
  else if attr = T.ThingAttrElevation ∨ T.isU16Label attr = true then
    addU16 (t.m_attribs.getU16 attr)
  else
    []

/-- The attribute section `serialize` writes: the loop of lines 52 to 98 over the kinds
`0 .. ThingLastAttr - 1`, skipping the kinds the descriptor does not have. -/
def serializeAttrs (T : ThingAttrTable) (t : ThingType) : FileStream :=
  (List.range T.ThingLastAttr).flatMap fun i =>
    if t.m_attribs.has i = true then
      addU8 (T.serializeCode i) ++ serializeAttr T t (T.serializeCode i)
    else
      []

/-- The bytes `ThingType::serialize` writes. -/
def ThingType.serialize (T : ThingAttrTable) (A : AnimatorCodec) (t : ThingType) :
    FileStream :=
  serializeAttrs T t ++ addU8 T.ThingLastAttr ++
  addU8 t.m_size.width ++ addU8 t.m_size.height ++
  (if t.m_size.width > 1 ∨ t.m_size.height > 1 then addU8 t.m_realSize else []) ++
  addU8 t.m_layers ++ addU8 t.m_numPatternX ++ addU8 t.m_numPatternY ++
  addU8 t.m_numPatternZ ++ addU8 t.m_animationPhases ++
  (if t.m_animationPhases > 1 then
    match t.m_animator with
    | some a => A.serialize a
    | none => []
   else []) ++
  t.m_spritesIndex.flatMap fun id => addU32 id

/-! ## Binary decoder -/

/-- The decoder's `switch(attr)`, lines 143 to 185: the payload read for the attribute
kind `attr` and the value stored for it. -/
def unserializeAttr (T : ThingAttrTable) (attr : Nat) (t : ThingType) (s : FileStream) :
    Except DecodeError (ThingType × FileStream) :=
  if attr = T.ThingAttrDisplacement then do
    let (x, s) ← getU16 s
    let (y, s) ← getU16 s
    pure ({ t with m_displacement := { x := x, y := y },
                   m_attribs := t.m_attribs.set attr (AttrValue.flag true) }, s)
  else if attr = T.ThingAttrLight then do
    let (intensity, s) ← getU16 s
    let (color, s) ← getU16 s
    pure ({ t with m_attribs :=
      t.m_attribs.set attr (AttrValue.light { intensity := intensity, color := color }) }, s)
  else if attr = T.ThingAttrMarket then do
    let (category, s) ← getU16 s
    let (tradeAs, s) ← getU16 s
    let (showAs, s) ← getU16 s
    let (name, s) ← getString s
    let (restrictProfession, s) ← getU16 s
    let (requiredLevel, s) ← getU16 s
    pure ({ t with m_attribs := t.m_attribs.set attr (AttrValue.market
      { category := category, tradeAs := tradeAs, showAs := showAs, name := name,
        restrictProfession := restrictProfession, requiredLevel := requiredLevel }) }, s)
  else if attr = T.ThingAttrElevation then do
    let (elevation, s) ← getU16 s
    pure ({ t with m_elevation := elevation,
                   m_attribs := t.m_attribs.set attr (AttrValue.u16 elevation) }, s)
  else if T.isU16Label attr = true then do
    let (v, s) ← getU16 s
    pure ({ t with m_attribs := t.m_attribs.set attr (AttrValue.u16 v) }, s)
  else
    pure ({ t with m_attribs := t.m_attribs.set attr (AttrValue.flag true) }, s)

/-- The state of the attribute loop when it is left: the flag `done`, the counter
`count`, the last value of `attr`, the descriptor and the stream. -/
structure AttrLoop where
  done : Bool
  count : Nat
  attr : Int
  thing : ThingType
  stream : FileStream
  deriving DecidableEq, Repr

/-- The attribute loop of `unserialize`, lines 130 to 186, with `n` iterations left. -/
def unserializeAttrs (T : ThingAttrTable) :
    Nat → Nat → Int → ThingType → FileStream → Except DecodeError AttrLoop
  | 0, count, attr, t, s =>
      pure { done := false, count := count, attr := attr, thing := t, stream := s }
  | n + 1, count, _, t, s => do
      let (attr, s) ← getU8 s
      if attr = T.ThingLastAttr then
        pure { done := true, count := count + 1, attr := attr, thing := t, stream := s }
      else do
        let (t, s) ← unserializeAttr T (T.unserializeCode attr) t s
        unserializeAttrs T n (count + 1) (T.unserializeCode attr) t s

/-- The call `m_spritesIndex.resize(n)`. -/
def resize (v : List Nat) (n : Nat) : List Nat :=
  v.take n ++ List.replicate (n - v.length) 0

/-- The loop of lines 232 and 233: `k` sprite ids are read and stored from index `i`
onward. -/
def readSprites : Nat → Nat → List Nat → FileStream → Except DecodeError (List Nat × FileStream)
  | 0, _, v, s => pure (v, s)
  | k + 1, i, v, s => do
      let (id, s) ← getU32 s
      readSprites k (i + 1) (v.set i id) s

/-- Lines 199 to 201: the group-kind byte, read only when the thing has frame groups
(`FrameGroupDefault` otherwise). -/
def getFrameGroupType (hasFrameGroups : Bool) (s : FileStream) :
    Except DecodeError (Nat × FileStream) :=
  if hasFrameGroups = true then getU8 s else pure (0, s)

/-- Lines 206 to 211: the new values of `m_realSize` and `m_exactSize` for a group of
`width` x `height` tiles. -/
def getRealSize (t : ThingType) (width height : Nat) (s : FileStream) :
    Except DecodeError (Int × Int × FileStream) :=
  if width > 1 ∨ height > 1 then do
    let (realSize, s) ← getU8 s
    pure ((realSize : Int), min (realSize : Int) (max (imul width 32) (imul height 32)), s)
  else
    pure (t.m_realSize, (32 : Int), s)

/-- Lines 221 to 224: the new value of `m_animator`; the animator reads its record when
the group has more than one phase. -/
def getAnimator (A : AnimatorCodec) (t : ThingType) (groupAnimationsPhases : Nat)
    (s : FileStream) : Except DecodeError (Option (List Nat) × FileStream) :=
  if groupAnimationsPhases > 1 then
    match A.unserialize groupAnimationsPhases s with
    | some (a, s) => pure (some a, s)
    | none => throw DecodeError.animatorFailed
  else
    pure (t.m_animator, s)

/-- One iteration of the frame group loop, lines 199 to 235, from the descriptor, the
running count `totalSpritesCount` and the stream to their values after the group.  The
members the body assigns are written in one step once all of them are known. -/
def unserializeFrameGroup (A : AnimatorCodec) (hasFrameGroups : Bool) (t : ThingType)
    (totalSpritesCount : Int) (s : FileStream) :
    Except DecodeError (ThingType × Int × FileStream) := do
  let (_, s) ← getFrameGroupType hasFrameGroups s
  let (width, s) ← getU8 s
  let (height, s) ← getU8 s
  let (realSize, exactSize, s) ← getRealSize t width height s
  let (layers, s) ← getU8 s
  let (numPatternX, s) ← getU8 s
  let (numPatternY, s) ← getU8 s
  let (numPatternZ, s) ← getU8 s
  let (groupAnimationsPhases, s) ← getU8 s
  let (animator, s) ← getAnimator A t groupAnimationsPhases s
  if iadd totalSpritesCount
      (imul (imul (imul (imul (imul (Size.mk width height).area layers) numPatternX)
        numPatternY) numPatternZ) groupAnimationsPhases) > 4096 then
    throw DecodeError.tooManySprites
  else if iadd totalSpritesCount
      (imul (imul (imul (imul (imul (Size.mk width height).area layers) numPatternX)
        numPatternY) numPatternZ) groupAnimationsPhases) < 0 then
    throw DecodeError.lengthError
  else do
    let (v, s) ← readSprites
      (iadd totalSpritesCount
        (imul (imul (imul (imul (imul (Size.mk width height).area layers) numPatternX)
          numPatternY) numPatternZ) groupAnimationsPhases) - totalSpritesCount).toNat
      totalSpritesCount.toNat
      (resize t.m_spritesIndex
        (iadd totalSpritesCount
          (imul (imul (imul (imul (imul (Size.mk width height).area layers) numPatternX)
            numPatternY) numPatternZ) groupAnimationsPhases)).toNat) s
    pure ({ t with
        m_size := { width := width, height := height },
        m_realSize := realSize, m_exactSize := exactSize,
        m_layers := layers, m_numPatternX := numPatternX, m_numPatternY := numPatternY,
        m_numPatternZ := numPatternZ,
        m_animationPhases := iadd t.m_animationPhases groupAnimationsPhases,
        m_animator := animator, m_spritesIndex := v },
      iadd totalSpritesCount
        (imul (imul (imul (imul (imul (Size.mk width height).area layers) numPatternX)
          numPatternY) numPatternZ) groupAnimationsPhases), s)

/-- The frame group loop of `unserialize`, line 198, with `n` groups left. -/
def unserializeFrameGroups (A : AnimatorCodec) (hasFrameGroups : Bool) :
    Nat → ThingType → Int → FileStream → Except DecodeError (ThingType × FileStream)
  | 0, t, _, s => pure (t, s)
  | n + 1, t, totalSpritesCount, s => do
      let (t, totalSpritesCount, s) ← unserializeFrameGroup A hasFrameGroups t totalSpritesCount s
      unserializeFrameGroups A hasFrameGroups n t totalSpritesCount s

/-- Lines 192 and 193: the number of frame groups, a byte of the stream for a creature
and 1 otherwise. -/
def getGroupCount (category : ThingCategory) (s : FileStream) :
    Except DecodeError (Nat × FileStream) :=
  if category = ThingCategory.Creature then getU8 s else pure (1, s)

/-- The second half of `unserialize`, lines 192 to 236: the group count and the frame
groups. -/
def unserializeGeometry (A : AnimatorCodec) (category : ThingCategory) (t : ThingType)
    (s : FileStream) : Except DecodeError (ThingType × FileStream) := do
  let (groupCount, s) ← getGroupCount category s
  unserializeFrameGroups A (decide (category = ThingCategory.Creature)) groupCount
    { t with m_animationPhases := 0 } 0 s

/-- The method `ThingType::unserialize` on the descriptor `t`: the descriptor it leaves
and the rest of the stream, or the exception it throws. -/
def ThingType.unserialize (T : ThingAttrTable) (A : AnimatorCodec) (t : ThingType)
    (clientId : Nat) (category : ThingCategory) (s : FileStream) :
    Except DecodeError (ThingType × FileStream) := do
  let r ← unserializeAttrs T T.ThingLastAttr 0 (-1)
    { t with m_null := false, m_id := clientId, m_category := category } s
  if r.done = false then
    throw (DecodeError.corruptData r.thing.m_id r.thing.m_category r.count r.attr)
  else
    unserializeGeometry A category r.thing r.stream

/-! ## Records read by the decoder -/

/-- The wire codes of the attribute records the decoder reads in full, in stream order,
in at most `n` iterations of its loop: the code byte of every record whose payload was
read, up to and including the first terminator. -/
def attrWireCodes (T : ThingAttrTable) : Nat → ThingType → FileStream → List Nat
  | 0, _, _ => []
  | n + 1, t, s =>
      match getU8 s with
      | Except.error _ => []
      | Except.ok (attr, s1) =>
          if attr = T.ThingLastAttr then [attr]
          else
            match unserializeAttr T (T.unserializeCode attr) t s1 with
            | Except.error _ => []
            | Except.ok (t2, s2) => attr :: attrWireCodes T n t2 s2

/-- The descriptor as it stands after each of the frame groups the loop reads, in group
order (at most `n` groups, up to the first one that fails). -/
def frameGroupStates (A : AnimatorCodec) (hasFrameGroups : Bool) :
    Nat → ThingType → Int → FileStream → List ThingType
  | 0, _, _, _ => []
  | n + 1, t, totalSpritesCount, s =>
      match unserializeFrameGroup A hasFrameGroups t totalSpritesCount s with
      | Except.error _ => []
      | Except.ok (t2, count2, s2) => t2 :: frameGroupStates A hasFrameGroups n t2 count2 s2

/-- The descriptor after each frame group that `unserialize` reads from the stream `s`. -/
def ThingType.unserializeGroupStates (T : ThingAttrTable) (A : AnimatorCodec)
    (t : ThingType) (clientId : Nat) (category : ThingCategory) (s : FileStream) :
    List ThingType :=
  match unserializeAttrs T T.ThingLastAttr 0 (-1)
      { t with m_null := false, m_id := clientId, m_category := category } s with
  | Except.error _ => []
  | Except.ok r =>
      if r.done = false then []
      else
        match getGroupCount category r.stream with
        | Except.error _ => []
        | Except.ok (groupCount, s1) =>
            frameGroupStates A (decide (category = ThingCategory.Creature)) groupCount
              { r.thing with m_animationPhases := 0 } 0 s1

/-- The extents `(width, height, layers, patternX, patternY, patternZ)` of a descriptor. -/
def ThingType.extents (t : ThingType) : Size × Int × Int × Int × Int :=
  (t.m_size, t.m_layers, t.m_numPatternX, t.m_numPatternY, t.m_numPatternZ)

/-! ## Atlas dimensions -/

/-- The statement `k <<= 1` on an `int`. -/
def shl1 (k : Int) : Int := wrapInt32 (k * 2)

/-- The loop `while(k < w) k <<= 1;` of lines 430 and 435, run for at most `fuel` tests
of its condition; `none` when it has not ended by then. -/
def roundUpLoop : Nat → Int → Int → Option Int
  | 0, _, _ => none
  | fuel + 1, k, w => if k < w then roundUpLoop fuel (shl1 k) w else some k

/-- The inner loop `for(int j=h;j<=MAX;j<<=1)` of line 446 for a fixed `i`. -/
def bestLoopJ (numSprites i : Int) : Nat → Int → Size → Option Size
  | 0, _, _ => none
  | fuel + 1, j, bestDimension =>
      if j ≤ 32 then
        bestLoopJ numSprites i fuel (shl1 j)
          (if (Size.mk i j).area < numSprites then bestDimension
           else if (Size.mk i j).area < bestDimension.area ∨
                ((Size.mk i j).area = bestDimension.area ∧
                  iadd i j < iadd bestDimension.width bestDimension.height) then Size.mk i j
           else bestDimension)
      else some bestDimension

/-- The outer loop `for(int i=w;i<=MAX;i<<=1)` of line 445. -/
def bestLoopI (numSprites h : Int) : Nat → Int → Size → Option Size
  | 0, _, _ => none
  | fuel + 1, i, bestDimension =>
      if i ≤ 32 then
        match bestLoopJ numSprites i 64 h bestDimension with
        | some b => bestLoopI numSprites h fuel (shl1 i) b
        | none => none
      else some bestDimension

/-- The method `ThingType::getBestTextureDimension`: the size returned, or `none` when
an assertion fails or a loop does not end. -/
def getBestTextureDimension (w h count : Int) : Option Size :=
  match roundUpLoop 64 1 w, roundUpLoop 64 1 h with
  | some w2, some h2 =>
      if imul (imul w2 h2) count ≤ 1024 ∧ w2 ≤ 32 ∧ h2 ≤ 32 then
        bestLoopI (imul (imul w2 h2) count) h2 64 w2 (Size.mk 32 32)
      else none
  | _, _ => none

/-! ## Sample data -/

/-- An animator codec that reads and writes nothing. -/
def noAnimator : AnimatorCodec :=
  { unserialize := fun _ s => some ([], s), serialize := fun _ => [] }

/-- A descriptor with the given extents, phase count and sprite ids, and nothing else. -/
def ThingType.sample (category : ThingCategory) (w h l x y z a : Int) (ids : List Nat) :
    ThingType :=
  { ThingType.new with
    m_category := category, m_null := false, m_size := { width := w, height := h },
    m_layers := l, m_numPatternX := x, m_numPatternY := y, m_numPatternZ := z,
    m_animationPhases := a, m_spritesIndex := ids }

/-! ## Kinds of failure -/

/-- Whether an exception is the 'corrupt data' error of line 189. -/
def DecodeError.isCorruptData : DecodeError → Bool
  | DecodeError.corruptData _ _ _ _ => true
  | _ => false

/-- The computation `x` does not end with the 'corrupt data' error. -/
def NoCorrupt {α : Type} (x : Except DecodeError α) : Prop :=
  ∀ e, x = Except.error e → e.isCorruptData = false

/-- A size of at least 1 x 1 and at most 32 x 32 tiles whose area is at least
`numSprites`. -/
def Size.holds (numSprites : Int) (b : Size) : Prop :=
  (1 ≤ b.width ∧ b.width ≤ 32) ∧ (1 ≤ b.height ∧ b.height ≤ 32) ∧
    numSprites ≤ b.width * b.height

/-! ## Texture atlas -/

/-- The least power of two that is at least `w`: the `roundUpPow2` of the
specification, which the loops of lines 429 to 437 compute. -/
def roundUpPow2 (w : Int) : Int := 2 ^ Nat.clog 2 w.toNat

/-- The order in which `getBestTextureDimension` prefers the size `a` to the size `b`
or holds them equal: a smaller area, or the same area and no larger `width + height`. -/
def Size.noWorse (a b : Size) : Prop :=
  a.width * a.height < b.width * b.height ∨
    (a.width * a.height = b.width * b.height ∧ a.width + a.height ≤ b.width + b.height)

/-- Modelled from the spec: the constant `Otc::TILE_PIXELS`, the 32 pixels a tile is
wide and high (declared in const.h, which is not among the sources). -/
def TILE_PIXELS : Int := 32

/-- Subtraction of two `int`s. -/
def isub (a b : Int) : Int := wrapInt32 (a - b)

/-- The sum of two points (`Point::operator+`). -/
def Point.add (p q : Point) : Point := { x := iadd p.x q.x, y := iadd p.y q.y }

/-- A point scaled by an `int` (`Point::operator*`). -/
def Point.mul (p : Point) (k : Int) : Point := { x := imul p.x k, y := imul p.y k }

/-- A size scaled by an `int` (`Size::operator*`). -/
def Size.mul (s : Size) (k : Int) : Size :=
  { width := imul s.width k, height := imul s.height k }

/-- Modelled from the spec: the class `Rect` of the framework (its header is not among
the sources), a rectangle of pixels held by its first column `left`, first row `top`,
last column `right` and last row `bottom`, which `setLeft`, `setTop`, `setRight` and
`setBottom` overwrite one by one. -/
structure Rect where
  left : Int
  top : Int
  right : Int
  bottom : Int
  deriving DecidableEq, Repr

/-- Modelled from the spec: `Rect::width`, the number of columns from `left` to `right`. -/
def Rect.width (r : Rect) : Int := iadd (isub r.right r.left) 1

/-- Modelled from the spec: `Rect::height`, the number of rows from `top` to `bottom`. -/
def Rect.height (r : Rect) : Int := iadd (isub r.bottom r.top) 1

/-- Modelled from the spec: `Rect::size`. -/
def Rect.size (r : Rect) : Size := { width := r.width, height := r.height }

/-- The method `ThingType::getTextureIndex` (lines 472 to 476). -/
def ThingType.getTextureIndex (t : ThingType) (l x y z : Int) : Nat :=
  toUInt32 (iadd (imul (iadd (imul (iadd (imul l t.m_numPatternZ) z) t.m_numPatternY) y)
    t.m_numPatternX) x)

/-- The local `textureLayers` of `getTexture` (lines 349 to 355). -/
def ThingType.textureLayers (t : ThingType) : Int :=
  if t.m_category = ThingCategory.Creature ∧ t.m_layers ≥ 2 then 5 else 1

/-- The local `numLayers` of `getTexture` (lines 350 to 355). -/
def ThingType.numLayers (t : ThingType) : Int :=
  if t.m_category = ThingCategory.Creature ∧ t.m_layers ≥ 2 then 5 else t.m_layers

/-- The local `indexSize` of `getTexture` (line 357), the length the three arrays of a
phase are resized to. -/
def ThingType.indexSize (t : ThingType) : Int :=
  imul (imul (imul t.textureLayers t.m_numPatternX) t.m_numPatternY) t.m_numPatternZ

/-- The values `start, start + 1, ..` below `bound` that the variable of a loop
`for(int v = start; v < bound; ++v)` takes; `++v` cannot wrap since `v < bound`. -/
def loopRange (start bound : Int) : List Int :=
  (List.range (bound - start).toNat).map fun (k : Nat) => start + (k : Int)

/-- The values `(l, x, y, z)` of the loop variables of lines 369 to 372 at each run of
the innermost body, in the order of the runs. -/
def ThingType.frameLoop (t : ThingType) : List (Int × Int × Int × Int) :=
  (loopRange 0 t.m_numPatternZ).flatMap fun z =>
    (loopRange 0 t.m_numPatternY).flatMap fun y =>
      (loopRange 0 t.m_numPatternX).flatMap fun x =>
        (loopRange 0 t.numLayers).map fun l => (l, x, y, z)

/-- The local `frameIndex` of `getTexture` (line 374) for the loop variables `l, x, y, z`:
the `unsigned int` that `getTextureIndex` returns, converted to `int`. -/
def ThingType.frameIndex (t : ThingType) (l x y z : Int) : Int :=
  wrapInt32 (t.getTextureIndex (Int.tmod l t.textureLayers) x y z)

/-- The local `framePos` of `getTexture` (lines 375 and 376), the first pixel of the
cell of a frame; a division by zero, undefined in the source, gives 0 here. -/
def framePos (textureSize size : Size) (frameIndex : Int) : Point :=
  (Point.mk
    (imul (Int.tmod frameIndex (Int.tdiv textureSize.width size.width)) size.width)
    (imul (Int.tdiv frameIndex (Int.tdiv textureSize.width size.width)) size.height)).mul
    TILE_PIXELS

/-- What a scan that started with the rectangle `r0` and has seen the pixels `S` knows
of its rectangle `r`: no edge has moved inward, every pixel seen with a non-zero alpha
byte is inside, and every edge is where it was or at such a pixel. -/
def ScanInv (alpha : Int → Int → Nat) (S : Int → Int → Prop) (r0 r : Rect) : Prop :=
  (r.left ≤ r0.left ∧ r.top ≤ r0.top ∧ r0.right ≤ r.right ∧ r0.bottom ≤ r.bottom) ∧
  (∀ x y, S x y → alpha x y ≠ 0 → r.left ≤ x ∧ r.top ≤ y ∧ x ≤ r.right ∧ y ≤ r.bottom) ∧
  (r.left = r0.left ∨ ∃ x y, S x y ∧ alpha x y ≠ 0 ∧ r.left = x) ∧
  (r.top = r0.top ∨ ∃ x y, S x y ∧ alpha x y ≠ 0 ∧ r.top = y) ∧
  (r.right = r0.right ∨ ∃ x y, S x y ∧ alpha x y ≠ 0 ∧ r.right = x) ∧
  (r.bottom = r0.bottom ∨ ∃ x y, S x y ∧ alpha x y ≠ 0 ∧ r.bottom = y)

theorem wrapInt32_modEq (n : Int) : wrapInt32 n ≡ n [ZMOD 4294967296] := by
  unfold wrapInt32 Int.ModEq
  omega

theorem wrapInt32_of_range {n : Int} (h0 : -2147483648 ≤ n) (h1 : n < 2147483648) :
    wrapInt32 n = n := by
  unfold wrapInt32
  omega

theorem imul_modEq {a b c d : Int} (h1 : a ≡ b [ZMOD 4294967296])
    (h2 : c ≡ d [ZMOD 4294967296]) : imul a c ≡ b * d [ZMOD 4294967296] :=
  (wrapInt32_modEq _).trans (h1.mul h2)

theorem iadd_modEq {a b c d : Int} (h1 : a ≡ b [ZMOD 4294967296])
    (h2 : c ≡ d [ZMOD 4294967296]) : iadd a c ≡ b + d [ZMOD 4294967296] :=
  (wrapInt32_modEq _).trans (h1.add h2)

theorem toUInt32_of_modEq {a b : Int} (h : a ≡ b [ZMOD 4294967296]) (h0 : 0 ≤ b)
    (h1 : b < 4294967296) : (toUInt32 a : Int) = b := by
  unfold toUInt32
  rw [h, Int.emod_eq_of_lt h0 h1]
  exact Int.toNat_of_nonneg h0

theorem radix_range {q r m n : Int} (hq0 : 0 ≤ q) (hq : q < m) (hr0 : 0 ≤ r) (hr : r < n) :
    0 ≤ q * n + r ∧ q * n + r < m * n := by
  constructor
  · nlinarith
  · nlinarith

theorem radix_inj {q r q2 r2 n : Int} (hr0 : 0 ≤ r) (hr : r < n) (hs0 : 0 ≤ r2)
    (hs : r2 < n) (h : q * n + r = q2 * n + r2) : q = q2 ∧ r = r2 := by
  have hq : q = q2 := by
    rcases lt_trichotomy q q2 with hlt | heq | hgt
    · exfalso
      nlinarith
    · exact heq
    · exfalso
      nlinarith
  subst hq
  exact ⟨rfl, by linarith⟩

theorem radix_surj {i m n : Int} (hn : 0 < n) (hi0 : 0 ≤ i) (hi : i < m * n) :
    ∃ q r, (0 ≤ q ∧ q < m) ∧ (0 ≤ r ∧ r < n) ∧ q * n + r = i := by
  refine ⟨i / n, i % n, ⟨Int.ediv_nonneg hi0 hn.le, ?_⟩,
    ⟨Int.emod_nonneg _ hn.ne', Int.emod_lt_of_pos _ hn⟩, ?_⟩
  · exact Int.ediv_lt_of_lt_mul hn hi
  · rw [mul_comm]
    exact Int.ediv_add_emod i n



theorem getSpriteIndex_modEq (t : ThingType) (w h l x y z a : Int)
    (ha0 : 0 ≤ a) (ha : a < t.m_animationPhases) :
    (t.spriteIndex w h l x y z a : Int) % 4294967296
      = t.exactIndex w h l x y z a % 4294967296 := by
  have hmod : Int.tmod a t.m_animationPhases = a := by
    rw [Int.tmod_eq_emod ha0 (by omega)]
    exact Int.emod_eq_of_lt ha0 ha
  have key : (iadd (imul
      (iadd (imul
        (iadd (imul
          (iadd (imul
            (iadd (imul
              (iadd (imul (Int.tmod a t.m_animationPhases) t.m_numPatternZ) z)
              t.m_numPatternY) y)
            t.m_numPatternX) x)
          t.m_layers) l)
        t.m_size.height) h)
      t.m_size.width) w) ≡ t.exactIndex w h l x y z a [ZMOD 4294967296] := by
    rw [hmod]
    unfold ThingType.exactIndex
    exact iadd_modEq (imul_modEq (iadd_modEq (imul_modEq (iadd_modEq (imul_modEq
      (iadd_modEq (imul_modEq (iadd_modEq (imul_modEq (iadd_modEq (imul_modEq
        (Int.ModEq.refl _) (Int.ModEq.refl _)) (Int.ModEq.refl _)) (Int.ModEq.refl _))
        (Int.ModEq.refl _)) (Int.ModEq.refl _)) (Int.ModEq.refl _)) (Int.ModEq.refl _))
        (Int.ModEq.refl _)) (Int.ModEq.refl _)) (Int.ModEq.refl _)) (Int.ModEq.refl _))
        (Int.ModEq.refl _)
  unfold ThingType.spriteIndex toUInt32
  rw [Int.toNat_of_nonneg (Int.emod_nonneg _ (by norm_num)), Int.emod_emod_of_dvd _ (dvd_refl _)]
  exact key

theorem exactIndex_range (t : ThingType) (w h l x y z a : Int)
    (hv : t.validCoord w h l x y z a) :
    0 ≤ t.exactIndex w h l x y z a ∧ t.exactIndex w h l x y z a < t.totalCoords := by
  obtain ⟨⟨hw0, hw⟩, ⟨hh0, hh⟩, ⟨hl0, hl⟩, ⟨hx0, hx⟩, ⟨hy0, hy⟩, ⟨hz0, hz⟩, ⟨ha0, ha⟩⟩ := hv
  unfold ThingType.exactIndex ThingType.totalCoords
  have h1 := radix_range ha0 ha hz0 hz
  have h2 := radix_range h1.1 h1.2 hy0 hy
  have h3 := radix_range h2.1 h2.2 hx0 hx
  have h4 := radix_range h3.1 h3.2 hl0 hl
  have h5 := radix_range h4.1 h4.2 hh0 hh
  exact radix_range h5.1 h5.2 hw0 hw

theorem getSpriteIndex_eq_exactIndex (t : ThingType) (hcap : t.totalCoords ≤ 4294967296)
    (w h l x y z a : Int) (hv : t.validCoord w h l x y z a) :
    (t.spriteIndex w h l x y z a : Int) = t.exactIndex w h l x y z a := by
  have hr := exactIndex_range t w h l x y z a hv
  have hm := getSpriteIndex_modEq t w h l x y z a hv.2.2.2.2.2.2.1 hv.2.2.2.2.2.2.2
  have hlt : (t.spriteIndex w h l x y z a : Int) < 4294967296 := by
    unfold ThingType.spriteIndex toUInt32
    rw [Int.toNat_of_nonneg (Int.emod_nonneg _ (by norm_num))]
    exact Int.emod_lt_of_pos _ (by norm_num)
  rw [Int.emod_eq_of_lt (Int.natCast_nonneg _) hlt,
    Int.emod_eq_of_lt hr.1 (lt_of_lt_of_le hr.2 hcap)] at hm
  exact hm

theorem exactIndex_inj (t : ThingType) (w h l x y z a w2 h2 l2 x2 y2 z2 a2 : Int)
    (hv : t.validCoord w h l x y z a) (hv2 : t.validCoord w2 h2 l2 x2 y2 z2 a2)
    (he : t.exactIndex w h l x y z a = t.exactIndex w2 h2 l2 x2 y2 z2 a2) :
    w = w2 ∧ h = h2 ∧ l = l2 ∧ x = x2 ∧ y = y2 ∧ z = z2 ∧ a = a2 := by
  obtain ⟨⟨hw0, hw⟩, ⟨hh0, hh⟩, ⟨hl0, hl⟩, ⟨hx0, hx⟩, ⟨hy0, hy⟩, ⟨hz0, hz⟩, -⟩ := hv
  obtain ⟨⟨gw0, gw⟩, ⟨gh0, gh⟩, ⟨gl0, gl⟩, ⟨gx0, gx⟩, ⟨gy0, gy⟩, ⟨gz0, gz⟩, -⟩ := hv2
  unfold ThingType.exactIndex at he
  obtain ⟨e1, ew⟩ := radix_inj hw0 hw gw0 gw he
  obtain ⟨e2, eh⟩ := radix_inj hh0 hh gh0 gh e1
  obtain ⟨e3, el⟩ := radix_inj hl0 hl gl0 gl e2
  obtain ⟨e4, ex⟩ := radix_inj hx0 hx gx0 gx e3
  obtain ⟨e5, ey⟩ := radix_inj hy0 hy gy0 gy e4
  obtain ⟨e6, ez⟩ := radix_inj hz0 hz gz0 gz e5
  exact ⟨ew, eh, el, ex, ey, ez, e6⟩

theorem exactIndex_surj (t : ThingType) (hw : 1 ≤ t.m_size.width) (hh : 1 ≤ t.m_size.height)
    (hl : 1 ≤ t.m_layers) (hx : 1 ≤ t.m_numPatternX) (hy : 1 ≤ t.m_numPatternY)
    (hz : 1 ≤ t.m_numPatternZ) (i : Int) (hi0 : 0 ≤ i) (hi : i < t.totalCoords) :
    ∃ w h l x y z a, t.validCoord w h l x y z a ∧ t.exactIndex w h l x y z a = i := by
  unfold ThingType.totalCoords at hi
  obtain ⟨q1, w, hq1, hwr, e1⟩ := radix_surj (by omega) hi0 hi
  obtain ⟨q2, h, hq2, hhr, e2⟩ := radix_surj (by omega) hq1.1 hq1.2
  obtain ⟨q3, l, hq3, hlr, e3⟩ := radix_surj (by omega) hq2.1 hq2.2
  obtain ⟨q4, x, hq4, hxr, e4⟩ := radix_surj (by omega) hq3.1 hq3.2
  obtain ⟨q5, y, hq5, hyr, e5⟩ := radix_surj (by omega) hq4.1 hq4.2
  obtain ⟨a, z, hq6, hzr, e6⟩ := radix_surj (by omega) hq5.1 hq5.2
  refine ⟨w, h, l, x, y, z, a, ⟨hwr, hhr, hlr, hxr, hyr, hzr, hq6⟩, ?_⟩
  unfold ThingType.exactIndex
  rw [e6, e5, e4, e3, e2, e1]

/-- For a valid tuple of a descriptor without overflow whose sprite table has an entry
for every tuple, `getSpriteIndex` returns the index. -/
theorem getSpriteIndex_some (t : ThingType) (hcap : t.totalCoords ≤ 4294967296)
    (hsize : t.totalCoords ≤ t.m_spritesIndex.length)
    (w h l x y z a : Int) (hv : t.validCoord w h l x y z a) :
    t.getSpriteIndex w h l x y z a = some (t.spriteIndex w h l x y z a) := by
  have hidx := getSpriteIndex_eq_exactIndex t hcap w h l x y z a hv
  have hrange := exactIndex_range t w h l x y z a hv
  have hpos : 0 < t.m_animationPhases := lt_of_le_of_lt hv.2.2.2.2.2.2.1 hv.2.2.2.2.2.2.2
  have hlt : t.spriteIndex w h l x y z a < t.m_spritesIndex.length := by
    have : (t.spriteIndex w h l x y z a : Int) < (t.m_spritesIndex.length : Int) := by
      rw [hidx]
      linarith [hrange.2]
    exact_mod_cast this
  unfold ThingType.getSpriteIndex
  rw [if_neg (by omega), if_pos hlt]

/-- C1 (amended): when every extent is at least 1, the number of coordinate tuples is
at most `2^32` (the range of the `unsigned int` result) and the sprite table has an
entry for every tuple, so that the assertion of line 468 holds, `getSpriteIndex` maps
the valid tuples one-to-one onto `[0, total)`: it returns for every valid tuple a value
below the total, every integer of the range is returned for some valid tuple, and two
valid tuples with the same result are equal. -/
theorem getSpriteIndex_bijective (t : ThingType)
    (hw : 1 ≤ t.m_size.width) (hh : 1 ≤ t.m_size.height) (hl : 1 ≤ t.m_layers)
    (hx : 1 ≤ t.m_numPatternX) (hy : 1 ≤ t.m_numPatternY) (hz : 1 ≤ t.m_numPatternZ)
    (_ha : 1 ≤ t.m_animationPhases) (hcap : t.totalCoords ≤ 4294967296)
    (hsize : t.totalCoords ≤ t.m_spritesIndex.length) :
    (∀ w h l x y z a, t.validCoord w h l x y z a →
        ∃ i : Nat, t.getSpriteIndex w h l x y z a = some i ∧ (i : Int) < t.totalCoords) ∧
    (∀ i : Nat, (i : Int) < t.totalCoords →
        ∃ w h l x y z a, t.validCoord w h l x y z a ∧
          t.getSpriteIndex w h l x y z a = some i) ∧
    (∀ w h l x y z a w2 h2 l2 x2 y2 z2 a2,
        t.validCoord w h l x y z a → t.validCoord w2 h2 l2 x2 y2 z2 a2 →
        t.getSpriteIndex w h l x y z a = t.getSpriteIndex w2 h2 l2 x2 y2 z2 a2 →
        w = w2 ∧ h = h2 ∧ l = l2 ∧ x = x2 ∧ y = y2 ∧ z = z2 ∧ a = a2) := by
  have hexact : ∀ w h l x y z a, t.validCoord w h l x y z a →
      (t.spriteIndex w h l x y z a : Int) = t.exactIndex w h l x y z a :=
    getSpriteIndex_eq_exactIndex t hcap
  have hsome := getSpriteIndex_some t hcap hsize
  refine ⟨?_, ?_, ?_⟩
  · intro w h l x y z a hv
    refine ⟨_, hsome w h l x y z a hv, ?_⟩
    rw [hexact w h l x y z a hv]
    exact (exactIndex_range t w h l x y z a hv).2
  · intro i hi
    obtain ⟨w, h, l, x, y, z, a, hv, he⟩ :=
      exactIndex_surj t hw hh hl hx hy hz i (Int.natCast_nonneg _) hi
    refine ⟨w, h, l, x, y, z, a, hv, ?_⟩
    rw [hsome w h l x y z a hv]
    have := hexact w h l x y z a hv
    rw [he] at this
    congr 1
    exact_mod_cast this
  · intro w h l x y z a w2 h2 l2 x2 y2 z2 a2 hv hv2 he
    rw [hsome w h l x y z a hv, hsome w2 h2 l2 x2 y2 z2 a2 hv2] at he
    apply exactIndex_inj t w h l x y z a w2 h2 l2 x2 y2 z2 a2 hv hv2
    rw [← hexact w h l x y z a hv, ← hexact w2 h2 l2 x2 y2 z2 a2 hv2, Option.some.inj he]

/-- Witness of C1: the amended claim at a descriptor of 2 x 3 tiles, 2 layers and
2 phases (24 tuples) with 24 sprite ids. -/
theorem getSpriteIndex_bijective_witness :
    (1 ≤ (ThingType.sample ThingCategory.Item 2 3 2 1 1 1 2 (List.range 24)).m_size.width ∧
      (ThingType.sample ThingCategory.Item 2 3 2 1 1 1 2 (List.range 24)).totalCoords
        ≤ (ThingType.sample ThingCategory.Item 2 3 2 1 1 1 2
            (List.range 24)).m_spritesIndex.length ∧
      (ThingType.sample ThingCategory.Item 2 3 2 1 1 1 2 (List.range 24)).getSpriteIndex
        1 2 1 0 0 0 1 = some 23) ∧
    ((∀ w h l x y z a,
        (ThingType.sample ThingCategory.Item 2 3 2 1 1 1 2 (List.range 24)).validCoord
          w h l x y z a →
        ∃ i : Nat,
          (ThingType.sample ThingCategory.Item 2 3 2 1 1 1 2 (List.range 24)).getSpriteIndex
            w h l x y z a = some i ∧
          (i : Int)
            < (ThingType.sample ThingCategory.Item 2 3 2 1 1 1 2 (List.range 24)).totalCoords) ∧
    (∀ i : Nat,
        (i : Int)
          < (ThingType.sample ThingCategory.Item 2 3 2 1 1 1 2 (List.range 24)).totalCoords →
        ∃ w h l x y z a,
          (ThingType.sample ThingCategory.Item 2 3 2 1 1 1 2 (List.range 24)).validCoord
            w h l x y z a ∧
          (ThingType.sample ThingCategory.Item 2 3 2 1 1 1 2 (List.range 24)).getSpriteIndex
            w h l x y z a = some i) ∧
    (∀ w h l x y z a w2 h2 l2 x2 y2 z2 a2,
        (ThingType.sample ThingCategory.Item 2 3 2 1 1 1 2 (List.range 24)).validCoord
          w h l x y z a →
        (ThingType.sample ThingCategory.Item 2 3 2 1 1 1 2 (List.range 24)).validCoord
          w2 h2 l2 x2 y2 z2 a2 →
        (ThingType.sample ThingCategory.Item 2 3 2 1 1 1 2 (List.range 24)).getSpriteIndex
            w h l x y z a =
          (ThingType.sample ThingCategory.Item 2 3 2 1 1 1 2 (List.range 24)).getSpriteIndex
            w2 h2 l2 x2 y2 z2 a2 →
        w = w2 ∧ h = h2 ∧ l = l2 ∧ x = x2 ∧ y = y2 ∧ z = z2 ∧ a = a2)) :=
  ⟨⟨by decide, by decide, by decide⟩,
    getSpriteIndex_bijective
      (ThingType.sample ThingCategory.Item 2 3 2 1 1 1 2 (List.range 24))
      (by decide) (by decide) (by decide) (by decide) (by decide) (by decide) (by decide)
      (by decide) (by decide)⟩

/-- Counterexample to C1 as stated.  With the extents 128 x 128 tiles, 128 layers and
patterns 128 x 32 x 1 (all at least 1, `2^33` tuples) and one sprite id, the valid
tuples `(0,0,0,0,0,0,0)` and `(0,0,0,0,16,0,0)` both pass the assertion and get the same
index 0, so the index is not produced by exactly one tuple.  With the extents 2 x 2
tiles, one layer, patterns 1 x 1 x 1, 2 phases (8 tuples) and 5 sprite ids, which a
stream of two frame groups decodes to, the call for the valid tuple `(1,1,0,0,0,0,1)`
fails the assertion, and 7, which is below the total, is returned for no tuple. -/
theorem getSpriteIndex_not_injective :
    ((ThingType.sample ThingCategory.Item 128 128 128 128 32 1 1 [7]).validCoord
        0 0 0 0 0 0 0 ∧
      (ThingType.sample ThingCategory.Item 128 128 128 128 32 1 1 [7]).validCoord
        0 0 0 0 16 0 0 ∧
      (ThingType.sample ThingCategory.Item 128 128 128 128 32 1 1 [7]).getSpriteIndex
        0 0 0 0 0 0 0 = some 0 ∧
      (ThingType.sample ThingCategory.Item 128 128 128 128 32 1 1 [7]).getSpriteIndex
        0 0 0 0 16 0 0 = some 0) ∧
    ((ThingType.sample ThingCategory.Creature 2 2 1 1 1 1 2 [9, 1, 2, 3, 4]).validCoord
        1 1 0 0 0 0 1 ∧
      (ThingType.sample ThingCategory.Creature 2 2 1 1 1 1 2 [9, 1, 2, 3, 4]).getSpriteIndex
        1 1 0 0 0 0 1 = none ∧
      (7 : Int) < (ThingType.sample ThingCategory.Creature 2 2 1 1 1 1 2
        [9, 1, 2, 3, 4]).totalCoords ∧
      ∀ w h l x y z a : Int,
        (ThingType.sample ThingCategory.Creature 2 2 1 1 1 1 2 [9, 1, 2, 3, 4]).getSpriteIndex
          w h l x y z a ≠ some 7) := by
  refine ⟨⟨?_, ?_, by decide, by decide⟩, ⟨?_, by decide, by decide, ?_⟩⟩
  · unfold ThingType.validCoord
    decide
  · unfold ThingType.validCoord
    decide
  · unfold ThingType.validCoord
    decide
  · intro w h l x y z a he
    unfold ThingType.getSpriteIndex at he
    split at he
    · cases he
    · split at he
      · next hlt =>
        have h5 : (ThingType.sample ThingCategory.Creature 2 2 1 1 1 1 2
            [9, 1, 2, 3, 4]).m_spritesIndex.length = 5 := rfl
        rw [h5] at hlt
        have := Option.some.inj he
        omega
      · cases he

/-! ## Wire codes of the attribute kinds -/

/-- For any enumeration in which `ThingAttrWritable` is below 15 and is not
`ThingAttrChargeable`, the decoder does not undo the encoder's translation of
`ThingAttrWritable`: the kind comes back one higher. -/
theorem unserializeCode_serializeCode_of_lt (T : ThingAttrTable)
    (h15 : T.ThingAttrWritable < 15) (hne : T.ThingAttrWritable ≠ T.ThingAttrChargeable) :
    T.unserializeCode (T.serializeCode T.ThingAttrWritable) = T.ThingAttrWritable + 1 := by
  unfold ThingAttrTable.serializeCode ThingAttrTable.unserializeCode
  rw [if_neg hne, if_pos (le_refl _), if_neg (by omega), if_neg (by omega)]

/-- C4, at the attribute kind `ThingAttrWritable` (ordinal 8, below `ThingLastAttr`):
`serialize` writes the wire code 9 for it and `unserialize` takes the wire code 9 for
the kind 9, not 8.  Over the whole enumeration the decoder's translation undoes the
encoder's exactly on the kinds below 8 and on the kinds from 16 on other than
`ThingAttrChargeable`. -/
theorem unserializeCode_serializeCode_writable :
    thingAttr.ThingAttrWritable < thingAttr.ThingLastAttr ∧
    thingAttr.serializeCode thingAttr.ThingAttrWritable = 9 ∧
    thingAttr.unserializeCode (thingAttr.serializeCode thingAttr.ThingAttrWritable) = 9 ∧
    thingAttr.unserializeCode (thingAttr.serializeCode thingAttr.ThingAttrWritable)
      ≠ thingAttr.ThingAttrWritable ∧
    (∀ k, k < thingAttr.ThingLastAttr →
      (thingAttr.unserializeCode (thingAttr.serializeCode k) = k ↔
        (k < 8 ∨ (16 ≤ k ∧ k ≠ 254)))) := by
  refine ⟨by decide, by decide, by decide, by decide, ?_⟩
  intro k hk
  have h255 : thingAttr.ThingLastAttr = 255 := rfl
  rw [h255] at hk
  unfold ThingAttrTable.unserializeCode ThingAttrTable.serializeCode
  simp only [show thingAttr.ThingAttrChargeable = 254 from rfl,
    show thingAttr.ThingAttrWritable = 8 from rfl,
    show thingAttr.ThingAttrNoMoveAnimation = 253 from rfl]
  split_ifs <;> omega

set_option maxRecDepth 100000 in
/-- C2, at a descriptor whose only attribute is the flag of kind 15 (a kind between
`ThingAttrWritable` and `ThingLastAttr` that holds a flag): `serialize` writes the wire
code 16, and `unserialize` of the written bytes succeeds with the kind 15 absent and the
kind `ThingAttrNoMoveAnimation` (253) present instead. -/
theorem unserialize_serialize_attr15 :
    ({ ThingType.sample ThingCategory.Item 1 1 1 1 1 1 1 [7] with
        m_attribs := [(15, AttrValue.flag true)] }.serialize thingAttr noAnimator
      = [16, 255, 1, 1, 1, 1, 1, 1, 1, 7, 0, 0, 0]) ∧
    ((ThingType.unserialize thingAttr noAnimator ThingType.new 0 ThingCategory.Item
        ({ ThingType.sample ThingCategory.Item 1 1 1 1 1 1 1 [7] with
            m_attribs := [(15, AttrValue.flag true)] }.serialize thingAttr
          noAnimator)).toOption.map
      fun r => (r.1.m_attribs, r.1.m_attribs.has 15, r.1.m_attribs.has 253))
      = some ([(253, AttrValue.flag true)], false, true) := by
  constructor
  · decide
  · decide

/-! ## The exception monad -/

theorem bind_ok {ε α β : Type} (x : α) (f : α → Except ε β) :
    (Except.ok x >>= f) = f x := rfl

theorem bind_error {ε α β : Type} (e : ε) (f : α → Except ε β) :
    ((Except.error e : Except ε α) >>= f) = Except.error e := rfl

theorem pure_eq_ok {ε α : Type} (x : α) : (pure x : Except ε α) = Except.ok x := rfl

theorem throw_eq_error {ε α : Type} (e : ε) : (throw e : Except ε α) = Except.error e := rfl

/-! ## Stream lemmas -/

theorem toByte_val (v : Int) : ((toByte v).val : Int) = v % 256 := by
  unfold toByte
  simp only
  omega

theorem toByte_natCast_val (n : Nat) (h : n < 256) : (toByte (n : Int)).val = n := by
  have := toByte_val (n : Int)
  omega

theorem getU8_addU8 (n : Nat) (h : n < 256) (s : FileStream) :
    getU8 (addU8 (n : Int) ++ s) = Except.ok (n, s) := by
  simp [getU8, addU8, toByte_natCast_val n h]

theorem getU32_addU32 (id : Nat) (h : id < 4294967296) (s : FileStream) :
    getU32 (addU32 (id : Int) ++ s) = Except.ok (id, s) := by
  have h0 := toByte_val (id : Int)
  have h1 := toByte_val ((id : Int) / 256)
  have h2 := toByte_val ((id : Int) / 65536)
  have h3 := toByte_val ((id : Int) / 16777216)
  simp only [getU32, addU32, List.cons_append, List.nil_append]
  congr 2
  omega

theorem take_set_succ (v : List Nat) (i id : Nat) (h : i < v.length) :
    (v.set i id).take (i + 1) = v.take i ++ [id] := by
  induction v generalizing i with
  | nil => simp at h
  | cons a v ih =>
    cases i with
    | zero => simp
    | succ i =>
      simp only [List.length_cons, Nat.add_lt_add_iff_right] at h
      simp [ih i h]

theorem readSprites_addU32 (ids : List Nat) (hids : ∀ id ∈ ids, id < 4294967296) :
    ∀ (i : Nat) (v : List Nat) (rest : FileStream), i + ids.length = v.length →
      readSprites ids.length i v ((ids.flatMap fun id => addU32 (id : Int)) ++ rest)
        = Except.ok (v.take i ++ ids, rest) := by
  induction ids with
  | nil =>
    intro i v rest h
    simp only [List.length_nil, Nat.add_zero] at h
    simp [readSprites, h, pure, Except.pure]
  | cons id ids ih =>
    intro i v rest h
    simp only [List.length_cons] at h
    have hid : id < 4294967296 := hids id (List.mem_cons_self _ _)
    have hrest : ∀ x ∈ ids, x < 4294967296 := fun x hx => hids x (List.mem_cons_of_mem _ hx)
    simp only [List.length_cons, List.flatMap_cons, List.append_assoc, readSprites, bind,
      Except.bind, getU32_addU32 id hid]
    rw [ih hrest (i + 1) (v.set i id) rest (by simp; omega), take_set_succ v i id (by omega)]
    simp

theorem wrapInt32_range (n : Int) : -2147483648 ≤ wrapInt32 n ∧ wrapInt32 n < 2147483648 := by
  unfold wrapInt32
  omega

theorem eq_of_modEq_of_range {a b : Int} (h : a ≡ b [ZMOD 4294967296])
    (ha : -2147483648 ≤ a ∧ a < 2147483648) (hb : -2147483648 ≤ b ∧ b < 2147483648) :
    a = b := by
  unfold Int.ModEq at h
  omega

theorem totalSprites_modEq (w h l x y z a : Int) :
    imul (imul (imul (imul (imul (imul w h) l) x) y) z) a
      ≡ w * h * l * x * y * z * a [ZMOD 4294967296] :=
  imul_modEq (imul_modEq (imul_modEq (imul_modEq (imul_modEq (imul_modEq
    (Int.ModEq.refl _) (Int.ModEq.refl _)) (Int.ModEq.refl _)) (Int.ModEq.refl _))
    (Int.ModEq.refl _)) (Int.ModEq.refl _)) (Int.ModEq.refl _)

theorem totalSprites_eq (w h l x y z a : Int) (h0 : 0 ≤ w * h * l * x * y * z * a)
    (h1 : w * h * l * x * y * z * a < 2147483648) :
    imul (imul (imul (imul (imul (imul w h) l) x) y) z) a = w * h * l * x * y * z * a :=
  eq_of_modEq_of_range (totalSprites_modEq w h l x y z a) (wrapInt32_range _)
    ⟨by omega, h1⟩

theorem length_resize (v : List Nat) (n : Nat) : (resize v n).length = n := by
  simp only [resize, List.length_append, List.length_take, List.length_replicate]
  omega

theorem getU8_addU8_int (v : Int) (s : FileStream) :
    getU8 (addU8 v ++ s) = Except.ok ((toByte v).val, s) := rfl

/-- One frame group without a group-kind byte, read back from the bytes of its header
and its sprite ids. -/
theorem unserializeFrameGroup_single (A : AnimatorCodec) (t : ThingType)
    (w h l x y z a : Nat) (rs : Int) (ids : List Nat) (rest : FileStream)
    (hw : w < 256) (hh : h < 256) (hl : l < 256) (hx : x < 256) (hy : y < 256)
    (hz : z < 256) (ha : a ≤ 1)
    (hlen : ids.length = w * h * l * x * y * z * a) (hcap : ids.length ≤ 4096)
    (hids : ∀ id ∈ ids, id < 4294967296) :
    ∃ t2, unserializeFrameGroup A false t 0
        (addU8 w ++ (addU8 h ++ ((if (w : Int) > 1 ∨ (h : Int) > 1 then addU8 rs else []) ++
          (addU8 l ++ (addU8 x ++ (addU8 y ++ (addU8 z ++ (addU8 a ++
            ((ids.flatMap fun id => addU32 (id : Int)) ++ rest)))))))))
        = Except.ok (t2, (ids.length : Int), rest) ∧
      t2.m_size = { width := w, height := h } ∧ t2.m_layers = l ∧ t2.m_numPatternX = x ∧
      t2.m_numPatternY = y ∧ t2.m_numPatternZ = z ∧
      t2.m_animationPhases = iadd t.m_animationPhases a ∧ t2.m_spritesIndex = ids ∧
      t2.m_realSize = (if (w : Int) > 1 ∨ (h : Int) > 1 then rs % 256 else t.m_realSize) ∧
      t2.m_attribs = t.m_attribs ∧ t2.m_id = t.m_id ∧ t2.m_category = t.m_category := by
  have hadd : iadd 0 (ids.length : Int) = ids.length := by
    unfold iadd
    rw [zero_add]
    exact wrapInt32_of_range (by omega) (by omega)
  have hna : ¬ a > 1 := by omega
  have hread := readSprites_addU32 ids hids 0 (resize t.m_spritesIndex ids.length) rest
    (by rw [length_resize]; omega)
  have h1 : ¬ ((ids.length : Int) > 4096) := by omega
  have h2 : ¬ ((ids.length : Int) < 0) := by omega
  have hn1 : ((ids.length : Int) - 0).toNat = ids.length := by omega
  have hn2 : ((ids.length : Int)).toNat = ids.length := by omega
  have hn3 : (0 : Int).toNat = 0 := rfl
  have ha256 : a < 256 := by omega
  have hcnat : ((w : Int) > 1 ∨ (h : Int) > 1) ↔ (w > 1 ∨ h > 1) := by omega
  have hb : ((w * h * l * x * y * z * a : Nat) : Int) = (w : Int) * h * l * x * y * z * a := by
    push_cast
    ring
  have htot : imul (imul (imul (imul (imul (imul (w : Int) h) l) x) y) z) a
      = (ids.length : Int) := by
    rw [totalSprites_eq _ _ _ _ _ _ _ (by rw [← hb]; exact Int.natCast_nonneg _)
      (by rw [← hb, ← hlen]; omega)]
    rw [hlen, hb]
  unfold unserializeFrameGroup getFrameGroupType getRealSize getAnimator
  rw [if_neg (by decide : ¬ (false = true)), pure_eq_ok, bind_ok]
  dsimp only
  rw [getU8_addU8 _ hw, bind_ok]
  dsimp only
  rw [getU8_addU8 _ hh, bind_ok]
  dsimp only
  by_cases hc : (w : Int) > 1 ∨ (h : Int) > 1
  · have hc2 : w > 1 ∨ h > 1 := hcnat.mp hc
    have hrs : ((toByte rs).val : Int) = rs % 256 := toByte_val rs
    rw [if_pos hc, if_pos hc2, getU8_addU8_int, bind_ok]
    dsimp only
    rw [pure_eq_ok, bind_ok]
    dsimp only
    rw [getU8_addU8 _ hl, bind_ok]
    dsimp only
    rw [getU8_addU8 _ hx, bind_ok]
    dsimp only
    rw [getU8_addU8 _ hy, bind_ok]
    dsimp only
    rw [getU8_addU8 _ hz, bind_ok]
    dsimp only
    rw [getU8_addU8 a ha256, bind_ok]
    dsimp only
    rw [if_neg hna, pure_eq_ok, bind_ok]
    dsimp only
    simp only [Size.area, htot, hadd]
    rw [if_neg h1, if_neg h2, hn1, hn2, hn3, hread, bind_ok]
    exact ⟨_, rfl, rfl, rfl, rfl, rfl, rfl, rfl, rfl, by rw [if_pos hc]; exact hrs, rfl, rfl, rfl⟩
  · have hc2 : ¬ (w > 1 ∨ h > 1) := fun hq => hc (hcnat.mpr hq)
    rw [if_neg hc, if_neg hc2, List.nil_append, pure_eq_ok, bind_ok]
    dsimp only
    rw [getU8_addU8 _ hl, bind_ok]
    dsimp only
    rw [getU8_addU8 _ hx, bind_ok]
    dsimp only
    rw [getU8_addU8 _ hy, bind_ok]
    dsimp only
    rw [getU8_addU8 _ hz, bind_ok]
    dsimp only
    rw [getU8_addU8 a ha256, bind_ok]
    dsimp only
    rw [if_neg hna, pure_eq_ok, bind_ok]
    dsimp only
    simp only [Size.area, htot, hadd]
    rw [if_neg h1, if_neg h2, hn1, hn2, hn3, hread, bind_ok]
    exact ⟨_, rfl, rfl, rfl, rfl, rfl, rfl, rfl, rfl, by rw [if_neg hc], rfl, rfl, rfl⟩

theorem serializeAttrs_nil (T : ThingAttrTable) (d : ThingType)
    (hattr : ∀ i, i < T.ThingLastAttr → d.m_attribs.has i = false) :
    serializeAttrs T d = [] := by
  unfold serializeAttrs
  rw [List.flatMap_eq_nil_iff]
  intro i hi
  rw [List.mem_range] at hi
  rw [hattr i hi]
  simp

theorem unserializeAttrs_terminator (T : ThingAttrTable) (hLast0 : 0 < T.ThingLastAttr)
    (hLast : T.ThingLastAttr < 256) (t : ThingType) (s : FileStream) :
    unserializeAttrs T T.ThingLastAttr 0 (-1) t (addU8 (T.ThingLastAttr : Int) ++ s)
      = Except.ok { done := true, count := 1, attr := T.ThingLastAttr, thing := t,
                    stream := s } := by
  obtain ⟨n, hn⟩ : ∃ n, T.ThingLastAttr = n + 1 := ⟨T.ThingLastAttr - 1, by omega⟩
  have hget := getU8_addU8 T.ThingLastAttr hLast s
  generalize hN : T.ThingLastAttr = N at hn hget ⊢
  subst hn
  unfold unserializeAttrs
  rw [hget, bind_ok]
  dsimp only
  rw [hN, if_pos rfl]
  rfl

/-- A descriptor of any category but Creature, without attributes and with at most one
phase, is read back from the bytes `serialize` writes for it: the whole stream is
consumed and the extents, the phase count and the sprite ids are those written. -/
theorem unserialize_serialize_single (T : ThingAttrTable) (A : AnimatorCodec)
    (self d : ThingType) (hLast0 : 0 < T.ThingLastAttr) (hLast : T.ThingLastAttr < 256)
    (hcat : d.m_category ≠ ThingCategory.Creature)
    (hattr : ∀ i, i < T.ThingLastAttr → d.m_attribs.has i = false)
    (hw : 0 ≤ d.m_size.width ∧ d.m_size.width ≤ 255)
    (hh : 0 ≤ d.m_size.height ∧ d.m_size.height ≤ 255)
    (hl : 0 ≤ d.m_layers ∧ d.m_layers ≤ 255)
    (hx : 0 ≤ d.m_numPatternX ∧ d.m_numPatternX ≤ 255)
    (hy : 0 ≤ d.m_numPatternY ∧ d.m_numPatternY ≤ 255)
    (hz : 0 ≤ d.m_numPatternZ ∧ d.m_numPatternZ ≤ 255)
    (ha : 0 ≤ d.m_animationPhases ∧ d.m_animationPhases ≤ 1)
    (hlen : (d.m_spritesIndex.length : Int) = d.m_size.width * d.m_size.height * d.m_layers *
      d.m_numPatternX * d.m_numPatternY * d.m_numPatternZ * d.m_animationPhases)
    (hcap : d.m_spritesIndex.length ≤ 4096)
    (hids : ∀ id ∈ d.m_spritesIndex, id < 4294967296) :
    ∃ t, ThingType.unserialize T A self d.m_id d.m_category (d.serialize T A)
        = Except.ok (t, []) ∧
      t.m_size = d.m_size ∧ t.m_layers = d.m_layers ∧ t.m_numPatternX = d.m_numPatternX ∧
      t.m_numPatternY = d.m_numPatternY ∧ t.m_numPatternZ = d.m_numPatternZ ∧
      t.m_animationPhases = d.m_animationPhases ∧ t.m_spritesIndex = d.m_spritesIndex ∧
      t.m_realSize = (if d.m_size.width > 1 ∨ d.m_size.height > 1 then d.m_realSize % 256
        else self.m_realSize) ∧
      t.m_attribs = self.m_attribs ∧ t.m_id = d.m_id ∧ t.m_category = d.m_category := by
  obtain ⟨w, hwe⟩ : ∃ w : Nat, d.m_size.width = w := ⟨d.m_size.width.toNat, by omega⟩
  obtain ⟨h, hhe⟩ : ∃ h : Nat, d.m_size.height = h := ⟨d.m_size.height.toNat, by omega⟩
  obtain ⟨l, hle⟩ : ∃ l : Nat, d.m_layers = l := ⟨d.m_layers.toNat, by omega⟩
  obtain ⟨x, hxe⟩ : ∃ x : Nat, d.m_numPatternX = x := ⟨d.m_numPatternX.toNat, by omega⟩
  obtain ⟨y, hye⟩ : ∃ y : Nat, d.m_numPatternY = y := ⟨d.m_numPatternY.toNat, by omega⟩
  obtain ⟨z, hze⟩ : ∃ z : Nat, d.m_numPatternZ = z := ⟨d.m_numPatternZ.toNat, by omega⟩
  obtain ⟨a, hae⟩ : ∃ a : Nat, d.m_animationPhases = a :=
    ⟨d.m_animationPhases.toNat, by omega⟩
  have hw2 : w < 256 := by omega
  have hh2 : h < 256 := by omega
  have hl2 : l < 256 := by omega
  have hx2 : x < 256 := by omega
  have hy2 : y < 256 := by omega
  have hz2 : z < 256 := by omega
  have ha2 : a ≤ 1 := by omega
  have hna : ¬ ((a : Int) > 1) := by omega
  have hphase : iadd 0 (a : Int) = a := by
    unfold iadd
    rw [zero_add]
    exact wrapInt32_of_range (by omega) (by omega)
  have hsize : d.m_size = { width := w, height := h } := by
    rw [← hwe, ← hhe]
  have hlen2 : d.m_spritesIndex.length = w * h * l * x * y * z * a := by
    rw [hwe, hhe, hle, hxe, hye, hze, hae] at hlen
    exact_mod_cast hlen
  obtain ⟨t2, hstep, e1, e2, e3, e4, e5, e6, e7, e8, e9, e10, e11⟩ :=
    unserializeFrameGroup_single A
      { ({ self with m_null := false, m_id := d.m_id, m_category := d.m_category } : ThingType)
        with m_animationPhases := 0 }
      w h l x y z a d.m_realSize d.m_spritesIndex [] hw2 hh2 hl2 hx2 hy2 hz2 ha2 hlen2 hcap hids
  refine ⟨t2, ?_, ?_, ?_, ?_, ?_, ?_, ?_, e7, ?_, e9, e10, e11⟩
  · unfold ThingType.serialize ThingType.unserialize
    rw [serializeAttrs_nil T d hattr, hwe, hhe, hle, hxe, hye, hze, hae, if_neg hna]
    simp only [List.append_assoc, List.nil_append, List.append_nil]
    rw [unserializeAttrs_terminator T hLast0 hLast, bind_ok]
    dsimp only
    rw [if_neg (by decide : ¬ (true = false))]
    unfold unserializeGeometry getGroupCount
    rw [if_neg hcat, pure_eq_ok, bind_ok]
    dsimp only
    rw [decide_eq_false hcat]
    unfold unserializeFrameGroups
    rw [List.append_nil] at hstep
    rw [hstep, bind_ok]
    rfl
  · rw [e1, hsize]
  · rw [e2, hle]
  · rw [e3, hxe]
  · rw [e4, hye]
  · rw [e5, hze]
  · rw [e6, hae]
    exact hphase
  · rw [e8, hwe, hhe]

/-- C3 (amended): for every descriptor of a category other than Creature that has no
attributes, at most one animation phase, extents fitting a byte and `width * height *
layers * patternX * patternY * patternZ * animationPhases` sprite ids (at most 4096, each
a 32-bit value), `unserialize` of the bytes `serialize` writes succeeds and yields the
same width, height, layers, pattern extents, phase count and sprite ids. -/
theorem unserialize_serialize_geometry (T : ThingAttrTable) (A : AnimatorCodec)
    (self d : ThingType) (hLast0 : 0 < T.ThingLastAttr) (hLast : T.ThingLastAttr < 256)
    (hcat : d.m_category ≠ ThingCategory.Creature)
    (hattr : ∀ i, i < T.ThingLastAttr → d.m_attribs.has i = false)
    (hw : 0 ≤ d.m_size.width ∧ d.m_size.width ≤ 255)
    (hh : 0 ≤ d.m_size.height ∧ d.m_size.height ≤ 255)
    (hl : 0 ≤ d.m_layers ∧ d.m_layers ≤ 255)
    (hx : 0 ≤ d.m_numPatternX ∧ d.m_numPatternX ≤ 255)
    (hy : 0 ≤ d.m_numPatternY ∧ d.m_numPatternY ≤ 255)
    (hz : 0 ≤ d.m_numPatternZ ∧ d.m_numPatternZ ≤ 255)
    (ha : 0 ≤ d.m_animationPhases ∧ d.m_animationPhases ≤ 1)
    (hlen : (d.m_spritesIndex.length : Int) = d.m_size.width * d.m_size.height * d.m_layers *
      d.m_numPatternX * d.m_numPatternY * d.m_numPatternZ * d.m_animationPhases)
    (hcap : d.m_spritesIndex.length ≤ 4096)
    (hids : ∀ id ∈ d.m_spritesIndex, id < 4294967296) :
    ∃ t rest, ThingType.unserialize T A self d.m_id d.m_category (d.serialize T A)
        = Except.ok (t, rest) ∧
      t.m_size.width = d.m_size.width ∧ t.m_size.height = d.m_size.height ∧
      t.m_layers = d.m_layers ∧ t.m_numPatternX = d.m_numPatternX ∧
      t.m_numPatternY = d.m_numPatternY ∧ t.m_numPatternZ = d.m_numPatternZ ∧
      t.m_animationPhases = d.m_animationPhases ∧ t.m_spritesIndex = d.m_spritesIndex := by
  obtain ⟨t, hok, e1, e2, e3, e4, e5, e6, e7, -⟩ :=
    unserialize_serialize_single T A self d hLast0 hLast hcat hattr hw hh hl hx hy hz ha hlen
      hcap hids
  exact ⟨t, [], hok, by rw [e1], by rw [e1], e2, e3, e4, e5, e6, e7⟩

/-- Witness of C3: the amended claim at an item of 2 x 1 tiles with the sprite ids 7
and 9, read into a fresh descriptor. -/
theorem unserialize_serialize_geometry_witness :
    (ThingType.sample ThingCategory.Item 2 1 1 1 1 1 1 [7, 9]).m_category
      ≠ ThingCategory.Creature ∧
    ∃ t rest, ThingType.unserialize thingAttr noAnimator ThingType.new
        (ThingType.sample ThingCategory.Item 2 1 1 1 1 1 1 [7, 9]).m_id
        (ThingType.sample ThingCategory.Item 2 1 1 1 1 1 1 [7, 9]).m_category
        ((ThingType.sample ThingCategory.Item 2 1 1 1 1 1 1 [7, 9]).serialize thingAttr
          noAnimator) = Except.ok (t, rest) ∧
      t.m_size.width = 2 ∧ t.m_size.height = 1 ∧ t.m_layers = 1 ∧ t.m_numPatternX = 1 ∧
      t.m_numPatternY = 1 ∧ t.m_numPatternZ = 1 ∧ t.m_animationPhases = 1 ∧
      t.m_spritesIndex = [7, 9] :=
  ⟨by decide,
    unserialize_serialize_geometry thingAttr noAnimator ThingType.new
      (ThingType.sample ThingCategory.Item 2 1 1 1 1 1 1 [7, 9]) (by decide) (by decide)
      (by decide) (fun _ _ => rfl) (by decide) (by decide) (by decide) (by decide)
      (by decide) (by decide) (by decide) (by decide) (by decide) (by decide)⟩

set_option maxRecDepth 100000 in
/-- Counterexample to C3 as stated: a Creature of 1 x 1 tiles, one layer, patterns
1 x 1 x 1, one phase and the sprite id 7 has no attributes and one sprite id, yet
`unserialize` of the 12 bytes `serialize` writes for it takes the width byte for the
group count and yields patternZ = 7, no phase and no sprite id. -/
theorem unserialize_serialize_creature :
    (ThingType.sample ThingCategory.Creature 1 1 1 1 1 1 1 [7]).serialize thingAttr noAnimator
      = [255, 1, 1, 1, 1, 1, 1, 1, 7, 0, 0, 0] ∧
    ((ThingType.unserialize thingAttr noAnimator ThingType.new 0 ThingCategory.Creature
        ((ThingType.sample ThingCategory.Creature 1 1 1 1 1 1 1 [7]).serialize thingAttr
          noAnimator)).toOption.map
      fun r => (r.1.m_numPatternZ, r.1.m_animationPhases, r.1.m_spritesIndex))
      = some (7, 0, []) := by
  constructor
  · decide
  · decide

/-! ## Payload of the attribute kinds -/

/-- C7 (amended): in the decoder's `switch`, the elevation, and each of the kinds
ground, writable, writable-once, minimap color, cloth, lens-help and usable, consumes
exactly one 16-bit integer and stores it; every kind other than these and displacement,
light and market consumes nothing and is stored as the flag `true`. -/
theorem unserializeAttr_payload (T : ThingAttrTable) (hT : T.distinctLabels) (attr : Nat)
    (t : ThingType) (s : FileStream) :
    (attr = T.ThingAttrElevation →
      unserializeAttr T attr t s = (getU16 s).map fun r =>
        ({ t with m_elevation := r.1, m_attribs := t.m_attribs.set attr (AttrValue.u16 r.1) },
          r.2)) ∧
    ((attr = T.ThingAttrGround ∨ attr = T.ThingAttrWritable ∨ attr = T.ThingAttrWritableOnce ∨
        attr = T.ThingAttrMinimapColor ∨ attr = T.ThingAttrCloth ∨
        attr = T.ThingAttrLensHelp ∨ attr = T.ThingAttrUsable) →
      unserializeAttr T attr t s = (getU16 s).map fun r =>
        ({ t with m_attribs := t.m_attribs.set attr (AttrValue.u16 r.1) }, r.2)) ∧
    ((attr ≠ T.ThingAttrDisplacement ∧ attr ≠ T.ThingAttrLight ∧ attr ≠ T.ThingAttrMarket ∧
        attr ≠ T.ThingAttrElevation ∧ attr ≠ T.ThingAttrGround ∧
        attr ≠ T.ThingAttrWritable ∧ attr ≠ T.ThingAttrWritableOnce ∧
        attr ≠ T.ThingAttrMinimapColor ∧ attr ≠ T.ThingAttrCloth ∧
        attr ≠ T.ThingAttrLensHelp ∧ attr ≠ T.ThingAttrUsable) →
      unserializeAttr T attr t s
        = Except.ok ({ t with m_attribs := t.m_attribs.set attr (AttrValue.flag true) }, s)) := by
  unfold ThingAttrTable.distinctLabels at hT
  simp only [List.nodup_cons, List.mem_cons, List.mem_singleton, not_or, List.not_mem_nil,
    not_false_eq_true, List.nodup_nil, and_true] at hT
  obtain ⟨⟨d1, d2, d3, d4, d5, d6, d7, d8, d9, d10⟩, ⟨l1, l2, l3, l4, l5, l6, l7, l8, l9⟩,
    ⟨m1, m2, m3, m4, m5, m6, m7, m8⟩, ⟨e1, e2, e3, e4, e5, e6, e7⟩, -⟩ := hT
  refine ⟨?_, ?_, ?_⟩
  · intro h
    subst h
    unfold unserializeAttr
    rw [if_neg (Ne.symm d3), if_neg (Ne.symm l2), if_neg (Ne.symm m1), if_pos rfl]
    cases hg : getU16 s with
    | error e => rfl
    | ok r => rfl
  · intro h
    have hlab : T.isU16Label attr = true := by
      unfold ThingAttrTable.isU16Label
      simp only [Bool.or_eq_true, beq_iff_eq]
      tauto
    have hnd : attr ≠ T.ThingAttrDisplacement := by
      rcases h with h | h | h | h | h | h | h <;> rw [h] <;> apply Ne.symm <;> assumption
    have hnl : attr ≠ T.ThingAttrLight := by
      rcases h with h | h | h | h | h | h | h <;> rw [h] <;> apply Ne.symm <;> assumption
    have hnm : attr ≠ T.ThingAttrMarket := by
      rcases h with h | h | h | h | h | h | h <;> rw [h] <;> apply Ne.symm <;> assumption
    have hne : attr ≠ T.ThingAttrElevation := by
      rcases h with h | h | h | h | h | h | h <;> rw [h] <;> apply Ne.symm <;> assumption
    unfold unserializeAttr
    rw [if_neg hnd, if_neg hnl, if_neg hnm, if_neg hne, if_pos hlab]
    cases hg : getU16 s with
    | error e => rfl
    | ok r => rfl
  · rintro ⟨hnd, hnl, hnm, hne, g1, g2, g3, g4, g5, g6, g7⟩
    have hlab : ¬ (T.isU16Label attr = true) := by
      unfold ThingAttrTable.isU16Label
      simp only [Bool.or_eq_true, beq_iff_eq]
      tauto
    unfold unserializeAttr
    rw [if_neg hnd, if_neg hnl, if_neg hnm, if_neg hne, if_neg hlab]
    rfl

/-- Witness of C7: the amended claim for the enumeration of the OTClient header, at the
kind `ThingAttrCloth` and the payload bytes 5, 0. -/
theorem unserializeAttr_payload_witness :
    thingAttr.distinctLabels ∧
    unserializeAttr thingAttr thingAttr.ThingAttrCloth ThingType.new [5, 0, 255]
      = (getU16 [5, 0, 255]).map fun r =>
        ({ ThingType.new with
            m_attribs := ThingType.new.m_attribs.set thingAttr.ThingAttrCloth (AttrValue.u16 r.1) },
          r.2) :=
  ⟨by unfold ThingAttrTable.distinctLabels; decide,
    (unserializeAttr_payload thingAttr (by unfold ThingAttrTable.distinctLabels; decide)
      thingAttr.ThingAttrCloth ThingType.new [5, 0, 255]).2.1
      (Or.inr (Or.inr (Or.inr (Or.inr (Or.inl rfl)))))⟩

/-- Counterexample to C7 as stated: the wire code 35 is not the terminator and stands
for the kind `ThingAttrUsable` (34), which is none of displacement, light, market,
elevation, ground, writable, writable-once, minimap color, cloth and lens-help; yet the
decoder consumes the two payload bytes 1, 2 and stores the 16-bit value 513, not the
flag `true`. -/
theorem unserializeAttr_usable :
    35 ≠ thingAttr.ThingLastAttr ∧
    thingAttr.unserializeCode 35 = thingAttr.ThingAttrUsable ∧
    thingAttr.unserializeCode 35 ∉
      [thingAttr.ThingAttrDisplacement, thingAttr.ThingAttrLight, thingAttr.ThingAttrMarket,
       thingAttr.ThingAttrElevation, thingAttr.ThingAttrGround, thingAttr.ThingAttrWritable,
       thingAttr.ThingAttrWritableOnce, thingAttr.ThingAttrMinimapColor,
       thingAttr.ThingAttrCloth, thingAttr.ThingAttrLensHelp] ∧
    unserializeAttr thingAttr (thingAttr.unserializeCode 35) ThingType.new [1, 2, 255]
      = Except.ok ({ ThingType.new with m_attribs := [(34, AttrValue.u16 513)] }, [255]) := by
  refine ⟨by decide, by decide, by decide, ?_⟩
  rfl

/-! ## The cap on the number of sprites -/

set_option maxRecDepth 100000 in
/-- C5, at the stream of an item with a terminated (empty) attribute section and one
frame group of 128 x 128 tiles, 128 layers, patterns 128 x 16 x 1 and 1 phase: the
product of the seven bytes is `2^32`, above 4096, and `unserialize` does not fail: the
product formed in `int` arithmetic is 0, so the descriptor is returned with no sprite
ids. -/
theorem unserialize_overflow_accepted :
    (128 * 128 * 128 * 128 * 16 * 1 * 1 : Int) = 4294967296 ∧
    imul (imul (imul (imul (imul (imul 128 128) 128) 128) 16) 1) 1 = 0 ∧
    ((ThingType.unserialize thingAttr noAnimator ThingType.new 0 ThingCategory.Item
        [255, 128, 128, 0, 128, 128, 16, 1, 1]).toOption.map fun r => r.1.extents)
      = some ({ width := 128, height := 128 }, 128, 128, 16, 1) ∧
    ((ThingType.unserialize thingAttr noAnimator ThingType.new 0 ThingCategory.Item
        [255, 128, 128, 0, 128, 128, 16, 1, 1]).toOption.map
      fun r => (r.1.m_animationPhases, r.1.m_spritesIndex, r.2))
      = some (1, [], []) := by
  refine ⟨by decide, ?_, ?_, ?_⟩
  · decide
  · decide
  · decide

/-- The cap check on the 32-bit values: when the header of a frame group and its
animator record are read and the running count plus the group's product, both formed in
`int` arithmetic, exceeds 4096, the iteration ends with the 'more than 4096 sprites'
error whatever follows in the stream, also when nothing follows, so before any sprite id
of the group is read. -/
theorem unserializeFrameGroup_tooManySprites (A : AnimatorCodec) (hasFrameGroups : Bool)
    (t : ThingType) (count : Int) (s s0 s1 s2 s3 s4 s5 s6 s7 s8 s9 : FileStream)
    (k w h l x y z a : Nat) (rs es : Int) (an : Option (List Nat))
    (h0 : getFrameGroupType hasFrameGroups s = Except.ok (k, s0))
    (h1 : getU8 s0 = Except.ok (w, s1)) (h2 : getU8 s1 = Except.ok (h, s2))
    (h3 : getRealSize t w h s2 = Except.ok (rs, es, s3))
    (h4 : getU8 s3 = Except.ok (l, s4)) (h5 : getU8 s4 = Except.ok (x, s5))
    (h6 : getU8 s5 = Except.ok (y, s6)) (h7 : getU8 s6 = Except.ok (z, s7))
    (h8 : getU8 s7 = Except.ok (a, s8))
    (h9 : getAnimator A t a s8 = Except.ok (an, s9))
    (hbig : iadd count (imul (imul (imul (imul (imul (imul w h) l) x) y) z) a) > 4096) :
    unserializeFrameGroup A hasFrameGroups t count s
      = Except.error DecodeError.tooManySprites := by
  unfold unserializeFrameGroup
  rw [h0, bind_ok]
  dsimp only
  rw [h1, bind_ok]
  dsimp only
  rw [h2, bind_ok]
  dsimp only
  rw [h3, bind_ok]
  dsimp only
  rw [h4, bind_ok]
  dsimp only
  rw [h5, bind_ok]
  dsimp only
  rw [h6, bind_ok]
  dsimp only
  rw [h7, bind_ok]
  dsimp only
  rw [h8, bind_ok]
  dsimp only
  rw [h9, bind_ok]
  dsimp only
  have hbig2 : iadd count (imul (imul (imul (imul (imul (Size.mk w h).area l) x) y) z) a)
      > 4096 := hbig
  rw [if_pos hbig2]
  rfl

set_option maxRecDepth 100000 in
/-- C8, at two Creature streams.  The stream of the claim's example, two groups of one
tile with 4 and 6 phases, yields 10 phases and the ten sprite ids in stream order.  The
stream with one group of 128 x 128 tiles, 128 layers, patterns 128 x 16 x 1 and 1 phase
decodes successfully with no sprite id, although the product of its extents and its
phase count is `2^32`. -/
theorem unserialize_creature_groups :
    ((ThingType.unserialize thingAttr noAnimator ThingType.new 0 ThingCategory.Creature
        [255, 2,
          0, 1, 1, 1, 1, 1, 1, 4, 1, 0, 0, 0, 2, 0, 0, 0, 3, 0, 0, 0, 4, 0, 0, 0,
          1, 1, 1, 1, 1, 1, 1, 6, 5, 0, 0, 0, 6, 0, 0, 0, 7, 0, 0, 0, 8, 0, 0, 0,
            9, 0, 0, 0, 10, 0, 0, 0]).toOption.map
      fun r => (r.1.m_animationPhases, r.1.m_spritesIndex, r.2))
      = some (10, [1, 2, 3, 4, 5, 6, 7, 8, 9, 10], []) ∧
    (128 * 128 * 128 * 128 * 16 * 1 * 1 : Int) = 4294967296 ∧
    ((ThingType.unserialize thingAttr noAnimator ThingType.new 0 ThingCategory.Creature
        [255, 1, 0, 128, 128, 0, 128, 128, 16, 1, 1]).toOption.map
      fun r => (r.1.m_animationPhases, r.1.m_spritesIndex.length, r.2))
      = some (1, 0, []) := by
  refine ⟨?_, by decide, ?_⟩
  · decide
  · decide

/-! ## Atlas dimensions -/

/-- C10, at `w = h = 32` and `n = 2097152` frames: the product `32 * 32 * n` is `2^31`,
which the `int` `numSprites` holds as `-2^31`, so the three assertions pass and the
method returns 32 x 32 tiles, an area of 1024 that is below `n * 32 * 32`. -/
theorem getBestTextureDimension_overflow :
    roundUpLoop 64 1 32 = some 32 ∧
    imul (imul 32 32) 2097152 = -2147483648 ∧
    getBestTextureDimension 32 32 2097152 = some { width := 32, height := 32 } ∧
    (32 * 32 : Int) < 2097152 * 32 * 32 := by
  refine ⟨?_, ?_, ?_, by decide⟩
  · decide
  · decide
  · decide

/-! ## The 'corrupt data' error -/

theorem NoCorrupt.ok {α : Type} (v : α) : NoCorrupt (Except.ok v : Except DecodeError α) := by
  intro e h
  cases h

theorem NoCorrupt.error {α : Type} (e : DecodeError) (he : e.isCorruptData = false) :
    NoCorrupt (Except.error e : Except DecodeError α) := by
  intro e2 h
  cases h
  exact he

theorem NoCorrupt.bind {α β : Type} {x : Except DecodeError α} {f : α → Except DecodeError β}
    (hx : NoCorrupt x) (hf : ∀ v, NoCorrupt (f v)) : NoCorrupt (x >>= f) := by
  cases x with
  | error e =>
    intro e2 h
    rw [bind_error] at h
    cases h
    exact hx e rfl
  | ok v => exact hf v

theorem bind_eq_ok {ε α β : Type} {x : Except ε α} {f : α → Except ε β} {v : β}
    (h : (x >>= f) = Except.ok v) : ∃ u, x = Except.ok u ∧ f u = Except.ok v := by
  cases x with
  | error e => cases h
  | ok u => exact ⟨u, rfl, h⟩

theorem getU8_lt {s s2 : FileStream} {v : Nat} (h : getU8 s = Except.ok (v, s2)) :
    v < 256 := by
  cases s with
  | nil => cases h
  | cons b s =>
    cases h
    exact b.isLt

theorem readSprites_length (k : Nat) : ∀ (i : Nat) (v v2 : List Nat) (s s2 : FileStream),
    readSprites k i v s = Except.ok (v2, s2) → v2.length = v.length := by
  induction k with
  | zero =>
    intro i v v2 s s2 h
    cases h
    rfl
  | succ k ih =>
    intro i v v2 s s2 h
    unfold readSprites at h
    obtain ⟨⟨id, s1⟩, _, h⟩ := bind_eq_ok h
    rw [ih (i + 1) (v.set i id) v2 s1 s2 h, List.length_set]

/-- What one successful iteration of the frame group loop leaves: the extents are the
bytes read, the phase count and the running count have grown by the group's phases and
by its product formed in `int` arithmetic, the running count is within the cap and is
the length of the sprite table. -/
theorem unserializeFrameGroup_ok (A : AnimatorCodec) (hasFrameGroups : Bool)
    (t t2 : ThingType) (count count2 : Int) (s s2 : FileStream)
    (hok : unserializeFrameGroup A hasFrameGroups t count s = Except.ok (t2, count2, s2)) :
    ∃ w h l x y z a : Nat, (w < 256 ∧ h < 256 ∧ l < 256 ∧ x < 256 ∧ y < 256 ∧ z < 256 ∧
        a < 256) ∧
      t2.m_size = { width := w, height := h } ∧ t2.m_layers = l ∧ t2.m_numPatternX = x ∧
      t2.m_numPatternY = y ∧ t2.m_numPatternZ = z ∧
      t2.m_animationPhases = iadd t.m_animationPhases a ∧
      count2 = iadd count (imul (imul (imul (imul (imul (imul w h) l) x) y) z) a) ∧
      0 ≤ count2 ∧ count2 ≤ 4096 ∧ (t2.m_spritesIndex.length : Int) = count2 := by
  unfold unserializeFrameGroup at hok
  obtain ⟨⟨k, s0⟩, -, hok⟩ := bind_eq_ok hok
  dsimp only at hok
  obtain ⟨⟨w, s1⟩, hw, hok⟩ := bind_eq_ok hok
  dsimp only at hok
  obtain ⟨⟨h, s3⟩, hh, hok⟩ := bind_eq_ok hok
  dsimp only at hok
  obtain ⟨⟨rs, es, s4⟩, -, hok⟩ := bind_eq_ok hok
  dsimp only at hok
  obtain ⟨⟨l, s5⟩, hl, hok⟩ := bind_eq_ok hok
  dsimp only at hok
  obtain ⟨⟨x, s6⟩, hx, hok⟩ := bind_eq_ok hok
  dsimp only at hok
  obtain ⟨⟨y, s7⟩, hy, hok⟩ := bind_eq_ok hok
  dsimp only at hok
  obtain ⟨⟨z, s8⟩, hz, hok⟩ := bind_eq_ok hok
  dsimp only at hok
  obtain ⟨⟨a, s9⟩, ha, hok⟩ := bind_eq_ok hok
  dsimp only at hok
  obtain ⟨⟨an, s10⟩, -, hok⟩ := bind_eq_ok hok
  dsimp only at hok
  split at hok
  · cases hok
  · next c1 =>
    split at hok
    · cases hok
    · next c2 =>
      obtain ⟨⟨v, s11⟩, hread, hok⟩ := bind_eq_ok hok
      dsimp only at hok
      have hlenv := readSprites_length _ _ _ _ _ _ hread
      rw [length_resize] at hlenv
      cases hok
      refine ⟨w, h, l, x, y, z, a,
        ⟨getU8_lt hw, getU8_lt hh, getU8_lt hl, getU8_lt hx, getU8_lt hy, getU8_lt hz,
          getU8_lt ha⟩, rfl, rfl, rfl, rfl, rfl, rfl, rfl, not_lt.mp c2, not_lt.mp c1, ?_⟩
      show ((v.length : Nat) : Int) = _
      rw [hlenv]
      exact Int.toNat_of_nonneg (not_lt.mp c2)

theorem iadd_of_range {a b : Int} (h0 : -2147483648 ≤ a + b) (h1 : a + b < 2147483648) :
    iadd a b = a + b := by
  unfold iadd
  exact wrapInt32_of_range h0 h1

theorem unserializeFrameGroups_phases_le (A : AnimatorCodec) (hasFrameGroups : Bool)
    (n : Nat) : ∀ (t t2 : ThingType) (count : Int) (s s2 : FileStream),
      unserializeFrameGroups A hasFrameGroups n t count s = Except.ok (t2, s2) →
      0 ≤ t.m_animationPhases → t.m_animationPhases + 255 * (n : Int) < 2147483648 →
      t.m_animationPhases ≤ t2.m_animationPhases := by
  induction n with
  | zero =>
    intro t t2 count s s2 hok _ _
    cases hok
    exact le_refl _
  | succ n ih =>
    intro t t2 count s s2 hok h0 h1
    unfold unserializeFrameGroups at hok
    obtain ⟨⟨t1, c1, s1⟩, hstep, hrest⟩ := bind_eq_ok hok
    dsimp only at hrest
    obtain ⟨w, h, l, x, y, z, a, ⟨-, -, -, -, -, -, ha⟩, -, -, -, -, -, e6, -⟩ :=
      unserializeFrameGroup_ok A hasFrameGroups t t1 count c1 s s1 hstep
    clear hstep hok
    have ha2 : (a : Int) < 256 := by exact_mod_cast ha
    have ha0 : (0 : Int) ≤ a := Int.natCast_nonneg a
    push_cast at h1
    have hph : t1.m_animationPhases = t.m_animationPhases + a := by
      rw [e6]
      exact iadd_of_range (by linarith) (by linarith)
    have := ih t1 t2 c1 s1 s2 hrest (by linarith) (by linarith)
    linarith

/-- The sprite table after `n` frame groups that all have the extents `G`: when the
product `P` of the extents times the final phase count is within the cap, the table has
exactly that many entries. -/
theorem unserializeFrameGroups_length (A : AnimatorCodec) (hasFrameGroups : Bool)
    (G : Size × Int × Int × Int × Int) (P : Int)
    (hP : P = G.1.width * G.1.height * G.2.1 * G.2.2.1 * G.2.2.2.1 * G.2.2.2.2) (n : Nat) :
    ∀ (t t2 : ThingType) (count : Int) (s s2 : FileStream),
      unserializeFrameGroups A hasFrameGroups n t count s = Except.ok (t2, s2) →
      (∀ g ∈ frameGroupStates A hasFrameGroups n t count s, g.extents = G) →
      0 ≤ t.m_animationPhases → t.m_animationPhases + 255 * (n : Int) < 2147483648 →
      count = P * t.m_animationPhases →
      (t.m_animationPhases = 0 ∨ (t.m_spritesIndex.length : Int) = count) →
      P * t2.m_animationPhases ≤ 4096 →
      0 < t2.m_animationPhases → (t2.m_spritesIndex.length : Int) = P * t2.m_animationPhases := by
  induction n with
  | zero =>
    intro t t2 count s s2 hok _ _ _ hcount hinv _ hpos
    cases hok
    rcases hinv with h | h
    · rw [h] at hpos
      exact absurd hpos (lt_irrefl _)
    · rw [h, hcount]
  | succ n ih =>
    intro t t2 count s s2 hok hstates h0 h1 hcount _ hcap hpos
    unfold unserializeFrameGroups at hok
    obtain ⟨⟨t1, c1, s1⟩, hstep, hrest⟩ := bind_eq_ok hok
    dsimp only at hrest
    unfold frameGroupStates at hstates
    rw [hstep] at hstates
    dsimp only at hstates
    have hG : t1.extents = G := hstates t1 (List.mem_cons_self _ _)
    have hstates2 : ∀ g ∈ frameGroupStates A hasFrameGroups n t1 c1 s1, g.extents = G :=
      fun g hg => hstates g (List.mem_cons_of_mem _ hg)
    obtain ⟨w, h, l, x, y, z, a, ⟨-, -, -, -, -, -, ha⟩, e1, e2, e3, e4, e5, e6, e7, -, -,
      hlen⟩ := unserializeFrameGroup_ok A hasFrameGroups t t1 count c1 s s1 hstep
    clear hstep hok hstates
    have ha2 : (a : Int) < 256 := by exact_mod_cast ha
    have ha0 : (0 : Int) ≤ a := Int.natCast_nonneg a
    push_cast at h1
    have hph : t1.m_animationPhases = t.m_animationPhases + a := by
      rw [e6]
      exact iadd_of_range (by linarith) (by linarith)
    have hmono := unserializeFrameGroups_phases_le A hasFrameGroups n t1 t2 c1 s1 s2 hrest
      (by linarith) (by linarith)
    have hPw : P = (w : Int) * h * l * x * y * z := by
      rw [hP, ← hG]
      unfold ThingType.extents
      rw [e1, e2, e3, e4, e5]
    have hP0 : 0 ≤ P := by
      rw [hPw]
      positivity
    clear hG hP e1 e2 e3 e4 e5 e6
    have hle1 : P * a ≤ P * t2.m_animationPhases :=
      mul_le_mul_of_nonneg_left (by linarith) hP0
    have hle2 : P * t1.m_animationPhases ≤ P * t2.m_animationPhases :=
      mul_le_mul_of_nonneg_left hmono hP0
    have hge1 : 0 ≤ P * a := mul_nonneg hP0 ha0
    have hge2 : 0 ≤ P * t.m_animationPhases := mul_nonneg hP0 h0
    have htot : imul (imul (imul (imul (imul (imul (w : Int) h) l) x) y) z) a = P * a := by
      rw [totalSprites_eq _ _ _ _ _ _ _ (by rw [← hPw]; exact hge1)
        (by rw [← hPw]; linarith), hPw]
    have hdist : P * t1.m_animationPhases = P * t.m_animationPhases + P * a := by
      rw [hph]
      ring
    have hc1 : c1 = P * t1.m_animationPhases := by
      rw [e7, htot, hcount, hdist]
      exact iadd_of_range (by linarith) (by linarith)
    exact ih t1 t2 c1 s1 s2 hrest hstates2 (by linarith) (by linarith) hc1 (Or.inr hlen)
      hcap hpos

theorem getGroupCount_lt {category : ThingCategory} {s s2 : FileStream} {g : Nat}
    (h : getGroupCount category s = Except.ok (g, s2)) : g < 256 := by
  unfold getGroupCount at h
  split at h
  · exact getU8_lt h
  · cases h
    decide

/-- C9 (amended): for every descriptor left by a successful `unserialize` in which the
descriptor had, after each frame group read, the extents (width, height, layers and
pattern extents) it ends with, and whose extents and phase count multiply to at most
4096, every coordinate tuple within the stored extents and phase count has a sprite
index below the length of the sprite table, so that the assertion of `getSpriteIndex`
holds and the index is returned. -/
theorem getSpriteIndex_lt_of_unserialize (T : ThingAttrTable) (A : AnimatorCodec)
    (self t : ThingType) (clientId : Nat) (category : ThingCategory) (s rest : FileStream)
    (hok : ThingType.unserialize T A self clientId category s = Except.ok (t, rest))
    (hsame : ∀ g ∈ ThingType.unserializeGroupStates T A self clientId category s,
      g.extents = t.extents)
    (hcap : t.totalCoords ≤ 4096)
    (w h l x y z a : Int) (hv : t.validCoord w h l x y z a) :
    t.spriteIndex w h l x y z a < t.m_spritesIndex.length ∧
    t.getSpriteIndex w h l x y z a = some (t.spriteIndex w h l x y z a) := by
  unfold ThingType.unserialize at hok
  obtain ⟨r, hloop, hok⟩ := bind_eq_ok hok
  unfold ThingType.unserializeGroupStates at hsame
  rw [hloop] at hsame
  dsimp only at hsame
  split at hok
  · cases hok
  · next hdone =>
    rw [if_neg hdone] at hsame
    unfold unserializeGeometry at hok
    obtain ⟨⟨g, s1⟩, hg, hok⟩ := bind_eq_ok hok
    dsimp only at hok
    rw [hg] at hsame
    dsimp only at hsame
    have hg256 : ((g : Nat) : Int) < 256 := by exact_mod_cast getGroupCount_lt hg
    have hpos : 0 < t.m_animationPhases := lt_of_le_of_lt hv.2.2.2.2.2.2.1 hv.2.2.2.2.2.2.2
    have htotal : t.totalCoords = t.m_size.width * t.m_size.height * t.m_layers *
        t.m_numPatternX * t.m_numPatternY * t.m_numPatternZ * t.m_animationPhases := by
      unfold ThingType.totalCoords
      ring
    have hlen := unserializeFrameGroups_length A (decide (category = ThingCategory.Creature))
      t.extents
      (t.m_size.width * t.m_size.height * t.m_layers * t.m_numPatternX * t.m_numPatternY *
        t.m_numPatternZ) rfl g _ t 0 s1 rest hok hsame (le_refl _) (by
          show (0 : Int) + 255 * (g : Int) < 2147483648
          linarith) (by
          show (0 : Int) = _ * 0
          rw [mul_zero]) (Or.inl rfl) (by rw [← htotal]; exact hcap) hpos
    have hidx := getSpriteIndex_eq_exactIndex t (by linarith) w h l x y z a hv
    have hrange := exactIndex_range t w h l x y z a hv
    have : (t.spriteIndex w h l x y z a : Int) < (t.m_spritesIndex.length : Int) := by
      rw [hlen, ← htotal, hidx]
      exact hrange.2
    have hlt : t.spriteIndex w h l x y z a < t.m_spritesIndex.length := by
      exact_mod_cast this
    refine ⟨hlt, ?_⟩
    unfold ThingType.getSpriteIndex
    rw [if_neg (by omega), if_pos hlt]

/-- Witness of C9: a Creature stream of two frame groups of one tile and one phase
each, with the sprite ids 5 and 6. -/
theorem getSpriteIndex_lt_of_unserialize_witness :
    ThingType.unserialize thingAttr noAnimator ThingType.new 0 ThingCategory.Creature
        [255, 2, 0, 1, 1, 1, 1, 1, 1, 1, 5, 0, 0, 0, 1, 1, 1, 1, 1, 1, 1, 1, 6, 0, 0, 0]
      = Except.ok ({ ThingType.sample ThingCategory.Creature 1 1 1 1 1 1 2 [5, 6] with
          m_exactSize := 32 }, []) ∧
    ({ ThingType.sample ThingCategory.Creature 1 1 1 1 1 1 2 [5, 6] with
        m_exactSize := 32 } : ThingType).spriteIndex 0 0 0 0 0 0 1
      < ({ ThingType.sample ThingCategory.Creature 1 1 1 1 1 1 2 [5, 6] with
        m_exactSize := 32 } : ThingType).m_spritesIndex.length ∧
    ({ ThingType.sample ThingCategory.Creature 1 1 1 1 1 1 2 [5, 6] with
        m_exactSize := 32 } : ThingType).getSpriteIndex 0 0 0 0 0 0 1
      = some (({ ThingType.sample ThingCategory.Creature 1 1 1 1 1 1 2 [5, 6] with
        m_exactSize := 32 } : ThingType).spriteIndex 0 0 0 0 0 0 1) :=
  ⟨by rfl,
    getSpriteIndex_lt_of_unserialize thingAttr noAnimator ThingType.new
      { ThingType.sample ThingCategory.Creature 1 1 1 1 1 1 2 [5, 6] with m_exactSize := 32 }
      0 ThingCategory.Creature
      [255, 2, 0, 1, 1, 1, 1, 1, 1, 1, 5, 0, 0, 0, 1, 1, 1, 1, 1, 1, 1, 1, 6, 0, 0, 0] []
      (by rfl) (by decide) (by decide) 0 0 0 0 0 0 1
      (by unfold ThingType.validCoord; decide)⟩

/-- Counterexample to C9 as stated: a Creature stream of two frame groups, the first of
1 x 1 tiles and the second of 2 x 2 tiles, one phase each, decodes successfully to a
descriptor of 2 x 2 tiles and 2 phases with 1 + 4 = 5 sprite ids; the tuple
`(1,1,0,0,0,0,1)` lies within the stored extents and its sprite index is 7, so that
the assertion fails and `getSpriteIndex` returns nothing. -/
theorem getSpriteIndex_out_of_bounds :
    ThingType.unserialize thingAttr noAnimator ThingType.new 0 ThingCategory.Creature
        [255, 2, 0, 1, 1, 1, 1, 1, 1, 1, 9, 0, 0, 0,
          1, 2, 2, 64, 1, 1, 1, 1, 1, 1, 0, 0, 0, 2, 0, 0, 0, 3, 0, 0, 0, 4, 0, 0, 0]
      = Except.ok ({ ThingType.sample ThingCategory.Creature 2 2 1 1 1 1 2 [9, 1, 2, 3, 4] with
          m_exactSize := 64, m_realSize := 64 }, []) ∧
    ({ ThingType.sample ThingCategory.Creature 2 2 1 1 1 1 2 [9, 1, 2, 3, 4] with
        m_exactSize := 64, m_realSize := 64 } : ThingType).validCoord 1 1 0 0 0 0 1 ∧
    ({ ThingType.sample ThingCategory.Creature 2 2 1 1 1 1 2 [9, 1, 2, 3, 4] with
        m_exactSize := 64, m_realSize := 64 } : ThingType).spriteIndex 1 1 0 0 0 0 1 = 7 ∧
    ({ ThingType.sample ThingCategory.Creature 2 2 1 1 1 1 2 [9, 1, 2, 3, 4] with
        m_exactSize := 64, m_realSize := 64 } : ThingType).getSpriteIndex 1 1 0 0 0 0 1
      = none ∧
    ({ ThingType.sample ThingCategory.Creature 2 2 1 1 1 1 2 [9, 1, 2, 3, 4] with
        m_exactSize := 64, m_realSize := 64 } : ThingType).m_spritesIndex.length = 5 ∧
    ¬ ({ ThingType.sample ThingCategory.Creature 2 2 1 1 1 1 2 [9, 1, 2, 3, 4] with
        m_exactSize := 64, m_realSize := 64 } : ThingType).spriteIndexInBounds
          1 1 0 0 0 0 1 := by
  refine ⟨by rfl, ?_, by decide, by decide, by decide, ?_⟩
  · unfold ThingType.validCoord
    decide
  · unfold ThingType.spriteIndexInBounds
    decide

/-! ## Atlas dimensions: the loops -/

theorem shl1_of_range {k : Int} (h0 : -1073741824 ≤ k) (h1 : k < 1073741824) :
    shl1 k = k * 2 := by
  unfold shl1
  exact wrapInt32_of_range (by linarith) (by linarith)

theorem roundUpLoop_stuck (fuel : Nat) : ∀ (k w : Int), (k = 0 ∨ k = -2147483648) → 0 < w →
    roundUpLoop fuel k w = none := by
  induction fuel with
  | zero =>
    intro k w _ _
    rfl
  | succ fuel ih =>
    intro k w hk hw
    have hlt : k < w := by
      rcases hk with h | h <;> rw [h] <;> linarith
    have hs : shl1 k = 0 := by
      rcases hk with h | h <;> rw [h] <;> decide
    unfold roundUpLoop
    rw [if_pos hlt, hs]
    exact ih 0 w (Or.inl rfl) hw

theorem two_pow_le (m : Nat) (hm : m ≤ 30) : (1 : Int) ≤ 2 ^ m ∧ (2 : Int) ^ m ≤ 1073741824 := by
  constructor
  · exact one_le_pow₀ (by norm_num)
  · have h := pow_le_pow_right₀ (by norm_num : (1 : Int) ≤ 2) hm
    norm_num at h
    exact h

/-- The rounding loop, started at a power of two, ends only at a power of two that is
at least `w`. -/
theorem roundUpLoop_pow (fuel : Nat) : ∀ (k w r : Int) (m : Nat), m ≤ 30 → k = 2 ^ m →
    roundUpLoop fuel k w = some r → ∃ m2 : Nat, m2 ≤ 30 ∧ r = 2 ^ m2 ∧ w ≤ r := by
  induction fuel with
  | zero =>
    intro k w r m _ _ h
    cases h
  | succ fuel ih =>
    intro k w r m hm hk h
    obtain ⟨hk1, hk2⟩ := two_pow_le m hm
    rw [← hk] at hk1 hk2
    unfold roundUpLoop at h
    by_cases hlt : k < w
    · rw [if_pos hlt] at h
      by_cases hm30 : m = 30
      · have hk30 : k = 1073741824 := by
          rw [hk, hm30]
          norm_num
        have hs : shl1 k = -2147483648 := by
          rw [hk30]
          decide
        rw [hs, roundUpLoop_stuck fuel _ w (Or.inr rfl) (by linarith)] at h
        cases h
      · have hk3 : k < 1073741824 := by
          have := (two_pow_le (m + 1) (by omega)).2
          rw [pow_succ, ← hk] at this
          linarith
        rw [shl1_of_range (by linarith) hk3] at h
        exact ih (k * 2) w r (m + 1) (by omega) (by rw [hk, pow_succ]) h
    · rw [if_neg hlt] at h
      cases h
      exact ⟨m, hm, hk, not_lt.mp hlt⟩

theorem area_of_range {i j : Int} (hi : 1 ≤ i ∧ i ≤ 32) (hj : 1 ≤ j ∧ j ≤ 32) :
    (Size.mk i j).area = i * j := by
  unfold Size.area imul
  apply wrapInt32_of_range
  · nlinarith [hi.1, hj.1]
  · nlinarith [hi.1, hi.2, hj.1, hj.2]

theorem bestLoopJ_holds (numSprites i : Int) (hi : 1 ≤ i ∧ i ≤ 32) (fuel : Nat) :
    ∀ (j : Int) (best b : Size), 1 ≤ j → best.holds numSprites →
      bestLoopJ numSprites i fuel j best = some b → b.holds numSprites := by
  induction fuel with
  | zero =>
    intro j best b _ _ h
    cases h
  | succ fuel ih =>
    intro j best b hj hbest h
    unfold bestLoopJ at h
    by_cases hle : j ≤ 32
    · rw [if_pos hle, shl1_of_range (by linarith) (by linarith)] at h
      refine ih (j * 2) _ b (by linarith) ?_ h
      split_ifs with c1 c2
      · exact hbest
      · rw [area_of_range hi ⟨hj, hle⟩] at c1
        exact ⟨hi, ⟨hj, hle⟩, not_lt.mp c1⟩
      · exact hbest
    · rw [if_neg hle] at h
      cases h
      exact hbest

theorem bestLoopI_holds (numSprites h : Int) (hh : 1 ≤ h) (fuel : Nat) :
    ∀ (i : Int) (best b : Size), 1 ≤ i → best.holds numSprites →
      bestLoopI numSprites h fuel i best = some b → b.holds numSprites := by
  induction fuel with
  | zero =>
    intro i best b _ _ hb
    cases hb
  | succ fuel ih =>
    intro i best b hi hbest hb
    unfold bestLoopI at hb
    by_cases hle : i ≤ 32
    · rw [if_pos hle] at hb
      cases hj : bestLoopJ numSprites i 64 h best with
      | none =>
        rw [hj] at hb
        cases hb
      | some b1 =>
        rw [hj] at hb
        dsimp only at hb
        rw [shl1_of_range (by linarith) (by linarith)] at hb
        exact ih (i * 2) b1 b (by linarith)
          (bestLoopJ_holds numSprites i ⟨hi, hle⟩ 64 h best b1 hh hbest hj) hb
    · rw [if_neg hle] at hb
      cases hb
      exact hbest

/-- Whenever `getBestTextureDimension` returns, the rounded extents are powers of two
of at least 1 that are not below `w` and `h`, the size returned is between 1 x 1 and
32 x 32 tiles, and its area is at least `numSprites` as the `int` holds it; when the
product of the rounded extents and `count` fits an `int`, the area is at least that
product. -/
theorem getBestTextureDimension_holds (w h count : Int) (d : Size)
    (hd : getBestTextureDimension w h count = some d) :
    ∃ w2 h2 : Int, roundUpLoop 64 1 w = some w2 ∧ roundUpLoop 64 1 h = some h2 ∧
      (∃ m : Nat, m ≤ 30 ∧ w2 = 2 ^ m) ∧ (∃ m : Nat, m ≤ 30 ∧ h2 = 2 ^ m) ∧
      w ≤ w2 ∧ h ≤ h2 ∧ w2 ≤ 32 ∧ h2 ≤ 32 ∧
      d.holds (imul (imul w2 h2) count) ∧
      (-2147483648 ≤ w2 * h2 * count → w2 * h2 * count < 2147483648 →
        count * w2 * h2 ≤ d.width * d.height) := by
  unfold getBestTextureDimension at hd
  cases hw : roundUpLoop 64 1 w with
  | none =>
    rw [hw] at hd
    cases hd
  | some w2 =>
    cases hh : roundUpLoop 64 1 h with
    | none =>
      rw [hw, hh] at hd
      cases hd
    | some h2 =>
      rw [hw, hh] at hd
      dsimp only at hd
      obtain ⟨m1, hm1, hw2, hww⟩ := roundUpLoop_pow 64 1 w w2 0 (by omega) (by norm_num) hw
      obtain ⟨m2, hm2, hh2, hhh⟩ := roundUpLoop_pow 64 1 h h2 0 (by omega) (by norm_num) hh
      have hw1 : 1 ≤ w2 := by
        rw [hw2]
        exact (two_pow_le m1 hm1).1
      have hh1 : 1 ≤ h2 := by
        rw [hh2]
        exact (two_pow_le m2 hm2).1
      split at hd
      · next hassert =>
        obtain ⟨a1, a2, a3⟩ := hassert
        have hfinal := bestLoopI_holds _ h2 hh1 64 w2 (Size.mk 32 32) d hw1
          ⟨⟨by norm_num, by norm_num⟩, ⟨by norm_num, by norm_num⟩, by
            show _ ≤ (32 : Int) * 32
            linarith⟩ hd
        refine ⟨w2, h2, rfl, rfl, ⟨m1, hm1, hw2⟩, ⟨m2, hm2, hh2⟩, hww, hhh, a2, a3, hfinal, ?_⟩
        intro r0 r1
        have hreal : imul (imul w2 h2) count = w2 * h2 * count :=
          eq_of_modEq_of_range (imul_modEq (imul_modEq (Int.ModEq.refl _) (Int.ModEq.refl _))
            (Int.ModEq.refl _)) (wrapInt32_range _) ⟨r0, r1⟩
        have := hfinal.2.2
        rw [hreal] at this
        linarith [this, mul_comm (w2 * h2) count, mul_assoc count w2 h2]
      · cases hd

/-! ## Round trip of a descriptor without attributes -/

/-- C18: for every descriptor of a category other than Creature that has no attributes,
at most one animation phase, width, height, realSize, layers, pattern extents and phase
count fitting a byte and `width * height * layers * patternX * patternY * patternZ *
animationPhases` sprite ids (at most 4096, each a 32-bit value), `unserialize` of the
bytes `serialize` writes succeeds, consumes all of them, and yields the same width,
height, layers, pattern extents, phase count and sprite ids, and the same realSize
whenever width > 1 or height > 1. -/
theorem unserialize_serialize_whole (T : ThingAttrTable) (A : AnimatorCodec)
    (self d : ThingType) (hLast0 : 0 < T.ThingLastAttr) (hLast : T.ThingLastAttr < 256)
    (hcat : d.m_category ≠ ThingCategory.Creature)
    (hattr : ∀ i, i < T.ThingLastAttr → d.m_attribs.has i = false)
    (hw : 0 ≤ d.m_size.width ∧ d.m_size.width ≤ 255)
    (hh : 0 ≤ d.m_size.height ∧ d.m_size.height ≤ 255)
    (hr : 0 ≤ d.m_realSize ∧ d.m_realSize ≤ 255)
    (hl : 0 ≤ d.m_layers ∧ d.m_layers ≤ 255)
    (hx : 0 ≤ d.m_numPatternX ∧ d.m_numPatternX ≤ 255)
    (hy : 0 ≤ d.m_numPatternY ∧ d.m_numPatternY ≤ 255)
    (hz : 0 ≤ d.m_numPatternZ ∧ d.m_numPatternZ ≤ 255)
    (ha : 0 ≤ d.m_animationPhases ∧ d.m_animationPhases ≤ 1)
    (hlen : (d.m_spritesIndex.length : Int) = d.m_size.width * d.m_size.height * d.m_layers *
      d.m_numPatternX * d.m_numPatternY * d.m_numPatternZ * d.m_animationPhases)
    (hcap : d.m_spritesIndex.length ≤ 4096)
    (hids : ∀ id ∈ d.m_spritesIndex, id < 4294967296) :
    ∃ t, ThingType.unserialize T A self d.m_id d.m_category (d.serialize T A)
        = Except.ok (t, []) ∧
      t.m_size.width = d.m_size.width ∧ t.m_size.height = d.m_size.height ∧
      t.m_layers = d.m_layers ∧ t.m_numPatternX = d.m_numPatternX ∧
      t.m_numPatternY = d.m_numPatternY ∧ t.m_numPatternZ = d.m_numPatternZ ∧
      t.m_animationPhases = d.m_animationPhases ∧ t.m_spritesIndex = d.m_spritesIndex ∧
      (d.m_size.width > 1 ∨ d.m_size.height > 1 → t.m_realSize = d.m_realSize) := by
  obtain ⟨t, hok, e1, e2, e3, e4, e5, e6, e7, e8, -⟩ :=
    unserialize_serialize_single T A self d hLast0 hLast hcat hattr hw hh hl hx hy hz ha hlen
      hcap hids
  refine ⟨t, hok, by rw [e1], by rw [e1], e2, e3, e4, e5, e6, e7, ?_⟩
  intro hbig
  rw [e8, if_pos hbig]
  exact Int.emod_eq_of_lt hr.1 (by linarith [hr.2])

/-- Witness of C18: the claim at an item of 1 x 2 tiles with realSize 40 and the sprite
ids 3 and 5, read into a fresh descriptor. -/
theorem unserialize_serialize_whole_witness :
    ∃ t, ThingType.unserialize thingAttr noAnimator ThingType.new
        ({ ThingType.sample ThingCategory.Item 1 2 1 1 1 1 1 [3, 5] with
            m_realSize := 40 }).m_id
        ({ ThingType.sample ThingCategory.Item 1 2 1 1 1 1 1 [3, 5] with
            m_realSize := 40 }).m_category
        (({ ThingType.sample ThingCategory.Item 1 2 1 1 1 1 1 [3, 5] with
            m_realSize := 40 }).serialize thingAttr noAnimator) = Except.ok (t, []) ∧
      t.m_size.width = 1 ∧ t.m_size.height = 2 ∧ t.m_layers = 1 ∧ t.m_numPatternX = 1 ∧
      t.m_numPatternY = 1 ∧ t.m_numPatternZ = 1 ∧ t.m_animationPhases = 1 ∧
      t.m_spritesIndex = [3, 5] ∧ ((1 : Int) > 1 ∨ (2 : Int) > 1 → t.m_realSize = 40) :=
  unserialize_serialize_whole thingAttr noAnimator ThingType.new
    { ThingType.sample ThingCategory.Item 1 2 1 1 1 1 1 [3, 5] with m_realSize := 40 }
    (by decide) (by decide) (by decide) (fun _ _ => rfl) (by decide) (by decide) (by decide)
    (by decide) (by decide) (by decide) (by decide) (by decide) (by decide) (by decide)
    (by decide)

/-! ## The light and market records -/

theorem getU16_addU16 (n : Nat) (h : n < 65536) (s : FileStream) :
    getU16 (addU16 (n : Int) ++ s) = Except.ok (n, s) := by
  have h0 := toByte_val (n : Int)
  have h1 := toByte_val ((n : Int) / 256)
  have e : (toByte (n : Int)).val + 256 * (toByte ((n : Int) / 256)).val = n := by omega
  show Except.ok ((toByte (n : Int)).val + 256 * (toByte ((n : Int) / 256)).val, s) = _
  rw [e]

theorem getString_addString (name : List Byte) (h : name.length < 65536) (s : FileStream) :
    getString (addString name ++ s) = Except.ok (name, s) := by
  unfold getString addString
  rw [List.append_assoc, getU16_addU16 name.length h]
  dsimp only
  rw [if_pos (by rw [List.length_append]; omega), List.take_left, List.drop_left]

theorem AttrStorage.find_set_self (m : AttrStorage) (k : Nat) (v : AttrValue) :
    (m.set k v).find k = some v := by
  simp [AttrStorage.set, AttrStorage.find, List.lookup]

theorem lookup_filter_ne (m : List (Nat × AttrValue)) (k k2 : Nat) (h : k2 ≠ k) :
    (m.filter (fun e => e.1 != k)).lookup k2 = m.lookup k2 := by
  induction m with
  | nil => rfl
  | cons e m ih =>
    obtain ⟨a, v⟩ := e
    by_cases ha : a = k
    · subst ha
      have h1 : ((a, v) :: m).filter (fun e => e.1 != a) = m.filter (fun e => e.1 != a) := by
        simp [List.filter_cons]
      have h2 : (k2 == a) = false := by simpa using h
      rw [h1, ih, List.lookup_cons, h2]
    · have h1 : ((a, v) :: m).filter (fun e => e.1 != k)
          = (a, v) :: m.filter (fun e => e.1 != k) := by
        simp [List.filter_cons, ha]
      rw [h1, List.lookup_cons, List.lookup_cons, ih]

theorem AttrStorage.find_set_ne (m : AttrStorage) (k k2 : Nat) (v : AttrValue) (h : k2 ≠ k) :
    (m.set k v).find k2 = m.find k2 := by
  unfold AttrStorage.set AttrStorage.find
  have h2 : (k2 == k) = false := by simpa using h
  rw [List.lookup_cons, h2]
  exact lookup_filter_ne m k k2 h

/-- The light record: two 16-bit integers are consumed and stored. -/
theorem unserializeAttr_light (T : ThingAttrTable) (hT : T.distinctLabels) (t : ThingType)
    (i c : Nat) (hi : i < 65536) (hc : c < 65536) (rest : FileStream) :
    unserializeAttr T T.ThingAttrLight t (addU16 (i : Int) ++ addU16 (c : Int) ++ rest)
      = Except.ok
          ({ t with
              m_attribs := t.m_attribs.set T.ThingAttrLight
                (AttrValue.light { intensity := i, color := c }) }, rest) := by
  have hne : T.ThingAttrLight ≠ T.ThingAttrDisplacement := by
    unfold ThingAttrTable.distinctLabels at hT
    simp only [List.nodup_cons, List.mem_cons, not_or] at hT
    exact fun h => hT.1.1 h.symm
  unfold unserializeAttr
  rw [if_neg hne, if_pos rfl, List.append_assoc, getU16_addU16 i hi, bind_ok]
  dsimp only
  rw [getU16_addU16 c hc, bind_ok]
  rfl

/-- The market record read from the bytes of its six fields. -/
theorem unserializeAttr_market (T : ThingAttrTable) (hT : T.distinctLabels) (t : ThingType)
    (category tradeAs showAs restrictProfession requiredLevel : Nat) (name : List Byte)
    (h1 : category < 65536) (h2 : tradeAs < 65536) (h3 : showAs < 65536)
    (h4 : name.length < 65536) (h5 : restrictProfession < 65536)
    (h6 : requiredLevel < 65536) (rest : FileStream) :
    unserializeAttr T T.ThingAttrMarket t
        (addU16 (category : Int) ++ (addU16 (tradeAs : Int) ++ (addU16 (showAs : Int) ++
          (addString name ++ (addU16 (restrictProfession : Int) ++
            (addU16 (requiredLevel : Int) ++ rest))))))
      = Except.ok
          ({ t with
              m_attribs := t.m_attribs.set T.ThingAttrMarket
                (AttrValue.market
                  { category := category, tradeAs := tradeAs, showAs := showAs, name := name,
                    restrictProfession := restrictProfession,
                    requiredLevel := requiredLevel }) }, rest) := by
  have hne : T.ThingAttrMarket ≠ T.ThingAttrDisplacement ∧
      T.ThingAttrMarket ≠ T.ThingAttrLight := by
    unfold ThingAttrTable.distinctLabels at hT
    simp only [List.nodup_cons, List.mem_cons, not_or] at hT
    exact ⟨fun h => hT.1.2.1 h.symm, fun h => hT.2.1.1 h.symm⟩
  unfold unserializeAttr
  rw [if_neg hne.1, if_neg hne.2, if_pos rfl, getU16_addU16 category h1, bind_ok]
  dsimp only
  rw [getU16_addU16 tradeAs h2, bind_ok]
  dsimp only
  rw [getU16_addU16 showAs h3, bind_ok]
  dsimp only
  rw [getString_addString name h4, bind_ok]
  dsimp only
  rw [getU16_addU16 restrictProfession h5, bind_ok]
  dsimp only
  rw [getU16_addU16 requiredLevel h6, bind_ok]
  rfl

/-- C16 (amended): the payload the decoder consumes for a Market attribute is exactly
three 16-bit integers (category, tradeAs, showAs), then one length-prefixed string, then
two more 16-bit integers: the decoder's case is that chain of reads, and from the bytes
of such a payload it stores the six values and leaves the stream that follows
untouched. -/
theorem unserializeAttr_market_payload (T : ThingAttrTable) (hT : T.distinctLabels)
    (t : ThingType) :
    (∀ s : FileStream, unserializeAttr T T.ThingAttrMarket t s =
      (getU16 s >>= fun r1 => getU16 r1.2 >>= fun r2 => getU16 r2.2 >>= fun r3 =>
        getString r3.2 >>= fun r4 => getU16 r4.2 >>= fun r5 => getU16 r5.2 >>= fun r6 =>
          pure
            ({ t with
                m_attribs := t.m_attribs.set T.ThingAttrMarket
                  (AttrValue.market
                    { category := r1.1, tradeAs := r2.1, showAs := r3.1, name := r4.1,
                      restrictProfession := r5.1, requiredLevel := r6.1 }) }, r6.2))) ∧
    ∀ (category tradeAs showAs restrictProfession requiredLevel : Nat) (name : List Byte)
      (rest : FileStream), category < 65536 → tradeAs < 65536 → showAs < 65536 →
      name.length < 65536 → restrictProfession < 65536 → requiredLevel < 65536 →
      unserializeAttr T T.ThingAttrMarket t
        (addU16 (category : Int) ++ (addU16 (tradeAs : Int) ++ (addU16 (showAs : Int) ++
          (addString name ++ (addU16 (restrictProfession : Int) ++
            (addU16 (requiredLevel : Int) ++ rest))))))
      = Except.ok
          ({ t with
              m_attribs := t.m_attribs.set T.ThingAttrMarket
                (AttrValue.market
                  { category := category, tradeAs := tradeAs, showAs := showAs, name := name,
                    restrictProfession := restrictProfession,
                    requiredLevel := requiredLevel }) }, rest) := by
  have hne : T.ThingAttrMarket ≠ T.ThingAttrDisplacement ∧
      T.ThingAttrMarket ≠ T.ThingAttrLight := by
    unfold ThingAttrTable.distinctLabels at hT
    simp only [List.nodup_cons, List.mem_cons, not_or] at hT
    exact ⟨fun h => hT.1.2.1 h.symm, fun h => hT.2.1.1 h.symm⟩
  constructor
  · intro s
    unfold unserializeAttr
    rw [if_neg hne.1, if_neg hne.2, if_pos rfl]
  · intro category tradeAs showAs restrictProfession requiredLevel name rest h1 h2 h3 h4 h5 h6
    exact unserializeAttr_market T hT t category tradeAs showAs restrictProfession
      requiredLevel name h1 h2 h3 h4 h5 h6 rest

/-- Witness of C16: with the reference table, the market record of category 1, tradeAs
100, showAs 100, name "Sword", restrictProfession 0 and requiredLevel 0 is read from its
17 bytes, and the byte 255 that follows is left in the stream. -/
theorem unserializeAttr_market_payload_witness :
    unserializeAttr thingAttr thingAttr.ThingAttrMarket ThingType.new
        [1, 0, 100, 0, 100, 0, 5, 0, 83, 119, 111, 114, 100, 0, 0, 0, 0, 255]
      = Except.ok
          ({ ThingType.new with
              m_attribs := ThingType.new.m_attribs.set thingAttr.ThingAttrMarket
                (AttrValue.market
                  { category := 1, tradeAs := 100, showAs := 100,
                    name := [83, 119, 111, 114, 100],
                    restrictProfession := 0, requiredLevel := 0 }) }, [255]) :=
  (unserializeAttr_market_payload thingAttr
    (by unfold ThingAttrTable.distinctLabels; decide) ThingType.new).2 1 100 100 0 0
    [83, 119, 111, 114, 100] [255] (by decide) (by decide) (by decide) (by decide)
    (by decide) (by decide)

/-- Counterexample to C16 as stated: a payload of two 16-bit integers (1 and 100), the
string "Sword" with its length and two more 16-bit integers (0 and 0), followed by the
byte 255, is not consumed as a market record: the decoder takes the length 5 for the
third integer, the bytes 83 and 119 for a length of 30547, and fails at the end of the
data. -/
theorem unserializeAttr_market_two :
    addU16 1 ++ addU16 100 ++ addString [83, 119, 111, 114, 100] ++ addU16 0 ++ addU16 0
        ++ [255]
      = [1, 0, 100, 0, 5, 0, 83, 119, 111, 114, 100, 0, 0, 0, 0, 255] ∧
    unserializeAttr thingAttr thingAttr.ThingAttrMarket ThingType.new
        [1, 0, 100, 0, 5, 0, 83, 119, 111, 114, 100, 0, 0, 0, 0, 255]
      = Except.error DecodeError.readFailed := by
  constructor
  · decide
  · rfl

theorem unserializeAttrs_step (T : ThingAttrTable) (n count : Nat) (attr : Int)
    (t t2 : ThingType) (s s2 : FileStream) (c : Nat) (hc : c < 256)
    (hne : c ≠ T.ThingLastAttr)
    (h : unserializeAttr T (T.unserializeCode c) t s = Except.ok (t2, s2)) :
    unserializeAttrs T (n + 1) count attr t (addU8 (c : Int) ++ s)
      = unserializeAttrs T n (count + 1) (T.unserializeCode c) t2 s2 := by
  conv_lhs => unfold unserializeAttrs
  rw [getU8_addU8 c hc, bind_ok]
  dsimp only
  rw [if_neg hne, h, bind_ok]

theorem unserializeAttrs_last (T : ThingAttrTable) (n count : Nat) (attr : Int)
    (t : ThingType) (s : FileStream) (hLast : T.ThingLastAttr < 256) :
    unserializeAttrs T (n + 1) count attr t (addU8 (T.ThingLastAttr : Int) ++ s)
      = Except.ok { done := true, count := count + 1, attr := T.ThingLastAttr, thing := t,
                    stream := s } := by
  unfold unserializeAttrs
  rw [getU8_addU8 _ hLast, bind_ok]
  dsimp only
  rw [if_pos rfl]
  rfl

theorem unserializeFrameGroup_attribs (A : AnimatorCodec) (hasFrameGroups : Bool)
    (t t2 : ThingType) (count count2 : Int) (s s2 : FileStream)
    (hok : unserializeFrameGroup A hasFrameGroups t count s = Except.ok (t2, count2, s2)) :
    t2.m_attribs = t.m_attribs := by
  unfold unserializeFrameGroup at hok
  obtain ⟨⟨k, s0⟩, -, hok⟩ := bind_eq_ok hok
  dsimp only at hok
  obtain ⟨⟨w, s1⟩, -, hok⟩ := bind_eq_ok hok
  dsimp only at hok
  obtain ⟨⟨h, s3⟩, -, hok⟩ := bind_eq_ok hok
  dsimp only at hok
  obtain ⟨⟨rs, es, s4⟩, -, hok⟩ := bind_eq_ok hok
  dsimp only at hok
  obtain ⟨⟨l, s5⟩, -, hok⟩ := bind_eq_ok hok
  dsimp only at hok
  obtain ⟨⟨x, s6⟩, -, hok⟩ := bind_eq_ok hok
  dsimp only at hok
  obtain ⟨⟨y, s7⟩, -, hok⟩ := bind_eq_ok hok
  dsimp only at hok
  obtain ⟨⟨z, s8⟩, -, hok⟩ := bind_eq_ok hok
  dsimp only at hok
  obtain ⟨⟨a, s9⟩, -, hok⟩ := bind_eq_ok hok
  dsimp only at hok
  obtain ⟨⟨an, s10⟩, -, hok⟩ := bind_eq_ok hok
  dsimp only at hok
  split at hok
  · cases hok
  · split at hok
    · cases hok
    · obtain ⟨⟨v, s11⟩, -, hok⟩ := bind_eq_ok hok
      dsimp only at hok
      cases hok
      rfl

theorem unserializeFrameGroups_attribs (A : AnimatorCodec) (hasFrameGroups : Bool)
    (n : Nat) : ∀ (t t2 : ThingType) (count : Int) (s s2 : FileStream),
      unserializeFrameGroups A hasFrameGroups n t count s = Except.ok (t2, s2) →
      t2.m_attribs = t.m_attribs := by
  induction n with
  | zero =>
    intro t t2 count s s2 hok
    cases hok
    rfl
  | succ n ih =>
    intro t t2 count s s2 hok
    unfold unserializeFrameGroups at hok
    obtain ⟨⟨t1, c1, s1⟩, hstep, hrest⟩ := bind_eq_ok hok
    dsimp only at hrest
    rw [ih t1 t2 c1 s1 s2 hrest]
    exact unserializeFrameGroup_attribs A hasFrameGroups t t1 count c1 s s1 hstep

theorem unserializeGeometry_attribs (A : AnimatorCodec) (category : ThingCategory)
    (t t2 : ThingType) (s s2 : FileStream)
    (hok : unserializeGeometry A category t s = Except.ok (t2, s2)) :
    t2.m_attribs = t.m_attribs := by
  unfold unserializeGeometry at hok
  obtain ⟨⟨g, s1⟩, -, hok⟩ := bind_eq_ok hok
  dsimp only at hok
  exact unserializeFrameGroups_attribs A _ g { t with m_animationPhases := 0 } t2 0 s1 s2 hok

/-- C15: for every intensity i, color c and market fields (all 16-bit values, the name
with a 16-bit length), the attribute loop reads the stream [Light wire code, i, c,
Market wire code, category, tradeAs, showAs, name, restrictProfession, requiredLevel,
terminator] up to and including the terminator and leaves a descriptor whose Light
attribute is present with the value {i, c} and whose Market attribute is present with
exactly the six field values; `unserialize` goes on with the frame groups from the rest
of the stream, and whenever it returns, the descriptor has these two attributes. -/
theorem unserialize_light_market (T : ThingAttrTable) (A : AnimatorCodec)
    (hT : T.distinctLabels) (hLast : T.ThingLastAttr < 256) (h3 : 3 ≤ T.ThingLastAttr)
    (lightCode marketCode : Nat) (hlc : lightCode < 256) (hmc : marketCode < 256)
    (hl : T.unserializeCode lightCode = T.ThingAttrLight)
    (hm : T.unserializeCode marketCode = T.ThingAttrMarket)
    (hlt : lightCode ≠ T.ThingLastAttr) (hmt : marketCode ≠ T.ThingLastAttr)
    (self : ThingType) (clientId : Nat) (thingCategory : ThingCategory)
    (i c category tradeAs showAs restrictProfession requiredLevel : Nat) (name : List Byte)
    (hi : i < 65536) (hc : c < 65536)
    (h1 : category < 65536) (h2 : tradeAs < 65536) (h4 : showAs < 65536)
    (h5 : name.length < 65536) (h6 : restrictProfession < 65536)
    (h7 : requiredLevel < 65536) (rest : FileStream) :
    ∃ t1 : ThingType,
      t1.m_attribs.has T.ThingAttrLight = true ∧
      t1.m_attribs.getLight T.ThingAttrLight = { intensity := i, color := c } ∧
      t1.m_attribs.has T.ThingAttrMarket = true ∧
      t1.m_attribs.getMarket T.ThingAttrMarket =
        { category := category, tradeAs := tradeAs, showAs := showAs, name := name,
          restrictProfession := restrictProfession, requiredLevel := requiredLevel } ∧
      unserializeAttrs T T.ThingLastAttr 0 (-1)
          { self with m_null := false, m_id := clientId, m_category := thingCategory }
          (addU8 (lightCode : Int) ++ (addU16 (i : Int) ++ (addU16 (c : Int) ++
            (addU8 (marketCode : Int) ++ (addU16 (category : Int) ++
              (addU16 (tradeAs : Int) ++ (addU16 (showAs : Int) ++ (addString name ++
                (addU16 (restrictProfession : Int) ++ (addU16 (requiredLevel : Int) ++
                  (addU8 (T.ThingLastAttr : Int) ++ rest)))))))))))
        = Except.ok { done := true, count := 3, attr := T.ThingLastAttr, thing := t1,
                      stream := rest } ∧
      ThingType.unserialize T A self clientId thingCategory
          (addU8 (lightCode : Int) ++ (addU16 (i : Int) ++ (addU16 (c : Int) ++
            (addU8 (marketCode : Int) ++ (addU16 (category : Int) ++
              (addU16 (tradeAs : Int) ++ (addU16 (showAs : Int) ++ (addString name ++
                (addU16 (restrictProfession : Int) ++ (addU16 (requiredLevel : Int) ++
                  (addU8 (T.ThingLastAttr : Int) ++ rest)))))))))))
        = unserializeGeometry A thingCategory t1 rest ∧
      ∀ t r, ThingType.unserialize T A self clientId thingCategory
          (addU8 (lightCode : Int) ++ (addU16 (i : Int) ++ (addU16 (c : Int) ++
            (addU8 (marketCode : Int) ++ (addU16 (category : Int) ++
              (addU16 (tradeAs : Int) ++ (addU16 (showAs : Int) ++ (addString name ++
                (addU16 (restrictProfession : Int) ++ (addU16 (requiredLevel : Int) ++
                  (addU8 (T.ThingLastAttr : Int) ++ rest)))))))))))
          = Except.ok (t, r) →
        t.m_attribs.has T.ThingAttrLight = true ∧
        t.m_attribs.getLight T.ThingAttrLight = { intensity := i, color := c } ∧
        t.m_attribs.has T.ThingAttrMarket = true ∧
        t.m_attribs.getMarket T.ThingAttrMarket =
          { category := category, tradeAs := tradeAs, showAs := showAs, name := name,
            restrictProfession := restrictProfession, requiredLevel := requiredLevel } := by
  have hne : T.ThingAttrLight ≠ T.ThingAttrMarket := by
    unfold ThingAttrTable.distinctLabels at hT
    simp only [List.nodup_cons, List.mem_cons, not_or] at hT
    exact hT.2.1.1
  have hloop : ∀ (N : Nat) (t0 : ThingType), 3 ≤ N → unserializeAttrs T N 0 (-1) t0
      (addU8 (lightCode : Int) ++ (addU16 (i : Int) ++ (addU16 (c : Int) ++
        (addU8 (marketCode : Int) ++ (addU16 (category : Int) ++
          (addU16 (tradeAs : Int) ++ (addU16 (showAs : Int) ++ (addString name ++
            (addU16 (restrictProfession : Int) ++ (addU16 (requiredLevel : Int) ++
              (addU8 (T.ThingLastAttr : Int) ++ rest)))))))))))
      = Except.ok
          { done := true, count := 3, attr := T.ThingLastAttr,
            thing :=
              { t0 with
                m_attribs :=
                  (t0.m_attribs.set T.ThingAttrLight
                      (AttrValue.light { intensity := i, color := c })).set T.ThingAttrMarket
                    (AttrValue.market
                      { category := category, tradeAs := tradeAs, showAs := showAs,
                        name := name, restrictProfession := restrictProfession,
                        requiredLevel := requiredLevel }) },
            stream := rest } := by
    intro N t0 hN
    obtain ⟨n, rfl⟩ : ∃ n, N = n + 3 := ⟨N - 3, by omega⟩
    have e1 := unserializeAttr_light T hT t0 i c hi hc
      (addU8 (marketCode : Int) ++ (addU16 (category : Int) ++
        (addU16 (tradeAs : Int) ++ (addU16 (showAs : Int) ++ (addString name ++
          (addU16 (restrictProfession : Int) ++ (addU16 (requiredLevel : Int) ++
            (addU8 (T.ThingLastAttr : Int) ++ rest))))))))
    rw [List.append_assoc] at e1
    have e2 := unserializeAttr_market T hT
      { t0 with
        m_attribs := t0.m_attribs.set T.ThingAttrLight
          (AttrValue.light { intensity := i, color := c }) }
      category tradeAs showAs restrictProfession requiredLevel name h1 h2 h4 h5 h6 h7
      (addU8 (T.ThingLastAttr : Int) ++ rest)
    rw [unserializeAttrs_step T (n + 2) 0 (-1) t0 _ _ _ lightCode hlc hlt
        (by rw [hl]; exact e1),
      unserializeAttrs_step T (n + 1) 1 _ _ _ _ _ marketCode hmc hmt (by rw [hm]; exact e2),
      unserializeAttrs_last T n 2 _ _ _ hLast]
  have hfind1 : ∀ m : AttrStorage, ((m.set T.ThingAttrLight
      (AttrValue.light { intensity := i, color := c })).set T.ThingAttrMarket
        (AttrValue.market
          { category := category, tradeAs := tradeAs, showAs := showAs, name := name,
            restrictProfession := restrictProfession,
            requiredLevel := requiredLevel })).find T.ThingAttrLight
      = some (AttrValue.light { intensity := i, color := c }) := by
    intro m
    rw [AttrStorage.find_set_ne _ _ _ _ hne, AttrStorage.find_set_self]
  have hfind2 : ∀ m : AttrStorage, ((m.set T.ThingAttrLight
      (AttrValue.light { intensity := i, color := c })).set T.ThingAttrMarket
        (AttrValue.market
          { category := category, tradeAs := tradeAs, showAs := showAs, name := name,
            restrictProfession := restrictProfession,
            requiredLevel := requiredLevel })).find T.ThingAttrMarket
      = some (AttrValue.market
          { category := category, tradeAs := tradeAs, showAs := showAs, name := name,
            restrictProfession := restrictProfession, requiredLevel := requiredLevel }) :=
    fun m => AttrStorage.find_set_self _ _ _
  have hget : ∀ m : AttrStorage,
      m.find T.ThingAttrLight = some (AttrValue.light { intensity := i, color := c }) →
      m.find T.ThingAttrMarket = some (AttrValue.market
          { category := category, tradeAs := tradeAs, showAs := showAs, name := name,
            restrictProfession := restrictProfession, requiredLevel := requiredLevel }) →
      m.has T.ThingAttrLight = true ∧
      m.getLight T.ThingAttrLight = { intensity := i, color := c } ∧
      m.has T.ThingAttrMarket = true ∧
      m.getMarket T.ThingAttrMarket =
        { category := category, tradeAs := tradeAs, showAs := showAs, name := name,
          restrictProfession := restrictProfession, requiredLevel := requiredLevel } := by
    intro m f1 f2
    unfold AttrStorage.find at f1 f2
    unfold AttrStorage.has AttrStorage.getLight AttrStorage.getMarket
    rw [f1, f2]
    exact ⟨rfl, rfl, rfl, rfl⟩
  have hloop1 := hloop T.ThingLastAttr
    { self with m_null := false, m_id := clientId, m_category := thingCategory } h3
  obtain ⟨t1, ht1⟩ : ∃ t1 : ThingType, t1 =
      { self with
        m_null := false, m_id := clientId, m_category := thingCategory,
        m_attribs :=
          (self.m_attribs.set T.ThingAttrLight
              (AttrValue.light { intensity := i, color := c })).set T.ThingAttrMarket
            (AttrValue.market
              { category := category, tradeAs := tradeAs, showAs := showAs,
                name := name, restrictProfession := restrictProfession,
                requiredLevel := requiredLevel }) } := ⟨_, rfl⟩
  have hloop2 : unserializeAttrs T T.ThingLastAttr 0 (-1)
      { self with m_null := false, m_id := clientId, m_category := thingCategory }
      (addU8 (lightCode : Int) ++ (addU16 (i : Int) ++ (addU16 (c : Int) ++
        (addU8 (marketCode : Int) ++ (addU16 (category : Int) ++
          (addU16 (tradeAs : Int) ++ (addU16 (showAs : Int) ++ (addString name ++
            (addU16 (restrictProfession : Int) ++ (addU16 (requiredLevel : Int) ++
              (addU8 (T.ThingLastAttr : Int) ++ rest)))))))))))
      = Except.ok { done := true, count := 3, attr := T.ThingLastAttr, thing := t1,
                    stream := rest } := by
    rw [hloop1, ht1]
  have hun : ThingType.unserialize T A self clientId thingCategory
      (addU8 (lightCode : Int) ++ (addU16 (i : Int) ++ (addU16 (c : Int) ++
        (addU8 (marketCode : Int) ++ (addU16 (category : Int) ++
          (addU16 (tradeAs : Int) ++ (addU16 (showAs : Int) ++ (addString name ++
            (addU16 (restrictProfession : Int) ++ (addU16 (requiredLevel : Int) ++
              (addU8 (T.ThingLastAttr : Int) ++ rest)))))))))))
      = unserializeGeometry A thingCategory t1 rest := by
    unfold ThingType.unserialize
    rw [hloop2, bind_ok]
    rfl
  obtain ⟨g1, g2, g3, g4⟩ := hget t1.m_attribs (by rw [ht1]; exact hfind1 _)
    (by rw [ht1]; exact hfind2 _)
  refine ⟨t1, g1, g2, g3, g4, hloop2, hun, ?_⟩
  intro t r hok
  rw [hun] at hok
  have hat := unserializeGeometry_attribs A thingCategory t1 t rest r hok
  rw [hat]
  exact ⟨g1, g2, g3, g4⟩

set_option maxRecDepth 100000 in
/-- Witness of C15: the claim for the reference table (Light is read from the wire code
22, Market from 34, the terminator is 255) at i = 100, c = 215, category 1, tradeAs 100,
showAs 100, name "Sword", restrictProfession 0 and requiredLevel 0, followed by the
eleven bytes of an item of 1 x 1 tiles with the sprite id 7; `unserialize` returns for
this stream and consumes it. -/
theorem unserialize_light_market_witness :
    ((ThingType.unserialize thingAttr noAnimator ThingType.new 1 ThingCategory.Item
        [22, 100, 0, 215, 0, 34, 1, 0, 100, 0, 100, 0, 5, 0, 83, 119, 111, 114, 100, 0, 0,
          0, 0, 255, 1, 1, 1, 1, 1, 1, 1, 7, 0, 0, 0]).toOption.map
      fun r => (r.1.m_attribs.getLight 21, r.1.m_attribs.getMarket 33, r.2))
      = some ({ intensity := 100, color := 215 },
          { category := 1, tradeAs := 100, showAs := 100, name := [83, 119, 111, 114, 100],
            restrictProfession := 0, requiredLevel := 0 }, []) ∧
    ∃ t1 : ThingType,
      t1.m_attribs.has thingAttr.ThingAttrLight = true ∧
      t1.m_attribs.getLight thingAttr.ThingAttrLight = { intensity := 100, color := 215 } ∧
      t1.m_attribs.has thingAttr.ThingAttrMarket = true ∧
      t1.m_attribs.getMarket thingAttr.ThingAttrMarket =
        { category := 1, tradeAs := 100, showAs := 100, name := [83, 119, 111, 114, 100],
          restrictProfession := 0, requiredLevel := 0 } ∧
      unserializeAttrs thingAttr thingAttr.ThingLastAttr 0 (-1)
          { ThingType.new with m_null := false, m_id := 1, m_category := ThingCategory.Item }
          [22, 100, 0, 215, 0, 34, 1, 0, 100, 0, 100, 0, 5, 0, 83, 119, 111, 114, 100, 0, 0,
            0, 0, 255, 1, 1, 1, 1, 1, 1, 1, 7, 0, 0, 0]
        = Except.ok { done := true, count := 3, attr := thingAttr.ThingLastAttr, thing := t1,
                      stream := [1, 1, 1, 1, 1, 1, 1, 7, 0, 0, 0] } ∧
      ThingType.unserialize thingAttr noAnimator ThingType.new 1 ThingCategory.Item
          [22, 100, 0, 215, 0, 34, 1, 0, 100, 0, 100, 0, 5, 0, 83, 119, 111, 114, 100, 0, 0,
            0, 0, 255, 1, 1, 1, 1, 1, 1, 1, 7, 0, 0, 0]
        = unserializeGeometry noAnimator ThingCategory.Item t1
            [1, 1, 1, 1, 1, 1, 1, 7, 0, 0, 0] ∧
      ∀ t r, ThingType.unserialize thingAttr noAnimator ThingType.new 1 ThingCategory.Item
          [22, 100, 0, 215, 0, 34, 1, 0, 100, 0, 100, 0, 5, 0, 83, 119, 111, 114, 100, 0, 0,
            0, 0, 255, 1, 1, 1, 1, 1, 1, 1, 7, 0, 0, 0]
          = Except.ok (t, r) →
        t.m_attribs.has thingAttr.ThingAttrLight = true ∧
        t.m_attribs.getLight thingAttr.ThingAttrLight = { intensity := 100, color := 215 } ∧
        t.m_attribs.has thingAttr.ThingAttrMarket = true ∧
        t.m_attribs.getMarket thingAttr.ThingAttrMarket =
          { category := 1, tradeAs := 100, showAs := 100, name := [83, 119, 111, 114, 100],
            restrictProfession := 0, requiredLevel := 0 } :=
  ⟨by decide,
    unserialize_light_market thingAttr noAnimator
      (by unfold ThingAttrTable.distinctLabels; decide) (by decide) (by decide) 22 34
      (by decide) (by decide) (by decide) (by decide) (by decide) (by decide) ThingType.new 1
      ThingCategory.Item 100 215 1 100 100 0 0 [83, 119, 111, 114, 100] (by decide)
      (by decide) (by decide) (by decide) (by decide) (by decide) (by decide) (by decide)
      [1, 1, 1, 1, 1, 1, 1, 7, 0, 0, 0]⟩

/-! ## Payload written against payload read -/

set_option maxRecDepth 100000 in
/-- C17 fails for an item of 1 x 1 tiles with the sprite id 7 whose only attribute is the
light {100, 215} (reference table: Light is kind 21): `serialize` writes the wire code 22
for it and, switching on 22, no payload, so that the terminator 255 follows at once;
`unserialize` takes the wire code 22 for Light and consumes four bytes for it, the
terminator among them, reads on out of step and fails at the end of the data. -/
theorem serialize_light_misaligned :
    ({ ThingType.sample ThingCategory.Item 1 1 1 1 1 1 1 [7] with
        m_attribs := [(21, AttrValue.light { intensity := 100, color := 215 })] }
      : ThingType).m_attribs.has thingAttr.ThingAttrLight = true ∧
    thingAttr.serializeCode thingAttr.ThingAttrLight = 22 ∧
    serializeAttr thingAttr
      { ThingType.sample ThingCategory.Item 1 1 1 1 1 1 1 [7] with
        m_attribs := [(21, AttrValue.light { intensity := 100, color := 215 })] } 22 = [] ∧
    ({ ThingType.sample ThingCategory.Item 1 1 1 1 1 1 1 [7] with
        m_attribs := [(21, AttrValue.light { intensity := 100, color := 215 })] }
      : ThingType).serialize thingAttr noAnimator
      = [22, 255, 1, 1, 1, 1, 1, 1, 1, 7, 0, 0, 0] ∧
    thingAttr.unserializeCode 22 = thingAttr.ThingAttrLight ∧
    ((unserializeAttr thingAttr (thingAttr.unserializeCode 22) ThingType.new
        [255, 1, 1, 1, 1, 1, 1, 1, 7, 0, 0, 0]).toOption.map
      fun r => (r.1.m_attribs.getLight 21, r.2))
      = some ({ intensity := 511, color := 257 }, [1, 1, 1, 1, 7, 0, 0, 0]) ∧
    attrWireCodes thingAttr 255 ThingType.new [22, 255, 1, 1, 1, 1, 1, 1, 1, 7, 0, 0, 0]
      = [22, 1, 1, 1, 1, 7, 0] ∧
    ThingType.unserialize thingAttr noAnimator ThingType.new 0 ThingCategory.Item
        [22, 255, 1, 1, 1, 1, 1, 1, 1, 7, 0, 0, 0]
      = Except.error DecodeError.readFailed := by
  refine ⟨by decide, by decide, by decide, by decide, by decide, by decide, by decide, ?_⟩
  rfl

/-! ## Atlas dimensions: the result is returned and is the best candidate -/

theorem roundUpPow2_ge (w : Int) : w ≤ roundUpPow2 w := by
  unfold roundUpPow2
  have h := Nat.le_pow_clog (by norm_num : 1 < 2) w.toNat
  have h2 : ((w.toNat : Nat) : Int) ≤ ((2 ^ Nat.clog 2 w.toNat : Nat) : Int) := by
    exact_mod_cast h
  push_cast at h2
  exact le_trans (Int.self_le_toNat w) h2

theorem roundUpPow2_pos (w : Int) : 1 ≤ roundUpPow2 w := by
  unfold roundUpPow2
  exact one_le_pow₀ (by norm_num)

theorem clog_le_five (w : Int) (h : roundUpPow2 w ≤ 32) : Nat.clog 2 w.toNat ≤ 5 := by
  unfold roundUpPow2 at h
  by_contra hc
  have h6 : 6 ≤ Nat.clog 2 w.toNat := by omega
  have := pow_le_pow_right₀ (by norm_num : (1 : Int) ≤ 2) h6
  norm_num at this
  linarith

/-- The rounding loop, started at a power of two that is not above the rounded value,
returns the rounded value when the fuel lasts. -/
theorem roundUpLoop_eq (w : Int) (hc : Nat.clog 2 w.toNat ≤ 30) (fuel : Nat) :
    ∀ m : Nat, m ≤ Nat.clog 2 w.toNat → Nat.clog 2 w.toNat - m < fuel →
      roundUpLoop fuel (2 ^ m) w = some (roundUpPow2 w) := by
  induction fuel with
  | zero =>
    intro m _ h
    omega
  | succ fuel ih =>
    intro m hm hf
    obtain ⟨hk1, hk2⟩ := two_pow_le m (by omega)
    unfold roundUpLoop
    by_cases hlt : (2 : Int) ^ m < w
    · rw [if_pos hlt]
      have hlt2 : 2 ^ m < w.toNat := by
        rw [Int.lt_toNat]
        push_cast
        exact hlt
      have hmc : m < Nat.clog 2 w.toNat := (Nat.pow_lt_iff_lt_clog (by norm_num)).mp hlt2
      have hk3 : (2 : Int) ^ m < 1073741824 := by
        have := (two_pow_le (m + 1) (by omega)).2
        rw [pow_succ] at this
        linarith
      rw [shl1_of_range (by linarith) hk3, ← pow_succ]
      exact ih (m + 1) (by omega) (by omega)
    · rw [if_neg hlt]
      have hle : w.toNat ≤ 2 ^ m := by
        rw [Int.toNat_le]
        push_cast
        exact not_lt.mp hlt
      have hcm : Nat.clog 2 w.toNat ≤ m := (Nat.le_pow_iff_clog_le (by norm_num)).mp hle
      have : m = Nat.clog 2 w.toNat := by omega
      unfold roundUpPow2
      rw [← this]

theorem roundUpLoop_roundUpPow2 (w : Int) (h : roundUpPow2 w ≤ 32) :
    roundUpLoop 64 1 w = some (roundUpPow2 w) := by
  have hc := clog_le_five w h
  have := roundUpLoop_eq w (by omega) 64 0 (by omega) (by omega)
  rw [pow_zero] at this
  exact this

theorem Size.noWorse_refl (a : Size) : a.noWorse a := Or.inr ⟨rfl, le_refl _⟩

theorem Size.noWorse_trans {a b c : Size} (h1 : a.noWorse b) (h2 : b.noWorse c) :
    a.noWorse c := by
  unfold Size.noWorse at *
  rcases h1 with h1 | ⟨h1, h1s⟩ <;> rcases h2 with h2 | ⟨h2, h2s⟩
  · exact Or.inl (lt_trans h1 h2)
  · exact Or.inl (by rw [← h2]; exact h1)
  · exact Or.inl (by rw [h1]; exact h2)
  · exact Or.inr ⟨by rw [h1, h2], le_trans h1s h2s⟩

/-- One step of the inner loop: the size kept after the candidate `(i, j)` was seen. -/
theorem bestStep (numSprites i j : Int) (hi : 1 ≤ i ∧ i ≤ 32) (hj : 1 ≤ j ∧ j ≤ 32)
    (best : Size) (hbest : best.holds numSprites) :
    ∃ b2 : Size,
      (if (Size.mk i j).area < numSprites then best
        else if (Size.mk i j).area < best.area ∨
            ((Size.mk i j).area = best.area ∧ iadd i j < iadd best.width best.height)
          then Size.mk i j
        else best) = b2 ∧
      b2.holds numSprites ∧ (b2 = best ∨ b2 = Size.mk i j) ∧ b2.noWorse best ∧
      (numSprites ≤ i * j → b2.noWorse (Size.mk i j)) := by
  have ha : (Size.mk i j).area = i * j := area_of_range hi hj
  have hb : best.area = best.width * best.height := area_of_range hbest.1 hbest.2.1
  have hs1 : iadd i j = i + j :=
    iadd_of_range (by linarith [hi.1, hj.1]) (by linarith [hi.2, hj.2])
  have hs2 : iadd best.width best.height = best.width + best.height :=
    iadd_of_range (by linarith [hbest.1.1, hbest.2.1.1]) (by linarith [hbest.1.2, hbest.2.1.2])
  rw [ha, hb, hs1, hs2]
  by_cases c1 : i * j < numSprites
  · rw [if_pos c1]
    exact ⟨best, rfl, hbest, Or.inl rfl, Size.noWorse_refl _, fun h => absurd c1 (not_lt.mpr h)⟩
  · rw [if_neg c1]
    by_cases c2 : i * j < best.width * best.height ∨
        (i * j = best.width * best.height ∧ i + j < best.width + best.height)
    · rw [if_pos c2]
      refine ⟨Size.mk i j, rfl, ⟨hi, hj, not_lt.mp c1⟩, Or.inr rfl, ?_, fun _ =>
        Size.noWorse_refl _⟩
      rcases c2 with c2 | ⟨c2, c3⟩
      · exact Or.inl c2
      · exact Or.inr ⟨c2, le_of_lt c3⟩
    · rw [if_neg c2]
      refine ⟨best, rfl, hbest, Or.inl rfl, Size.noWorse_refl _, fun _ => ?_⟩
      rw [not_or, not_and] at c2
      rcases lt_or_eq_of_le (not_lt.mp c2.1) with h | h
      · exact Or.inl h
      · exact Or.inr ⟨h, not_lt.mp (c2.2 h.symm)⟩


theorem bestLoopJ_some (numSprites i : Int) (fuel : Nat) :
    ∀ (j : Int) (best : Size), 1 ≤ j → 32 < j * 2 ^ fuel →
      ∃ b, bestLoopJ numSprites i (fuel + 1) j best = some b := by
  induction fuel with
  | zero =>
    intro j best _ h
    rw [pow_zero, mul_one] at h
    unfold bestLoopJ
    rw [if_neg (not_le.mpr h)]
    exact ⟨best, rfl⟩
  | succ fuel ih =>
    intro j best hj h
    unfold bestLoopJ
    by_cases hle : j ≤ 32
    · rw [if_pos hle, shl1_of_range (by linarith) (by linarith)]
      exact ih (j * 2) _ (by linarith) (by rw [pow_succ] at h; linarith)
    · rw [if_neg hle]
      exact ⟨best, rfl⟩

theorem bestLoopI_some (numSprites h : Int) (hh : 1 ≤ h) (fuel : Nat) :
    ∀ (i : Int) (best : Size), 1 ≤ i → 32 < i * 2 ^ fuel →
      ∃ b, bestLoopI numSprites h (fuel + 1) i best = some b := by
  induction fuel with
  | zero =>
    intro i best _ hi2
    rw [pow_zero, mul_one] at hi2
    unfold bestLoopI
    rw [if_neg (not_le.mpr hi2)]
    exact ⟨best, rfl⟩
  | succ fuel ih =>
    intro i best hi hi2
    unfold bestLoopI
    by_cases hle : i ≤ 32
    · rw [if_pos hle]
      obtain ⟨b1, hb1⟩ := bestLoopJ_some numSprites i 63 h best hh
        (by nlinarith [pow_pos (by norm_num : (0 : Int) < 2) 63,
          (by norm_num : (32 : Int) < 2 ^ 63)])
      rw [hb1]
      dsimp only
      rw [shl1_of_range (by linarith) (by linarith)]
      exact ih (i * 2) _ (by linarith) (by rw [pow_succ] at hi2; linarith)
    · rw [if_neg hle]
      exact ⟨best, rfl⟩

/-- The inner loop keeps the size it was given or takes a candidate it has seen, never
gets worse, and ends no worse than every candidate `(i, j * 2 ^ k)` that is large
enough. -/
theorem bestLoopJ_best (numSprites i : Int) (hi : 1 ≤ i ∧ i ≤ 32) (fuel : Nat) :
    ∀ (j : Int) (best b : Size), 1 ≤ j → best.holds numSprites →
      bestLoopJ numSprites i fuel j best = some b →
      (b = best ∨ (b.width = i ∧ ∃ k : Nat, b.height = j * 2 ^ k)) ∧ b.noWorse best ∧
      ∀ k : Nat, j * 2 ^ k ≤ 32 → numSprites ≤ i * (j * 2 ^ k) →
        b.noWorse (Size.mk i (j * 2 ^ k)) := by
  induction fuel with
  | zero =>
    intro j best b _ _ h
    cases h
  | succ fuel ih =>
    intro j best b hj hbest h
    unfold bestLoopJ at h
    by_cases hle : j ≤ 32
    · rw [if_pos hle, shl1_of_range (by linarith) (by linarith)] at h
      obtain ⟨b2, hb2, hholds, hwhich, hnw, hcand⟩ :=
        bestStep numSprites i j hi ⟨hj, hle⟩ best hbest
      rw [hb2] at h
      obtain ⟨r1, r2, r3⟩ := ih (j * 2) b2 b (by linarith) hholds h
      refine ⟨?_, Size.noWorse_trans r2 hnw, ?_⟩
      · rcases r1 with r1 | ⟨r1, k, r1k⟩
        · rcases hwhich with hw | hw
          · exact Or.inl (by rw [r1, hw])
          · refine Or.inr ⟨by rw [r1, hw], 0, by rw [r1, hw, pow_zero, mul_one]⟩
        · exact Or.inr ⟨r1, k + 1, by rw [r1k, pow_succ]; ring⟩
      · intro k hk hn
        cases k with
        | zero =>
          rw [pow_zero, mul_one] at hn ⊢
          exact Size.noWorse_trans r2 (hcand hn)
        | succ k =>
          have e : j * 2 ^ (k + 1) = j * 2 * 2 ^ k := by rw [pow_succ]; ring
          rw [e] at hk hn ⊢
          exact r3 k hk hn
    · rw [if_neg hle] at h
      cases h
      refine ⟨Or.inl rfl, Size.noWorse_refl _, ?_⟩
      intro k hk _
      have : (1 : Int) ≤ 2 ^ k := one_le_pow₀ (by norm_num)
      nlinarith

/-- The outer loop keeps the size it was given or takes a candidate it has seen, never
gets worse, and ends no worse than every candidate `(i * 2 ^ a, h * 2 ^ k)` that is
large enough. -/
theorem bestLoopI_best (numSprites h : Int) (hh : 1 ≤ h) (fuel : Nat) :
    ∀ (i : Int) (best b : Size), 1 ≤ i → best.holds numSprites →
      bestLoopI numSprites h fuel i best = some b →
      (b = best ∨ ∃ a k : Nat, b.width = i * 2 ^ a ∧ b.height = h * 2 ^ k) ∧
      b.noWorse best ∧
      ∀ a k : Nat, i * 2 ^ a ≤ 32 → h * 2 ^ k ≤ 32 →
        numSprites ≤ i * 2 ^ a * (h * 2 ^ k) →
        b.noWorse (Size.mk (i * 2 ^ a) (h * 2 ^ k)) := by
  induction fuel with
  | zero =>
    intro i best b _ _ hb
    cases hb
  | succ fuel ih =>
    intro i best b hi hbest hb
    unfold bestLoopI at hb
    by_cases hle : i ≤ 32
    · rw [if_pos hle] at hb
      cases hj : bestLoopJ numSprites i 64 h best with
      | none =>
        rw [hj] at hb
        cases hb
      | some b1 =>
        rw [hj] at hb
        dsimp only at hb
        rw [shl1_of_range (by linarith) (by linarith)] at hb
        have hholds := bestLoopJ_holds numSprites i ⟨hi, hle⟩ 64 h best b1 hh hbest hj
        obtain ⟨j1, j2, j3⟩ := bestLoopJ_best numSprites i ⟨hi, hle⟩ 64 h best b1 hh hbest hj
        obtain ⟨r1, r2, r3⟩ := ih (i * 2) b1 b (by linarith) hholds hb
        refine ⟨?_, Size.noWorse_trans r2 j2, ?_⟩
        · rcases r1 with r1 | ⟨a, k, r1a, r1k⟩
          · rcases j1 with j1 | ⟨j1, k, j1k⟩
            · exact Or.inl (by rw [r1, j1])
            · exact Or.inr ⟨0, k, by rw [r1, j1, pow_zero, mul_one], by rw [r1, j1k]⟩
          · exact Or.inr ⟨a + 1, k, by rw [r1a, pow_succ]; ring, r1k⟩
        · intro a k ha hk hn
          cases a with
          | zero =>
            rw [pow_zero, mul_one] at hn ⊢
            exact Size.noWorse_trans r2 (j3 k hk hn)
          | succ a =>
            have e : i * 2 ^ (a + 1) = i * 2 * 2 ^ a := by rw [pow_succ]; ring
            rw [e] at ha hn ⊢
            exact r3 a k ha hk hn
    · rw [if_neg hle] at hb
      cases hb
      refine ⟨Or.inl rfl, Size.noWorse_refl _, ?_⟩
      intro a k ha _ _
      have : (1 : Int) ≤ 2 ^ a := one_le_pow₀ (by norm_num)
      nlinarith

/-- A power of two that is at least the power of two `2 ^ m` is `2 ^ m * 2 ^ k`. -/
theorem pow_two_factor (m a : Nat) (h : (2 : Int) ^ m ≤ 2 ^ a) :
    ∃ k : Nat, (2 : Int) ^ a = 2 ^ m * 2 ^ k := by
  have hma : m ≤ a := by
    by_contra hc
    have hlt : (2 : Int) ^ a < 2 ^ m := pow_lt_pow_right₀ (by norm_num) (by omega)
    linarith
  exact ⟨a - m, by rw [← pow_add]; congr 1; omega⟩

/-- Under its assertions and without overflow, `getBestTextureDimension` returns a
candidate: the rounded width and height, each doubled some number of times and at most
32, with enough area, and no worse than every candidate with enough area. -/
theorem getBestTextureDimension_candidate (w h n : Int)
    (hw : roundUpPow2 w ≤ 32) (hh : roundUpPow2 h ≤ 32)
    (hlo : -2147483648 ≤ roundUpPow2 w * roundUpPow2 h * n)
    (hhi : roundUpPow2 w * roundUpPow2 h * n ≤ 1024) :
    ∃ d : Size, getBestTextureDimension w h n = some d ∧
      (∃ a : Nat, d.width = roundUpPow2 w * 2 ^ a) ∧
      (∃ b : Nat, d.height = roundUpPow2 h * 2 ^ b) ∧
      d.width ≤ 32 ∧ d.height ≤ 32 ∧
      roundUpPow2 w * roundUpPow2 h * n ≤ d.width * d.height ∧
      ∀ a b : Nat, roundUpPow2 w * 2 ^ a ≤ 32 → roundUpPow2 h * 2 ^ b ≤ 32 →
        roundUpPow2 w * roundUpPow2 h * n ≤ roundUpPow2 w * 2 ^ a * (roundUpPow2 h * 2 ^ b) →
        d.noWorse (Size.mk (roundUpPow2 w * 2 ^ a) (roundUpPow2 h * 2 ^ b)) := by
  have hw1 := roundUpPow2_pos w
  have hh1 := roundUpPow2_pos h
  have hreal : imul (imul (roundUpPow2 w) (roundUpPow2 h)) n
      = roundUpPow2 w * roundUpPow2 h * n :=
    eq_of_modEq_of_range (imul_modEq (imul_modEq (Int.ModEq.refl _) (Int.ModEq.refl _))
      (Int.ModEq.refl _)) (wrapInt32_range _) ⟨hlo, by linarith⟩
  have h32 : (Size.mk 32 32).holds (roundUpPow2 w * roundUpPow2 h * n) :=
    ⟨⟨by norm_num, by norm_num⟩, ⟨by norm_num, by norm_num⟩, by
      show _ ≤ (32 : Int) * 32
      linarith⟩
  obtain ⟨d, hd⟩ := bestLoopI_some (roundUpPow2 w * roundUpPow2 h * n) (roundUpPow2 h) hh1 63
    (roundUpPow2 w) (Size.mk 32 32) hw1
    (by nlinarith [(by norm_num : (32 : Int) < 2 ^ 63)])
  have hholds := bestLoopI_holds _ _ hh1 64 _ _ d hw1 h32 hd
  obtain ⟨b1, -, b3⟩ := bestLoopI_best _ _ hh1 64 _ _ d hw1 h32 hd
  obtain ⟨⟨dw1, dw2⟩, ⟨dh1, dh2⟩, darea⟩ := hholds
  have hpw : ∃ m : Nat, roundUpPow2 w = 2 ^ m := ⟨_, rfl⟩
  have hph : ∃ m : Nat, roundUpPow2 h = 2 ^ m := ⟨_, rfl⟩
  obtain ⟨mw, hmw⟩ := hpw
  obtain ⟨mh, hmh⟩ := hph
  have hshape : (∃ a : Nat, d.width = roundUpPow2 w * 2 ^ a) ∧
      (∃ b : Nat, d.height = roundUpPow2 h * 2 ^ b) := by
    rcases b1 with b1 | ⟨a, k, b1a, b1k⟩
    · rw [b1]
      obtain ⟨k1, e1⟩ := pow_two_factor mw 5 (by rw [← hmw]; norm_num; exact hw)
      obtain ⟨k2, e2⟩ := pow_two_factor mh 5 (by rw [← hmh]; norm_num; exact hh)
      refine ⟨⟨k1, ?_⟩, ⟨k2, ?_⟩⟩
      · show (32 : Int) = _
        rw [hmw, ← e1]
        norm_num
      · show (32 : Int) = _
        rw [hmh, ← e2]
        norm_num
    · exact ⟨⟨a, b1a⟩, ⟨k, b1k⟩⟩
  refine ⟨d, ?_, hshape.1, hshape.2, dw2, dh2, darea, b3⟩
  unfold getBestTextureDimension
  rw [roundUpLoop_roundUpPow2 w hw, roundUpLoop_roundUpPow2 h hh]
  dsimp only
  rw [hreal, if_pos ⟨hhi, hw, hh⟩]
  exact hd

/-- C11 (amended): for every w, h and n with roundUpPow2(w) <= 32, roundUpPow2(h) <= 32
and -2^31 <= roundUpPow2(w) * roundUpPow2(h) * n <= 1024, `getBestTextureDimension`
returns a pair (W, H) of powers of two with roundUpPow2(w) <= W <= 32 and
roundUpPow2(h) <= H <= 32 whose area is at least n * roundUpPow2(w) * roundUpPow2(h),
and no such pair of that area or more has a smaller area, nor the same area and a
smaller W + H. -/
theorem getBestTextureDimension_best (w h n : Int)
    (hw : roundUpPow2 w ≤ 32) (hh : roundUpPow2 h ≤ 32)
    (hlo : -2147483648 ≤ roundUpPow2 w * roundUpPow2 h * n)
    (hhi : roundUpPow2 w * roundUpPow2 h * n ≤ 1024) :
    ∃ d : Size, getBestTextureDimension w h n = some d ∧
      (∃ a : Nat, d.width = 2 ^ a) ∧ (∃ b : Nat, d.height = 2 ^ b) ∧
      roundUpPow2 w ≤ d.width ∧ d.width ≤ 32 ∧
      roundUpPow2 h ≤ d.height ∧ d.height ≤ 32 ∧
      n * roundUpPow2 w * roundUpPow2 h ≤ d.width * d.height ∧
      ∀ a b : Nat, roundUpPow2 w ≤ 2 ^ a → (2 : Int) ^ a ≤ 32 →
        roundUpPow2 h ≤ 2 ^ b → (2 : Int) ^ b ≤ 32 →
        n * roundUpPow2 w * roundUpPow2 h ≤ 2 ^ a * 2 ^ b →
        ¬ ((2 : Int) ^ a * 2 ^ b < d.width * d.height) ∧
        ¬ ((2 : Int) ^ a * 2 ^ b = d.width * d.height ∧
            (2 : Int) ^ a + 2 ^ b < d.width + d.height) := by
  have hw1 := roundUpPow2_pos w
  have hh1 := roundUpPow2_pos h
  obtain ⟨d, hd, ⟨a, hda⟩, ⟨b, hdb⟩, dw2, dh2, darea, b3⟩ :=
    getBestTextureDimension_candidate w h n hw hh hlo hhi
  have hpw : ∃ m : Nat, roundUpPow2 w = 2 ^ m := ⟨_, rfl⟩
  have hph : ∃ m : Nat, roundUpPow2 h = 2 ^ m := ⟨_, rfl⟩
  obtain ⟨mw, hmw⟩ := hpw
  obtain ⟨mh, hmh⟩ := hph
  have ha1 : (1 : Int) ≤ 2 ^ a := one_le_pow₀ (by norm_num)
  have hb1 : (1 : Int) ≤ 2 ^ b := one_le_pow₀ (by norm_num)
  refine ⟨d, hd, ⟨mw + a, by rw [hda, hmw, pow_add]⟩, ⟨mh + b, by rw [hdb, hmh, pow_add]⟩,
    by rw [hda]; nlinarith, dw2, by rw [hdb]; nlinarith, dh2, by linarith, ?_⟩
  intro a2 b2 ha2 ha32 hb2 hb32 harea
  rw [hmw] at ha2
  rw [hmh] at hb2
  obtain ⟨k1, e1⟩ := pow_two_factor mw a2 ha2
  obtain ⟨k2, e2⟩ := pow_two_factor mh b2 hb2
  have hnw := b3 k1 k2 (by rw [hmw, ← e1]; exact ha32) (by rw [hmh, ← e2]; exact hb32)
    (by rw [hmw, hmh, ← e1, ← e2]; rw [hmw, hmh] at harea; linarith)
  rw [hmw, hmh, ← e1, ← e2] at hnw
  unfold Size.noWorse at hnw
  dsimp only at hnw
  constructor
  · intro hlt
    rcases hnw with h1 | ⟨h1, -⟩ <;> linarith
  · rintro ⟨heq, hlt⟩
    rcases hnw with h1 | ⟨-, h1⟩ <;> linarith

set_option maxRecDepth 100000 in
/-- Witness of C11: the amended claim at w = h = n = 1, where the size returned is
1 x 1. -/
theorem getBestTextureDimension_best_witness :
    getBestTextureDimension 1 1 1 = some (Size.mk 1 1) ∧
    ∃ d : Size, getBestTextureDimension 1 1 1 = some d ∧
      (∃ a : Nat, d.width = 2 ^ a) ∧ (∃ b : Nat, d.height = 2 ^ b) ∧
      roundUpPow2 1 ≤ d.width ∧ d.width ≤ 32 ∧
      roundUpPow2 1 ≤ d.height ∧ d.height ≤ 32 ∧
      1 * roundUpPow2 1 * roundUpPow2 1 ≤ d.width * d.height ∧
      ∀ a b : Nat, roundUpPow2 1 ≤ 2 ^ a → (2 : Int) ^ a ≤ 32 →
        roundUpPow2 1 ≤ 2 ^ b → (2 : Int) ^ b ≤ 32 →
        1 * roundUpPow2 1 * roundUpPow2 1 ≤ 2 ^ a * 2 ^ b →
        ¬ ((2 : Int) ^ a * 2 ^ b < d.width * d.height) ∧
        ¬ ((2 : Int) ^ a * 2 ^ b = d.width * d.height ∧
            (2 : Int) ^ a + 2 ^ b < d.width + d.height) :=
  ⟨by decide,
    getBestTextureDimension_best 1 1 1 (by simp [roundUpPow2]) (by simp [roundUpPow2])
      (by simp [roundUpPow2]) (by simp [roundUpPow2])⟩

set_option maxRecDepth 100000 in
/-- Counterexample to C11 as stated: for w = 64, h = 1, n = 1 the product
roundUpPow2(w) * roundUpPow2(h) * n is 64, which is at most 1024, yet the assertion
`w <= MAX` fails and no size is returned; and for w = 2, h = 1, n = -1073741825 the
product is below 1024 but wraps around to 2147483646 in the `int` numSprites, so that
the assertion `numSprites <= MAX*MAX` fails. -/
theorem getBestTextureDimension_wide :
    (roundUpPow2 64 * roundUpPow2 1 * 1 ≤ 1024 ∧ getBestTextureDimension 64 1 1 = none) ∧
    (roundUpPow2 2 * roundUpPow2 1 * (-1073741825) ≤ 1024 ∧
      getBestTextureDimension 2 1 (-1073741825) = none) := by
  refine ⟨⟨?_, by decide⟩, ⟨?_, by decide⟩⟩
  · simp [roundUpPow2, Nat.clog]
  · simp [roundUpPow2, Nat.clog]

/-! ## Placement of the frames in the atlas -/

/-- The column and the row of a frame index, for a number of columns that is at least
`colsMin` and an atlas of `colsMin * rowsMin` cells or more: the cell of the frame is
inside the atlas. -/
theorem cell_inside (idx n cols colsMin rowsMin w h tw th : Int) (hidx : 0 ≤ idx ∧ idx < n)
    (hn : n ≤ colsMin * rowsMin) (hc1 : 1 ≤ colsMin) (hc : colsMin ≤ cols)
    (hw : 1 ≤ w) (hh : 1 ≤ h) (hcw : cols * w ≤ tw) (hrh : rowsMin * h ≤ th) :
    (0 ≤ idx % cols ∧ idx % cols < cols) ∧ (0 ≤ idx / cols ∧ idx / cols < rowsMin) ∧
    idx % cols * w + w ≤ tw ∧ idx / cols * h + h ≤ th := by
  have hcols : 0 < cols := by linarith
  have hr0 : 0 ≤ rowsMin := by
    by_contra hneg
    have : colsMin * rowsMin < 0 := mul_neg_of_pos_of_neg (by linarith) (not_le.mp hneg)
    linarith [hidx.1, hidx.2]
  have h1 : 0 ≤ idx % cols := Int.emod_nonneg _ (ne_of_gt hcols)
  have h2 : idx % cols < cols := Int.emod_lt_of_pos _ hcols
  have h3 : 0 ≤ idx / cols := Int.ediv_nonneg hidx.1 (le_of_lt hcols)
  have h4 : idx / cols < rowsMin := by
    apply Int.ediv_lt_of_lt_mul hcols
    have : colsMin * rowsMin ≤ rowsMin * cols := by
      rw [mul_comm colsMin rowsMin]
      exact mul_le_mul_of_nonneg_left hc hr0
    linarith [hidx.2]
  refine ⟨⟨h1, h2⟩, ⟨h3, h4⟩, ?_, ?_⟩
  · have : (idx % cols + 1) * w ≤ cols * w :=
      mul_le_mul_of_nonneg_right (by linarith) (by linarith)
    linarith
  · have : (idx / cols + 1) * h ≤ rowsMin * h :=
      mul_le_mul_of_nonneg_right (by linarith) (by linarith)
    linarith

/-- The cells of two different frame indices share no tile. -/
theorem cell_disjoint (idx idx2 cols w h : Int) (hne : idx ≠ idx2) (hw : 0 ≤ w) (hh : 0 ≤ h) :
    idx % cols * w + w ≤ idx2 % cols * w ∨ idx2 % cols * w + w ≤ idx % cols * w ∨
    idx / cols * h + h ≤ idx2 / cols * h ∨ idx2 / cols * h + h ≤ idx / cols * h := by
  have e1 := Int.ediv_add_emod idx cols
  have e2 := Int.ediv_add_emod idx2 cols
  have key : ∀ a b k : Int, 0 ≤ k → a < b → a * k + k ≤ b * k := by
    intro a b k hk hab
    have : (a + 1) * k ≤ b * k := mul_le_mul_of_nonneg_right (by linarith) hk
    linarith
  rcases lt_trichotomy (idx % cols) (idx2 % cols) with hlt | heq | hgt
  · exact Or.inl (key _ _ w hw hlt)
  · rcases lt_trichotomy (idx / cols) (idx2 / cols) with hlt2 | heq2 | hgt2
    · exact Or.inr (Or.inr (Or.inl (key _ _ h hh hlt2)))
    · exfalso
      apply hne
      rw [← e1, ← e2, heq, heq2]
    · exact Or.inr (Or.inr (Or.inr (key _ _ h hh hgt2)))
  · exact Or.inr (Or.inl (key _ _ w hw hgt))

/-- The placement of the frames: the atlas size is returned, `framePos` is 32 times the
tile position of the cell, every cell lies inside the atlas, and the cells of two
different frame indices share no tile. -/
theorem framePos_cell (w h n : Int) (hw : 1 ≤ w) (hh : 1 ≤ h) (hn : 1 ≤ n)
    (hw32 : roundUpPow2 w ≤ 32) (hh32 : roundUpPow2 h ≤ 32)
    (hprod : roundUpPow2 w * roundUpPow2 h * n ≤ 1024) :
    ∃ d : Size, getBestTextureDimension w h n = some d ∧
      (∀ idx : Int, 0 ≤ idx → idx < n →
        framePos d (Size.mk w h) idx
          = Point.mk (idx % (d.width / w) * w * 32) (idx / (d.width / w) * h * 32) ∧
        0 ≤ idx % (d.width / w) * w ∧ idx % (d.width / w) * w + w ≤ d.width ∧
        0 ≤ idx / (d.width / w) * h ∧ idx / (d.width / w) * h + h ≤ d.height) ∧
      ∀ idx idx2 : Int, 0 ≤ idx → idx < n → 0 ≤ idx2 → idx2 < n → idx ≠ idx2 →
        idx % (d.width / w) * w + w ≤ idx2 % (d.width / w) * w ∨
        idx2 % (d.width / w) * w + w ≤ idx % (d.width / w) * w ∨
        idx / (d.width / w) * h + h ≤ idx2 / (d.width / w) * h ∨
        idx2 / (d.width / w) * h + h ≤ idx / (d.width / w) * h := by
  have hw1 := roundUpPow2_pos w
  have hh1 := roundUpPow2_pos h
  have hwge := roundUpPow2_ge w
  have hhge := roundUpPow2_ge h
  have hpos : 0 < roundUpPow2 w * roundUpPow2 h := mul_pos (by linarith) (by linarith)
  obtain ⟨d, hd, ⟨a, hda⟩, ⟨b, hdb⟩, dw2, dh2, darea, -⟩ :=
    getBestTextureDimension_candidate w h n hw32 hh32 (by nlinarith) hprod
  have ha1 : (1 : Int) ≤ 2 ^ a := one_le_pow₀ (by norm_num)
  have hb1 : (1 : Int) ≤ 2 ^ b := one_le_pow₀ (by norm_num)
  have hnab : n ≤ 2 ^ a * 2 ^ b := by
    have e : d.width * d.height = roundUpPow2 w * roundUpPow2 h * (2 ^ a * 2 ^ b) := by
      rw [hda, hdb]
      ring
    rw [e] at darea
    exact le_of_mul_le_mul_left darea hpos
  have hcols : (2 : Int) ^ a ≤ d.width / w := by
    apply Int.le_ediv_of_mul_le (by linarith)
    rw [hda, mul_comm]
    exact mul_le_mul_of_nonneg_right hwge (by linarith)
  have hcw : d.width / w * w ≤ d.width := Int.ediv_mul_le _ (by linarith)
  have hrh : (2 : Int) ^ b * h ≤ d.height := by
    rw [hdb, mul_comm]
    exact mul_le_mul_of_nonneg_right hhge (by linarith)
  have hc0 : 0 ≤ d.width / w := by linarith
  have hd0 : 0 ≤ d.width := by
    rw [hda]
    exact mul_nonneg (by linarith) (by linarith)
  refine ⟨d, hd, ?_, ?_⟩
  · intro idx h0 h1
    obtain ⟨⟨c1, c2⟩, ⟨r1, r2⟩, i1, i2⟩ := cell_inside idx n (d.width / w) (2 ^ a) (2 ^ b) w h
      d.width d.height ⟨h0, h1⟩ hnab ha1 hcols hw hh hcw hrh
    have p1 : 0 ≤ idx % (d.width / w) * w := mul_nonneg c1 (by linarith)
    have p2 : 0 ≤ idx / (d.width / w) * h := mul_nonneg r1 (by linarith)
    refine ⟨?_, p1, i1, p2, i2⟩
    unfold framePos Point.mul TILE_PIXELS imul
    dsimp only
    have e1 : wrapInt32 (idx % (d.width / w) * w) = idx % (d.width / w) * w :=
      wrapInt32_of_range (by linarith) (by linarith)
    have e2 : wrapInt32 (idx / (d.width / w) * h) = idx / (d.width / w) * h :=
      wrapInt32_of_range (by linarith) (by linarith)
    rw [Int.tdiv_eq_ediv hd0 (by linarith), Int.tmod_eq_emod h0 hc0, Int.tdiv_eq_ediv h0 hc0,
      e1, e2, wrapInt32_of_range (by linarith) (by linarith),
      wrapInt32_of_range (by linarith) (by linarith)]
  · intro idx idx2 _ _ _ _ hne
    exact cell_disjoint idx idx2 (d.width / w) w h hne (by linarith) (by linarith)

/-- C19 (amended): for every footprint width, height >= 1 with roundUpPow2(width) <= 32
and roundUpPow2(height) <= 32 and every frame count n >= 1 with roundUpPow2(width) *
roundUpPow2(height) * n <= 1024, `getBestTextureDimension(width, height, n)` returns a
size (tw, th), and with cols = tw / width every frame index idx < n is placed by
`getTexture` at the pixel 32 * ((idx mod cols) * width, (idx div cols) * height), the
tile cell [(idx mod cols) * width, + width) x [(idx div cols) * height, + height), which
lies inside the atlas [0, tw) x [0, th), and the cells of two distinct frame indices are
disjoint. -/
theorem framePos_inside (w h n : Int) (hw : 1 ≤ w) (hh : 1 ≤ h) (hn : 1 ≤ n)
    (hw32 : roundUpPow2 w ≤ 32) (hh32 : roundUpPow2 h ≤ 32)
    (hprod : roundUpPow2 w * roundUpPow2 h * n ≤ 1024) :
    ∃ d : Size, getBestTextureDimension w h n = some d ∧
      (∀ idx : Int, 0 ≤ idx → idx < n →
        framePos d (Size.mk w h) idx
          = Point.mk (idx % (d.width / w) * w * 32) (idx / (d.width / w) * h * 32) ∧
        0 ≤ idx % (d.width / w) * w ∧ idx % (d.width / w) * w + w ≤ d.width ∧
        0 ≤ idx / (d.width / w) * h ∧ idx / (d.width / w) * h + h ≤ d.height) ∧
      ∀ idx idx2 : Int, 0 ≤ idx → idx < n → 0 ≤ idx2 → idx2 < n → idx ≠ idx2 →
        idx % (d.width / w) * w + w ≤ idx2 % (d.width / w) * w ∨
        idx2 % (d.width / w) * w + w ≤ idx % (d.width / w) * w ∨
        idx / (d.width / w) * h + h ≤ idx2 / (d.width / w) * h ∨
        idx2 / (d.width / w) * h + h ≤ idx / (d.width / w) * h :=
  framePos_cell w h n hw hh hn hw32 hh32 hprod

set_option maxRecDepth 100000 in
/-- Witness of C19: the amended claim at a footprint of 3 x 5 tiles and 16 frames, where
the atlas is 16 x 32 tiles and has 5 columns. -/
theorem framePos_inside_witness :
    getBestTextureDimension 3 5 16 = some (Size.mk 16 32) ∧
    ∃ d : Size, getBestTextureDimension 3 5 16 = some d ∧
      (∀ idx : Int, 0 ≤ idx → idx < 16 →
        framePos d (Size.mk 3 5) idx
          = Point.mk (idx % (d.width / 3) * 3 * 32) (idx / (d.width / 3) * 5 * 32) ∧
        0 ≤ idx % (d.width / 3) * 3 ∧ idx % (d.width / 3) * 3 + 3 ≤ d.width ∧
        0 ≤ idx / (d.width / 3) * 5 ∧ idx / (d.width / 3) * 5 + 5 ≤ d.height) ∧
      ∀ idx idx2 : Int, 0 ≤ idx → idx < 16 → 0 ≤ idx2 → idx2 < 16 → idx ≠ idx2 →
        idx % (d.width / 3) * 3 + 3 ≤ idx2 % (d.width / 3) * 3 ∨
        idx2 % (d.width / 3) * 3 + 3 ≤ idx % (d.width / 3) * 3 ∨
        idx / (d.width / 3) * 5 + 5 ≤ idx2 / (d.width / 3) * 5 ∨
        idx2 / (d.width / 3) * 5 + 5 ≤ idx / (d.width / 3) * 5 :=
  ⟨by decide,
    framePos_inside 3 5 16 (by decide) (by decide) (by decide)
      (by simp [roundUpPow2, Nat.clog]) (by simp [roundUpPow2, Nat.clog])
      (by simp [roundUpPow2, Nat.clog])⟩

set_option maxRecDepth 100000 in
/-- Counterexample to C19 as stated: for a footprint of 1 x 64 tiles and one frame the
product roundUpPow2(width) * roundUpPow2(height) * n is 64, which is at most 1024, yet
the assertion `h <= MAX` fails and `getBestTextureDimension` returns no atlas size, and
no atlas of at most 32 x 32 tiles holds a cell that is 64 tiles high. -/
theorem getBestTextureDimension_high :
    (1 : Int) ≤ 1 ∧ (1 : Int) ≤ 64 ∧ roundUpPow2 1 * roundUpPow2 64 * 1 ≤ 1024 ∧
    getBestTextureDimension 1 64 1 = none := by
  refine ⟨by decide, by decide, ?_, by decide⟩
  simp [roundUpPow2, Nat.clog]

/-! ## Frame slots of the atlas -/

theorem mem_loopRange (start bound v : Int) :
    v ∈ loopRange start bound ↔ start ≤ v ∧ v < bound := by
  unfold loopRange
  rw [List.mem_map]
  constructor
  · rintro ⟨k, hk, rfl⟩
    rw [List.mem_range] at hk
    omega
  · rintro ⟨h1, h2⟩
    refine ⟨(v - start).toNat, ?_, ?_⟩
    · rw [List.mem_range]
      omega
    · omega

theorem mem_frameLoop (t : ThingType) (l x y z : Int) :
    (l, x, y, z) ∈ t.frameLoop ↔
      (0 ≤ l ∧ l < t.numLayers) ∧ (0 ≤ x ∧ x < t.m_numPatternX) ∧
      (0 ≤ y ∧ y < t.m_numPatternY) ∧ (0 ≤ z ∧ z < t.m_numPatternZ) := by
  unfold ThingType.frameLoop
  simp only [List.mem_flatMap, List.mem_map, mem_loopRange, Prod.mk.injEq]
  constructor
  · rintro ⟨z1, hz, y1, hy, x1, hx, l1, hl, rfl, rfl, rfl, rfl⟩
    exact ⟨hl, hx, hy, hz⟩
  · rintro ⟨hl, hx, hy, hz⟩
    exact ⟨z, hz, y, hy, x, hx, l, hl, rfl, rfl, rfl, rfl⟩

theorem textureLayers_cases (t : ThingType) : t.textureLayers = 1 ∨ t.textureLayers = 5 := by
  unfold ThingType.textureLayers
  split
  · exact Or.inr rfl
  · exact Or.inl rfl

theorem tmod_range (l n : Int) (hl : 0 ≤ l) (hn : 0 < n) :
    0 ≤ Int.tmod l n ∧ Int.tmod l n < n := by
  rw [Int.tmod_eq_emod hl (le_of_lt hn)]
  exact ⟨Int.emod_nonneg _ (ne_of_gt hn), Int.emod_lt_of_pos _ hn⟩

/-- The product of the layer count of the texture and three pattern extents that fit a
byte fits an `int`. -/
theorem slots_range {n x y z : Int} (hn : 0 ≤ n ∧ n ≤ 5) (hx : 0 ≤ x ∧ x ≤ 255)
    (hy : 0 ≤ y ∧ y ≤ 255) (hz : 0 ≤ z ∧ z ≤ 255) :
    0 ≤ n * z * y * x ∧ n * z * y * x ≤ 82906875 := by
  have h1 : 0 ≤ n * z := mul_nonneg hn.1 hz.1
  have h2 : n * z ≤ 5 * 255 := mul_le_mul hn.2 hz.2 hz.1 (by norm_num)
  have h3 : 0 ≤ n * z * y := mul_nonneg h1 hy.1
  have h4 : n * z * y ≤ 5 * 255 * 255 := mul_le_mul h2 hy.2 hy.1 (by norm_num)
  have h5 : 0 ≤ n * z * y * x := mul_nonneg h3 hx.1
  have h6 : n * z * y * x ≤ 5 * 255 * 255 * 255 := mul_le_mul h4 hx.2 hx.1 (by norm_num)
  exact ⟨h5, by linarith⟩

/-- Without overflow, `getTextureIndex` is the mixed-radix number of `(l, z, y, x)`. -/
theorem getTextureIndex_eq (t : ThingType) (n l x y z : Int) (hn : n ≤ 5)
    (hl : 0 ≤ l ∧ l < n)
    (hx : (0 ≤ x ∧ x < t.m_numPatternX) ∧ t.m_numPatternX ≤ 255)
    (hy : (0 ≤ y ∧ y < t.m_numPatternY) ∧ t.m_numPatternY ≤ 255)
    (hz : (0 ≤ z ∧ z < t.m_numPatternZ) ∧ t.m_numPatternZ ≤ 255) :
    (t.getTextureIndex l x y z : Int)
        = ((l * t.m_numPatternZ + z) * t.m_numPatternY + y) * t.m_numPatternX + x ∧
      0 ≤ ((l * t.m_numPatternZ + z) * t.m_numPatternY + y) * t.m_numPatternX + x ∧
      ((l * t.m_numPatternZ + z) * t.m_numPatternY + y) * t.m_numPatternX + x
        < n * t.m_numPatternZ * t.m_numPatternY * t.m_numPatternX ∧
      n * t.m_numPatternZ * t.m_numPatternY * t.m_numPatternX ≤ 82906875 := by
  obtain ⟨a0, a1⟩ := radix_range hl.1 hl.2 hz.1.1 hz.1.2
  obtain ⟨b0, b1⟩ := radix_range a0 a1 hy.1.1 hy.1.2
  obtain ⟨c0, c1⟩ := radix_range b0 b1 hx.1.1 hx.1.2
  obtain ⟨-, d1⟩ := @slots_range n t.m_numPatternX t.m_numPatternY t.m_numPatternZ
    ⟨by linarith [hl.1, hl.2], hn⟩
    ⟨by linarith [hx.1.1, hx.1.2], hx.2⟩ ⟨by linarith [hy.1.1, hy.1.2], hy.2⟩
    ⟨by linarith [hz.1.1, hz.1.2], hz.2⟩
  refine ⟨?_, c0, c1, d1⟩
  unfold ThingType.getTextureIndex
  exact toUInt32_of_modEq
    (iadd_modEq (imul_modEq (iadd_modEq (imul_modEq (iadd_modEq (imul_modEq
      (Int.ModEq.refl _) (Int.ModEq.refl _)) (Int.ModEq.refl _)) (Int.ModEq.refl _))
      (Int.ModEq.refl _)) (Int.ModEq.refl _)) (Int.ModEq.refl _)) c0 (by linarith)

theorem indexSize_eq (t : ThingType) (hx : 0 ≤ t.m_numPatternX ∧ t.m_numPatternX ≤ 255)
    (hy : 0 ≤ t.m_numPatternY ∧ t.m_numPatternY ≤ 255)
    (hz : 0 ≤ t.m_numPatternZ ∧ t.m_numPatternZ ≤ 255) :
    t.indexSize = t.textureLayers * t.m_numPatternZ * t.m_numPatternY * t.m_numPatternX := by
  have hn : 0 ≤ t.textureLayers ∧ t.textureLayers ≤ 5 := by
    rcases textureLayers_cases t with h | h <;> rw [h] <;> norm_num
  obtain ⟨d0, d1⟩ := slots_range hn hx hy hz
  have e : t.textureLayers * t.m_numPatternX * t.m_numPatternY * t.m_numPatternZ
      = t.textureLayers * t.m_numPatternZ * t.m_numPatternY * t.m_numPatternX := by ring
  unfold ThingType.indexSize
  rw [← e] at d0 d1 ⊢
  exact eq_of_modEq_of_range
    (imul_modEq (imul_modEq (imul_modEq (Int.ModEq.refl _) (Int.ModEq.refl _))
      (Int.ModEq.refl _)) (Int.ModEq.refl _)) (wrapInt32_range _)
    ⟨by linarith, by linarith⟩

/-- The frame index of a run of the loops, for pattern extents that fit a byte. -/
theorem frameIndex_eq (t : ThingType) (l x y z : Int) (hl : 0 ≤ l)
    (hx : (0 ≤ x ∧ x < t.m_numPatternX) ∧ t.m_numPatternX ≤ 255)
    (hy : (0 ≤ y ∧ y < t.m_numPatternY) ∧ t.m_numPatternY ≤ 255)
    (hz : (0 ≤ z ∧ z < t.m_numPatternZ) ∧ t.m_numPatternZ ≤ 255) :
    t.frameIndex l x y z
        = ((Int.tmod l t.textureLayers * t.m_numPatternZ + z) * t.m_numPatternY + y)
          * t.m_numPatternX + x ∧
      0 ≤ t.frameIndex l x y z ∧ t.frameIndex l x y z < t.indexSize := by
  have hn : 0 < t.textureLayers ∧ t.textureLayers ≤ 5 := by
    rcases textureLayers_cases t with h | h <;> rw [h] <;> norm_num
  obtain ⟨e1, e2, e3, e4⟩ := getTextureIndex_eq t t.textureLayers
    (Int.tmod l t.textureLayers) x y z hn.2 (tmod_range l _ hl hn.1) hx hy hz
  have e5 := indexSize_eq t ⟨by linarith [hx.1.1, hx.1.2], hx.2⟩
    ⟨by linarith [hy.1.1, hy.1.2], hy.2⟩ ⟨by linarith [hz.1.1, hz.1.2], hz.2⟩
  have e6 : t.frameIndex l x y z
      = ((Int.tmod l t.textureLayers * t.m_numPatternZ + z) * t.m_numPatternY + y)
        * t.m_numPatternX + x := by
    unfold ThingType.frameIndex
    rw [e1]
    exact wrapInt32_of_range (by linarith) (by linarith)
  rw [e6, e5]
  exact ⟨rfl, e2, e3⟩

/-- C20: in `getTexture`, for every descriptor whose pattern extents are bytes, as
`unserialize` stores them, of every category and with every layer count, every
`frameIndex = getTextureIndex(l % textureLayers, x, y, z)` computed in the loops is at
least 0 and below `indexSize`, two runs of the loops with different
`(l % textureLayers, x, y, z)` never get the same `frameIndex`, and for a Creature with
at least two layers the five layers of every pattern get five distinct frame slots. -/
theorem frameIndex_lt_indexSize (t : ThingType)
    (hx : 0 ≤ t.m_numPatternX ∧ t.m_numPatternX ≤ 255)
    (hy : 0 ≤ t.m_numPatternY ∧ t.m_numPatternY ≤ 255)
    (hz : 0 ≤ t.m_numPatternZ ∧ t.m_numPatternZ ≤ 255) :
    (∀ l x y z : Int, (l, x, y, z) ∈ t.frameLoop →
      0 ≤ t.frameIndex l x y z ∧ t.frameIndex l x y z < t.indexSize) ∧
    (∀ l x y z l2 x2 y2 z2 : Int, (l, x, y, z) ∈ t.frameLoop → (l2, x2, y2, z2) ∈ t.frameLoop →
      t.frameIndex l x y z = t.frameIndex l2 x2 y2 z2 →
      Int.tmod l t.textureLayers = Int.tmod l2 t.textureLayers ∧ x = x2 ∧ y = y2 ∧ z = z2) ∧
    (t.m_category = ThingCategory.Creature → t.m_layers ≥ 2 →
      (∀ l x y z : Int, (l, x, y, z) ∈ t.frameLoop ↔
        (0 ≤ l ∧ l < 5) ∧ (0 ≤ x ∧ x < t.m_numPatternX) ∧
        (0 ≤ y ∧ y < t.m_numPatternY) ∧ (0 ≤ z ∧ z < t.m_numPatternZ)) ∧
      ∀ l x y z l2 x2 y2 z2 : Int, (l, x, y, z) ∈ t.frameLoop →
        (l2, x2, y2, z2) ∈ t.frameLoop →
        t.frameIndex l x y z = t.frameIndex l2 x2 y2 z2 →
        l = l2 ∧ x = x2 ∧ y = y2 ∧ z = z2) := by
  have hn : 0 < t.textureLayers ∧ t.textureLayers ≤ 5 := by
    rcases textureLayers_cases t with h | h <;> rw [h] <;> norm_num
  have hinj : ∀ l x y z l2 x2 y2 z2 : Int, (l, x, y, z) ∈ t.frameLoop →
      (l2, x2, y2, z2) ∈ t.frameLoop →
      t.frameIndex l x y z = t.frameIndex l2 x2 y2 z2 →
      Int.tmod l t.textureLayers = Int.tmod l2 t.textureLayers ∧ x = x2 ∧ y = y2 ∧ z = z2 := by
    intro l x y z l2 x2 y2 z2 h1 h2 heq
    rw [mem_frameLoop] at h1 h2
    obtain ⟨hl1, hx1, hy1, hz1⟩ := h1
    obtain ⟨hl2, hx2, hy2, hz2⟩ := h2
    rw [(frameIndex_eq t l x y z hl1.1 ⟨hx1, hx.2⟩ ⟨hy1, hy.2⟩ ⟨hz1, hz.2⟩).1,
      (frameIndex_eq t l2 x2 y2 z2 hl2.1 ⟨hx2, hx.2⟩ ⟨hy2, hy.2⟩ ⟨hz2, hz.2⟩).1] at heq
    obtain ⟨q1, r1⟩ := radix_inj hx1.1 hx1.2 hx2.1 hx2.2 heq
    obtain ⟨q2, r2⟩ := radix_inj hy1.1 hy1.2 hy2.1 hy2.2 q1
    obtain ⟨q3, r3⟩ := radix_inj hz1.1 hz1.2 hz2.1 hz2.2 q2
    exact ⟨q3, r1, r2, r3⟩
  refine ⟨?_, hinj, ?_⟩
  · intro l x y z h1
    rw [mem_frameLoop] at h1
    obtain ⟨hl1, hx1, hy1, hz1⟩ := h1
    exact (frameIndex_eq t l x y z hl1.1 ⟨hx1, hx.2⟩ ⟨hy1, hy.2⟩ ⟨hz1, hz.2⟩).2
  · intro hcat hlay
    have htl : t.textureLayers = 5 := by
      unfold ThingType.textureLayers
      rw [if_pos ⟨hcat, hlay⟩]
    have hnl : t.numLayers = 5 := by
      unfold ThingType.numLayers
      rw [if_pos ⟨hcat, hlay⟩]
    constructor
    · intro l x y z
      rw [mem_frameLoop, hnl]
    · intro l x y z l2 x2 y2 z2 h1 h2 heq
      obtain ⟨e1, e2, e3, e4⟩ := hinj l x y z l2 x2 y2 z2 h1 h2 heq
      rw [mem_frameLoop, hnl] at h1 h2
      rw [htl, Int.tmod_eq_emod h1.1.1 (by norm_num), Int.tmod_eq_emod h2.1.1 (by norm_num),
        Int.emod_eq_of_lt h1.1.1 h1.1.2, Int.emod_eq_of_lt h2.1.1 h2.1.2] at e1
      exact ⟨e1, e2, e3, e4⟩

/-- Witness of C20: the claim at a Creature of two layers with the pattern extents
4 x 1 x 1. -/
theorem frameIndex_lt_indexSize_witness :
    (∀ l x y z : Int,
      (l, x, y, z) ∈ (ThingType.sample ThingCategory.Creature 1 1 2 4 1 1 1 []).frameLoop →
      0 ≤ (ThingType.sample ThingCategory.Creature 1 1 2 4 1 1 1 []).frameIndex l x y z ∧
      (ThingType.sample ThingCategory.Creature 1 1 2 4 1 1 1 []).frameIndex l x y z
        < (ThingType.sample ThingCategory.Creature 1 1 2 4 1 1 1 []).indexSize) ∧
    (ThingType.sample ThingCategory.Creature 1 1 2 4 1 1 1 []).indexSize = 20 ∧
    (ThingType.sample ThingCategory.Creature 1 1 2 4 1 1 1 []).frameLoop.map
        (fun e => (ThingType.sample ThingCategory.Creature 1 1 2 4 1 1 1 []).frameIndex
          e.1 e.2.1 e.2.2.1 e.2.2.2)
      = [0, 4, 8, 12, 16, 1, 5, 9, 13, 17, 2, 6, 10, 14, 18, 3, 7, 11, 15, 19] :=
  ⟨(frameIndex_lt_indexSize (ThingType.sample ThingCategory.Creature 1 1 2 4 1 1 1 [])
      (by decide) (by decide) (by decide)).1,
    by decide, by decide⟩

/-! ## The scan for the pixels that are not transparent -/

theorem ScanInv.refl (alpha : Int → Int → Nat) (r : Rect) :
    ScanInv alpha (fun _ _ => False) r r :=
  ⟨⟨le_refl _, le_refl _, le_refl _, le_refl _⟩, fun _ _ h => h.elim, Or.inl rfl, Or.inl rfl,
    Or.inl rfl, Or.inl rfl⟩

theorem ScanInv.congr {alpha : Int → Int → Nat} {S S2 : Int → Int → Prop} {r0 r : Rect}
    (h : ScanInv alpha S r0 r) (hS : ∀ x y, S x y ↔ S2 x y) : ScanInv alpha S2 r0 r := by
  obtain ⟨h1, h2, h3, h4, h5, h6⟩ := h
  refine ⟨h1, fun x y hs => h2 x y ((hS x y).mpr hs), ?_, ?_, ?_, ?_⟩
  · rcases h3 with h | ⟨x, y, hs, ha, he⟩
    · exact Or.inl h
    · exact Or.inr ⟨x, y, (hS x y).mp hs, ha, he⟩
  · rcases h4 with h | ⟨x, y, hs, ha, he⟩
    · exact Or.inl h
    · exact Or.inr ⟨x, y, (hS x y).mp hs, ha, he⟩
  · rcases h5 with h | ⟨x, y, hs, ha, he⟩
    · exact Or.inl h
    · exact Or.inr ⟨x, y, (hS x y).mp hs, ha, he⟩
  · rcases h6 with h | ⟨x, y, hs, ha, he⟩
    · exact Or.inl h
    · exact Or.inr ⟨x, y, (hS x y).mp hs, ha, he⟩

theorem ScanInv.trans {alpha : Int → Int → Nat} {S1 S2 : Int → Int → Prop} {r0 r1 r2 : Rect}
    (h : ScanInv alpha S1 r0 r1) (k : ScanInv alpha S2 r1 r2) :
    ScanInv alpha (fun x y => S1 x y ∨ S2 x y) r0 r2 := by
  obtain ⟨⟨a1, a2, a3, a4⟩, h2, h3, h4, h5, h6⟩ := h
  obtain ⟨⟨b1, b2, b3, b4⟩, k2, k3, k4, k5, k6⟩ := k
  refine ⟨⟨le_trans b1 a1, le_trans b2 a2, le_trans a3 b3, le_trans a4 b4⟩, ?_, ?_, ?_, ?_, ?_⟩
  · intro x y hs ha
    rcases hs with hs | hs
    · obtain ⟨c1, c2, c3, c4⟩ := h2 x y hs ha
      exact ⟨le_trans b1 c1, le_trans b2 c2, le_trans c3 b3, le_trans c4 b4⟩
    · exact k2 x y hs ha
  · rcases k3 with e | ⟨x, y, hs, ha, he⟩
    · rcases h3 with e2 | ⟨x, y, hs, ha, he⟩
      · exact Or.inl (e.trans e2)
      · exact Or.inr ⟨x, y, Or.inl hs, ha, e.trans he⟩
    · exact Or.inr ⟨x, y, Or.inr hs, ha, he⟩
  · rcases k4 with e | ⟨x, y, hs, ha, he⟩
    · rcases h4 with e2 | ⟨x, y, hs, ha, he⟩
      · exact Or.inl (e.trans e2)
      · exact Or.inr ⟨x, y, Or.inl hs, ha, e.trans he⟩
    · exact Or.inr ⟨x, y, Or.inr hs, ha, he⟩
  · rcases k5 with e | ⟨x, y, hs, ha, he⟩
    · rcases h5 with e2 | ⟨x, y, hs, ha, he⟩
      · exact Or.inl (e.trans e2)
      · exact Or.inr ⟨x, y, Or.inl hs, ha, e.trans he⟩
    · exact Or.inr ⟨x, y, Or.inr hs, ha, he⟩
  · rcases k6 with e | ⟨x, y, hs, ha, he⟩
    · rcases h6 with e2 | ⟨x, y, hs, ha, he⟩
      · exact Or.inl (e.trans e2)
      · exact Or.inr ⟨x, y, Or.inl hs, ha, e.trans he⟩
    · exact Or.inr ⟨x, y, Or.inr hs, ha, he⟩

end Thing
